import Mathlib

/-!
betanet: ClientHello builder and JA3/JA4 fingerprint parser

Shallow embedding of

* `internal/template/template.go` : `GenerateClientHello`
* `internal/fingerprint/fingerprint.go` : `CalculateJA3`, `CalculateJA4`,
  `extractJA3Components`, `extractJA4Components`

Conventions of the embedding.

* A Go `[]byte` is a `List Nat`; every byte the code produces is reduced `% 256`.
* A Go `string` holding data is a `List Char` (`GoString`); error texts are `String`.
* A Go call returning `(value, error)` is an `Outcome`: `ok` for a nil error, `error` for a
  non-nil error, `panic` for a run-time panic (index or slice bound out of range).
  `outOfFuel` is not a behaviour of the code: loops are modelled by recursion on a fuel
  counter, and the fuel handed to every loop is shown to be sufficient.
* Go `int` values that can be negative in a template (`ExtensionTemplate.Type`,
  compression methods) are `Int`; lengths and positions are `Nat`.
* The standard-library calls of the code are modelled by executable definitions:
  `strconv.Itoa` (`Itoa`), `strings.Join` (`Join`), `md5.Sum` (`md5Sum`),
  `base64.StdEncoding.DecodeString` (`DecodeString`), `fmt.Sscanf` with the format `0x%x`
  and a `uint16` target (`Sscanf`), `fmt.Sprintf("%x", ...)` (`hexString`).
* `WireHead` describes, in the words of the specification, the record layout that the
  parser expects; it is not part of the code.
-/

namespace Betanet

/-! ## Outcomes of Go calls -/

/-- Outcome of a Go call: normal return with a value, normal return with a non-nil error,
run-time panic, or exhaustion of the fuel of the model. -/
inductive Outcome (α : Type) where
  | ok (val : α)
  | error (msg : String)
  | panic
  | outOfFuel
  deriving DecidableEq, Repr

/-- Sequencing of outcomes: everything but `ok` is propagated. -/
def Outcome.bind {α β : Type} (x : Outcome α) (f : α → Outcome β) : Outcome β :=
  match x with
  | .ok a => f a
  | .error m => .error m
  | .panic => .panic
  | .outOfFuel => .outOfFuel

instance : Monad Outcome where
  pure := Outcome.ok
  bind := Outcome.bind

/-- The call returned normally (with a value or with an error value). -/
def Outcome.returns {α : Type} : Outcome α → Bool
  | .ok _ => true
  | .error _ => true
  | .panic => false
  | .outOfFuel => false

/-- The call returned a value and a nil error. -/
def Outcome.isOk {α : Type} : Outcome α → Bool
  | .ok _ => true
  | _ => false

/-- The call returned a non-nil error. -/
def Outcome.isError {α : Type} : Outcome α → Bool
  | .error _ => true
  | _ => false

/-- A Go string that carries data, as its list of characters. -/
abbrev GoString := List Char

/-! ## Byte access -/

/-- Go index expression `b[i]` on a byte slice: panics when `i` is out of range. -/
def index (b : List Nat) (i : Nat) : Outcome Nat :=
  match b[i]? with
  | some v => .ok v
  | none => .panic

/-- Go `binary.BigEndian.Uint16(b[pos:pos+2])`: panics when the slice bound is out of range. -/
def uint16At (b : List Nat) (pos : Nat) : Outcome Nat :=
  match b[pos]?, b[pos + 1]? with
  | some hi, some lo => .ok (hi * 256 + lo)
  | _, _ => .panic

/-- Go `strconv.Itoa` on a non-negative integer. -/
def Itoa (n : Nat) : GoString := Nat.toDigits 10 n

/-- Go `strings.Join`. -/
def Join (elems : List GoString) (sep : GoString) : GoString := sep.intercalate elems

/-! ## fingerprint.go -/

/-- Components used in the JA3 calculation (`JA3Components`). -/
structure JA3Components where
  TLSVersion : Nat := 0
  CipherSuites : List GoString := []
  Extensions : List GoString := []
  EllipticCurves : List GoString := []
  EllipticCurvePointFormats : List GoString := []
  deriving DecidableEq, Repr

/-- Components used in the JA4 calculation (`JA4Components`). -/
structure JA4Components where
  TLSVersion : Nat := 0
  DTLSVersion : Nat := 0
  HandshakeVersion : Nat := 0
  CipherSuites : List GoString := []
  Extensions : List GoString := []
  EllipticCurves : List GoString := []
  EllipticCurvePointFormats : List GoString := []
  SignatureAlgorithms : List GoString := []
  RenegotiationInfo : List GoString := []
  UnknownExtensions : List GoString := []
  deriving DecidableEq, Repr

/-- Loop `for i := 0; i < cipherSuitesLen; i += 2` of `extractJA3Components`
(fingerprint.go lines 152-158), started at `i` with the suites gathered so far. -/
def cipherSuitesLoop (clientHello : List Nat) (pos cipherSuitesLen : Nat) :
    Nat → Nat → List GoString → Outcome (List GoString)
  | 0, _, _ => .outOfFuel
  | fuel + 1, i, suites =>
    if i < cipherSuitesLen then
      if pos + i + 2 > clientHello.length then .ok suites
      else do
        let suite ← uint16At clientHello (pos + i)
        cipherSuitesLoop clientHello pos cipherSuitesLen fuel (i + 2) (suites ++ [Itoa suite])
    else .ok suites

/-- Loop over the group codes of a supported_groups extension (fingerprint.go lines 190-193);
`pos` is the position after the 2-byte inner length. -/
def groupsLoop (clientHello : List Nat) (pos extLen groupsLen : Nat) :
    Nat → Nat → List GoString → Outcome (List GoString)
  | 0, _, _ => .outOfFuel
  | fuel + 1, i, curves =>
    if i < groupsLen ∧ pos + i + 2 ≤ clientHello.length ∧ pos + i + 2 ≤ pos + extLen then do
      let group ← uint16At clientHello (pos + i)
      groupsLoop clientHello pos extLen groupsLen fuel (i + 2) (curves ++ [Itoa group])
    else .ok curves

/-- Loop over the format codes of an ec_point_formats extension (fingerprint.go lines 199-202);
`pos` is the position after the 1-byte inner length. -/
def formatsLoop (clientHello : List Nat) (pos extLen formatsLen : Nat) :
    Nat → Nat → List GoString → Outcome (List GoString)
  | 0, _, _ => .outOfFuel
  | fuel + 1, i, formats =>
    if i < formatsLen ∧ pos + i < clientHello.length ∧ pos + i < pos + extLen then do
      let format ← index clientHello (pos + i)
      formatsLoop clientHello pos extLen formatsLen fuel (i + 1) (formats ++ [Itoa format])
    else .ok formats

/-- Extensions loop `for pos < extensionsEnd && pos+4 <= len(clientHello)` of
`extractJA3Components` (fingerprint.go lines 177-207). -/
def extensionsLoop (clientHello : List Nat) (extensionsEnd : Nat) :
    Nat → Nat → JA3Components → Outcome JA3Components
  | 0, _, _ => .outOfFuel
  | fuel + 1, pos, components =>
    if pos < extensionsEnd ∧ pos + 4 ≤ clientHello.length then do
      let extType ← uint16At clientHello pos
      let extLen ← uint16At clientHello (pos + 2)
      let pos := pos + 4
      let components := { components with Extensions := components.Extensions ++ [Itoa extType] }
      if extType = 0x000a then
        if pos + 2 ≤ clientHello.length ∧ pos + 2 ≤ pos + extLen then do
          let groupsLen ← uint16At clientHello pos
          let pos := pos + 2
          let curves ← groupsLoop clientHello pos extLen groupsLen (groupsLen + 1) 0
            components.EllipticCurves
          extensionsLoop clientHello extensionsEnd fuel (pos + extLen)
            { components with EllipticCurves := curves }
        else
          extensionsLoop clientHello extensionsEnd fuel (pos + extLen) components
      else if extType = 0x000b then
        if pos + 1 ≤ clientHello.length ∧ pos + 1 ≤ pos + extLen then do
          let formatsLen ← index clientHello pos
          let pos := pos + 1
          let formats ← formatsLoop clientHello pos extLen formatsLen (formatsLen + 1) 0
            components.EllipticCurvePointFormats
          extensionsLoop clientHello extensionsEnd fuel (pos + extLen)
            { components with EllipticCurvePointFormats := formats }
        else
          extensionsLoop clientHello extensionsEnd fuel (pos + extLen) components
      else
        extensionsLoop clientHello extensionsEnd fuel (pos + extLen) components
    else .ok components

/-- Go `extractJA3Components` (fingerprint.go lines 116-210). -/
def extractJA3Components (clientHello : List Nat) : Outcome JA3Components :=
  let components : JA3Components := {}
  -- Skip TLS record header (5 bytes), skip handshake header (4 bytes)
  let pos := 9
  if pos + 2 > clientHello.length then .error "insufficient data for TLS version"
  else do
    let tlsVersion ← uint16At clientHello pos
    let components := { components with TLSVersion := tlsVersion }
    let pos := pos + 2
    -- Skip random (32 bytes)
    let pos := pos + 32
    if pos ≥ clientHello.length then .error "insufficient data for session ID length"
    else do
      let sessionIDLen ← index clientHello pos
      let pos := pos + 1
      let pos := pos + sessionIDLen
      if pos + 2 > clientHello.length then .error "insufficient data for cipher suites length"
      else do
        let cipherSuitesLen ← uint16At clientHello pos
        let pos := pos + 2
        if pos + cipherSuitesLen > clientHello.length then
          .error "insufficient data for cipher suites"
        else do
          let suites ← cipherSuitesLoop clientHello pos cipherSuitesLen (cipherSuitesLen + 1) 0
            components.CipherSuites
          let components := { components with CipherSuites := suites }
          let pos := pos + cipherSuitesLen
          if pos ≥ clientHello.length then
            .error "insufficient data for compression methods length"
          else do
            let compressionMethodsLen ← index clientHello pos
            let pos := pos + 1
            let pos := pos + compressionMethodsLen
            if pos + 2 > clientHello.length then .error "insufficient data for extensions length"
            else do
              let extensionsLen ← uint16At clientHello pos
              let pos := pos + 2
              let extensionsEnd := pos + extensionsLen
              extensionsLoop clientHello extensionsEnd (clientHello.length + 1) pos components

/-- Go `extractJA4Components` (fingerprint.go lines 213-233): the JA3 components are copied,
every other field keeps its zero value. -/
def extractJA4Components (clientHello : List Nat) : Outcome JA4Components := do
  let ja3Components ← extractJA3Components clientHello
  pure { TLSVersion := ja3Components.TLSVersion
         CipherSuites := ja3Components.CipherSuites
         Extensions := ja3Components.Extensions
         EllipticCurves := ja3Components.EllipticCurves
         EllipticCurvePointFormats := ja3Components.EllipticCurvePointFormats }

/-! ## Standard-library functions used by the code -/

/-- Go `utf8`-encoded bytes of a string, `[]byte(s)`. -/
def stringBytes (s : GoString) : List Nat :=
  s.flatMap (fun c => (String.utf8EncodeChar c).map UInt8.toNat)

/-- Lowercase hexadecimal digit of a value below 16. -/
def hexDigit (n : Nat) : Char :=
  if n < 10 then Char.ofNat (48 + n) else Char.ofNat (87 + n)

/-- Go `fmt.Sprintf("%x", hash)` on a byte array: two lowercase hex digits per byte. -/
def hexString (bytes : List Nat) : GoString :=
  bytes.flatMap (fun b => [hexDigit (b / 16 % 16), hexDigit (b % 16)])

/-- Per-round shift amounts of MD5 (RFC 1321). -/
def md5Shifts : List Nat :=
  [7, 12, 17, 22, 7, 12, 17, 22, 7, 12, 17, 22, 7, 12, 17, 22,
   5, 9, 14, 20, 5, 9, 14, 20, 5, 9, 14, 20, 5, 9, 14, 20,
   4, 11, 16, 23, 4, 11, 16, 23, 4, 11, 16, 23, 4, 11, 16, 23,
   6, 10, 15, 21, 6, 10, 15, 21, 6, 10, 15, 21, 6, 10, 15, 21]

/-- Sine-derived constants of MD5 (RFC 1321). -/
def md5Table : List Nat :=
  [0xd76aa478, 0xe8c7b756, 0x242070db, 0xc1bdceee, 0xf57c0faf, 0x4787c62a, 0xa8304613, 0xfd469501,
   0x698098d8, 0x8b44f7af, 0xffff5bb1, 0x895cd7be, 0x6b901122, 0xfd987193, 0xa679438e, 0x49b40821,
   0xf61e2562, 0xc040b340, 0x265e5a51, 0xe9b6c7aa, 0xd62f105d, 0x02441453, 0xd8a1e681, 0xe7d3fbc8,
   0x21e1cde6, 0xc33707d6, 0xf4d50d87, 0x455a14ed, 0xa9e3e905, 0xfcefa3f8, 0x676f02d9, 0x8d2a4c8a,
   0xfffa3942, 0x8771f681, 0x6d9d6122, 0xfde5380c, 0xa4beea44, 0x4bdecfa9, 0xf6bb4b60, 0xbebfbc70,
   0x289b7ec6, 0xeaa127fa, 0xd4ef3085, 0x04881d05, 0xd9d4d039, 0xe6db99e5, 0x1fa27cf8, 0xc4ac5665,
   0xf4292244, 0x432aff97, 0xab9423a7, 0xfc93a039, 0x655b59c3, 0x8f0ccc92, 0xffeff47d, 0x85845dd1,
   0x6fa87e4f, 0xfe2ce6e0, 0xa3014314, 0x4e0811a1, 0xf7537e82, 0xbd3af235, 0x2ad7d2bb, 0xeb86d391]

/-- Rotation to the left of a 32-bit word. -/
def rotl32 (x c : Nat) : Nat := ((x <<< c) ||| (x >>> (32 - c))) % 2 ^ 32

/-- Little-endian bytes of a value, `n` of them. -/
def littleEndian : Nat → Nat → List Nat
  | 0, _ => []
  | n + 1, x => x % 256 :: littleEndian n (x / 256)

/-- Little-endian value of a list of bytes. -/
def ofLittleEndian : List Nat → Nat
  | [] => 0
  | b :: rest => b % 256 + 256 * ofLittleEndian rest

/-- MD5 padding: a 0x80 byte, zero bytes up to 56 modulo 64, and the bit length on 8 bytes. -/
def md5Pad (msg : List Nat) : List Nat :=
  msg ++ [0x80] ++ List.replicate ((119 - msg.length % 64) % 64) 0
    ++ littleEndian 8 (8 * msg.length % 2 ^ 64)

/-- One of the 64 steps of the MD5 compression function on the 16 words `m`. -/
def md5Step (m : List Nat) (st : Nat × Nat × Nat × Nat) (i : Nat) : Nat × Nat × Nat × Nat :=
  let a := st.1
  let b := st.2.1
  let c := st.2.2.1
  let d := st.2.2.2
  let inv := fun (x : Nat) => 0xffffffff ^^^ x
  let f :=
    if i < 16 then (b &&& c) ||| (inv b &&& d)
    else if i < 32 then (d &&& b) ||| (inv d &&& c)
    else if i < 48 then b ^^^ c ^^^ d
    else c ^^^ (b ||| inv d)
  let g :=
    if i < 16 then i
    else if i < 32 then (5 * i + 1) % 16
    else if i < 48 then (3 * i + 5) % 16
    else (7 * i) % 16
  let sum := (f + a + md5Table.getD i 0 + m.getD g 0) % 2 ^ 32
  (d, (b + rotl32 sum (md5Shifts.getD i 0)) % 2 ^ 32, b, c)

/-- MD5 compression of one 64-byte block into the running state. -/
def md5Block (st : Nat × Nat × Nat × Nat) (block : List Nat) : Nat × Nat × Nat × Nat :=
  let m := (List.range 16).map (fun j => ofLittleEndian ((block.drop (4 * j)).take 4))
  let r := (List.range 64).foldl (md5Step m) st
  ((st.1 + r.1) % 2 ^ 32, (st.2.1 + r.2.1) % 2 ^ 32, (st.2.2.1 + r.2.2.1) % 2 ^ 32,
    (st.2.2.2 + r.2.2.2) % 2 ^ 32)

/-- Go `md5.Sum` (RFC 1321): the 16-byte digest of a byte sequence. -/
def md5Sum (msg : List Nat) : List Nat :=
  let padded := md5Pad msg
  let st := (List.range (padded.length / 64)).foldl
    (fun st k => md5Block st ((padded.drop (64 * k)).take 64))
    (0x67452301, 0xefcdab89, 0x98badcfe, 0x10325476)
  littleEndian 4 st.1 ++ littleEndian 4 st.2.1 ++ littleEndian 4 st.2.2.1
    ++ littleEndian 4 st.2.2.2

/-- Value of a character in the standard base64 alphabet. -/
def base64Value (c : Char) : Option Nat :=
  let n := c.toNat
  if 65 ≤ n ∧ n ≤ 90 then some (n - 65)
  else if 97 ≤ n ∧ n ≤ 122 then some (n - 71)
  else if 48 ≤ n ∧ n ≤ 57 then some (n + 4)
  else if c = '+' then some 62
  else if c = '/' then some 63
  else none

/-- Decoding of the 4-character quanta of padded standard base64; a final quantum may end in
one or two `=`, and nothing may follow the padding. -/
def decodeQuanta : List Char → Option (List Nat)
  | [] => some []
  | [c0, c1, '=', '='] => do
    let v0 ← base64Value c0
    let v1 ← base64Value c1
    pure [(v0 * 4 + v1 / 16) % 256]
  | [c0, c1, c2, '='] => do
    let v0 ← base64Value c0
    let v1 ← base64Value c1
    let v2 ← base64Value c2
    pure [(v0 * 4 + v1 / 16) % 256, (v1 * 16 + v2 / 4) % 256]
  | c0 :: c1 :: c2 :: c3 :: rest => do
    let v0 ← base64Value c0
    let v1 ← base64Value c1
    let v2 ← base64Value c2
    let v3 ← base64Value c3
    let tail ← decodeQuanta rest
    pure ((v0 * 4 + v1 / 16) % 256 :: (v1 * 16 + v2 / 4) % 256 :: (v2 * 64 + v3) % 256 :: tail)
  | _ => none

/-- Go `base64.StdEncoding.DecodeString`: `none` stands for a non-nil error. Carriage returns
and line feeds are skipped, padding is required, trailing bits are not checked. -/
def DecodeString (s : GoString) : Option (List Nat) :=
  decodeQuanta (s.filter (fun c => c != '\n' && c != '\r'))

/-- Value of a hexadecimal digit, as accepted by the `%x` verb of `fmt.Sscanf`. -/
def hexValue (c : Char) : Option Nat :=
  let n := c.toNat
  if 48 ≤ n ∧ n ≤ 57 then some (n - 48)
  else if 97 ≤ n ∧ n ≤ 102 then some (n - 87)
  else if 65 ≤ n ∧ n ≤ 70 then some (n - 55)
  else none

/-- Space characters of Go `fmt` scanning (`isSpace` of fmt/scan.go). -/
def isSpace (c : Char) : Bool :=
  let n := c.toNat
  (9 ≤ n && n ≤ 13) || n == 0x20 || n == 0x85 || n == 0xa0 || n == 0x1680
    || (0x2000 ≤ n && n ≤ 0x200a) || n == 0x2028 || n == 0x2029 || n == 0x202f
    || n == 0x205f || n == 0x3000

/-- Go `SkipSpace` of `fmt.Sscanf`: spaces are skipped, a line feed is an error. -/
def SkipSpace : List Char → Option (List Char)
  | [] => some []
  | c :: rest =>
    if c = '\n' then none
    else if isSpace c then SkipSpace rest
    else some (c :: rest)

/-- Go `fmt.Sscanf(suiteStr, "0x%x", &suite)` with `suite` a `uint16`: the text must start
with `0x`, then, after optional spaces, the longest run of hex digits is read; it must be
non-empty and its value must fit 16 bits. Text after the digits is ignored. `none` stands
for a non-nil error. -/
def Sscanf (suiteStr : GoString) : Option Nat :=
  match suiteStr with
  | '0' :: 'x' :: rest =>
    match SkipSpace rest with
    | none => none
    | some rest =>
      let digits := (rest.takeWhile (fun c => (hexValue c).isSome)).filterMap hexValue
      if digits = [] then none
      else
        let value := digits.foldl (fun acc d => acc * 16 + d) 0
        if value < 65536 then some value else none
  | _ => none

/-! ## fingerprint.go : fingerprints -/

/-- Canonical JA3 string built by `CalculateJA3` (fingerprint.go lines 34-42). -/
def ja3String (components : JA3Components) : GoString :=
  let ja3Parts := [Itoa components.TLSVersion,
    Join components.CipherSuites [','],
    Join components.Extensions [','],
    Join components.EllipticCurves [','],
    Join components.EllipticCurvePointFormats [',']]
  Join ja3Parts [',']

/-- Go `CalculateJA3` (fingerprint.go lines 12-47). -/
def CalculateJA3 (clientHello : List Nat) : Outcome GoString :=
  if clientHello.length < 5 then .error "ClientHello too short"
  else do
    let recordType ← index clientHello 0
    if recordType ≠ 0x16 then .error "not a handshake record"
    else do
      let handshakeType ← index clientHello 5
      if handshakeType ≠ 0x01 then .error "not a ClientHello"
      else
        match extractJA3Components clientHello with
        | .error err => .error ("failed to extract components: " ++ err)
        | .ok components => .ok (hexString (md5Sum (stringBytes (ja3String components))))
        | .panic => .panic
        | .outOfFuel => .outOfFuel

/-- Canonical JA4 string built by `CalculateJA4` (fingerprint.go lines 72-85). -/
def ja4String (components : JA4Components) : GoString :=
  let ja4Parts := ['t' :: Itoa components.TLSVersion,
    'd' :: Itoa components.DTLSVersion,
    'h' :: Itoa components.HandshakeVersion,
    'c' :: Join components.CipherSuites ['-'],
    'e' :: Join components.Extensions ['-'],
    'g' :: Join components.EllipticCurves ['-'],
    'p' :: Join components.EllipticCurvePointFormats ['-'],
    'a' :: Join components.SignatureAlgorithms ['-'],
    'r' :: Join components.RenegotiationInfo ['-'],
    'u' :: Join components.UnknownExtensions ['-']]
  Join ja4Parts ['_']

/-- Go `CalculateJA4` (fingerprint.go lines 50-90). -/
def CalculateJA4 (clientHello : List Nat) : Outcome GoString :=
  if clientHello.length < 5 then .error "ClientHello too short"
  else do
    let recordType ← index clientHello 0
    if recordType ≠ 0x16 then .error "not a handshake record"
    else do
      let handshakeType ← index clientHello 5
      if handshakeType ≠ 0x01 then .error "not a ClientHello"
      else
        match extractJA4Components clientHello with
        | .error err => .error ("failed to extract components: " ++ err)
        | .ok components =>
          .ok (ja4String components ++ ['_']
            ++ hexString (md5Sum (stringBytes (ja4String components))))
        | .panic => .panic
        | .outOfFuel => .outOfFuel

/-! ## template.go -/

/-- A TLS extension of a template (`ExtensionTemplate`); `Typ` is the Go field `Type`. -/
structure ExtensionTemplate where
  Typ : Int
  Data : GoString
  deriving DecidableEq, Repr

/-- The ClientHello structure of a template (`ClientHelloTemplate`). -/
structure ClientHelloTemplate where
  Version : GoString
  Random : GoString
  SessionID : GoString
  CipherSuites : List GoString
  CompressionMethods : List Int
  Extensions : List ExtensionTemplate
  deriving DecidableEq, Repr

/-- A Chrome uTLS template (`ChromeTemplate`); the free-form `Metadata` map, which no
modelled function reads, is left out. -/
structure ChromeTemplate where
  Version : GoString
  Timestamp : GoString
  ClientHello : ClientHelloTemplate
  JA3Fingerprint : GoString
  JA4Fingerprint : GoString
  deriving DecidableEq, Repr

/-- Go conversion `byte(x)` of an `int`: the low 8 bits. -/
def byteOfInt (x : Int) : Nat := (x % 256).toNat

/-- Cipher-suite loop of `GenerateClientHello` (template.go lines 155-161), appending to the
bytes gathered so far. -/
def encodeCipherSuites : List GoString → List Nat → Outcome (List Nat)
  | [], cipherSuites => .ok cipherSuites
  | suiteStr :: rest, cipherSuites =>
    match Sscanf suiteStr with
    | none => .error ("invalid cipher suite: " ++ String.mk suiteStr)
    | some suite =>
      encodeCipherSuites rest (cipherSuites ++ [(suite >>> 8) % 256, suite % 256])

/-- Extensions loop of `GenerateClientHello` (template.go lines 173-182), appending to the
bytes gathered so far. -/
def encodeExtensions : List ExtensionTemplate → List Nat → Outcome (List Nat)
  | [], extensions => .ok extensions
  | ext :: rest, extensions =>
    match DecodeString ext.Data with
    | none => .error "invalid extension data"
    | some extData =>
      encodeExtensions rest
        (extensions ++ [byteOfInt (ext.Typ >>> 8), byteOfInt ext.Typ]
          ++ [(extData.length >>> 8) % 256, extData.length % 256] ++ extData)

/-- Go `GenerateClientHello` (template.go lines 128-203), for a non-nil template. The text of
the library error wrapped into an error message is not modelled. -/
def GenerateClientHello (template : ChromeTemplate) : Outcome (List Nat) :=
  -- Client Version
  let handshake : List Nat := [0x03, 0x03]
  -- Random
  match DecodeString template.ClientHello.Random with
  | none => .error "invalid random data"
  | some random =>
    let handshake := handshake ++ random
    -- Session ID
    match DecodeString template.ClientHello.SessionID with
    | none => .error "invalid session ID"
    | some sessionID =>
      let handshake := handshake ++ [sessionID.length % 256]
      let handshake := handshake ++ sessionID
      -- Cipher Suites
      match encodeCipherSuites template.ClientHello.CipherSuites [] with
      | .error msg => .error msg
      | .panic => .panic
      | .outOfFuel => .outOfFuel
      | .ok cipherSuites =>
        let handshake := handshake ++ [(cipherSuites.length >>> 8) % 256, cipherSuites.length % 256]
        let handshake := handshake ++ cipherSuites
        -- Compression Methods
        let handshake := handshake ++ [template.ClientHello.CompressionMethods.length % 256]
        let handshake := handshake ++ template.ClientHello.CompressionMethods.map byteOfInt
        -- Extensions
        match encodeExtensions template.ClientHello.Extensions [] with
        | .error msg => .error msg
        | .panic => .panic
        | .outOfFuel => .outOfFuel
        | .ok extensions =>
          let handshake := handshake ++ [(extensions.length >>> 8) % 256, extensions.length % 256]
          let handshake := handshake ++ extensions
          -- TLS record header, handshake header, handshake payload
          let result : List Nat := [0x16]
          let result := result ++ [0x03, 0x03]
          let result := result ++ [(handshake.length >>> 8) % 256, handshake.length % 256]
          let result := result ++ [0x01]
          let result := result ++ [(handshake.length >>> 24) % 256,
            (handshake.length >>> 16) % 256, (handshake.length >>> 8) % 256,
            handshake.length % 256]
          .ok (result ++ handshake)

/-- Handshake payload assembled by `GenerateClientHello` (template.go lines 133-185) from the
decoded fields. -/
def handshakeBody (random sessionID cipherSuites : List Nat) (compression : List Int)
    (extensions : List Nat) : List Nat :=
  [0x03, 0x03] ++ random ++ [sessionID.length % 256] ++ sessionID
    ++ [(cipherSuites.length >>> 8) % 256, cipherSuites.length % 256] ++ cipherSuites
    ++ [compression.length % 256] ++ compression.map byteOfInt
    ++ [(extensions.length >>> 8) % 256, extensions.length % 256] ++ extensions

/-- Record assembled by `GenerateClientHello` (template.go lines 188-200) around a handshake
payload: record header, handshake type, four length bytes, payload. -/
def recordOf (handshake : List Nat) : List Nat :=
  [0x16, 0x03, 0x03, (handshake.length >>> 8) % 256, handshake.length % 256, 0x01,
    (handshake.length >>> 24) % 256, (handshake.length >>> 16) % 256,
    (handshake.length >>> 8) % 256, handshake.length % 256] ++ handshake

/-! ## Wire layout expected by the parser -/

/-- The six error texts of `extractJA3Components`; each belongs to a field that comes before
the extensions. -/
def parserErrors : List String :=
  ["insufficient data for TLS version", "insufficient data for session ID length",
   "insufficient data for cipher suites length", "insufficient data for cipher suites",
   "insufficient data for compression methods length", "insufficient data for extensions length"]

/-- Two big-endian bytes of a 16-bit value. -/
def bigEndian16 (v : Nat) : List Nat := [v / 256 % 256, v % 256]

/-- Wire bytes of a list of 16-bit codes, two big-endian bytes each. -/
def codeBytes (codes : List Nat) : List Nat := codes.flatMap bigEndian16

/-- Fields of a ClientHello record that come before the extensions. -/
structure WireHead where
  recordVersion : Nat
  recordLen : Nat
  handshakeLen : Nat
  version : Nat
  random : List Nat
  sessionID : List Nat
  suites : List Nat
  compression : List Nat
  deriving DecidableEq, Repr

/-- The fields fit the widths the wire grammar gives them. -/
def WireHead.valid (w : WireHead) : Prop :=
  w.version < 65536 ∧ w.random.length = 32 ∧ w.sessionID.length ≤ 255 ∧
    w.suites.length ≤ 32767 ∧ (∀ c ∈ w.suites, c < 65536) ∧ w.compression.length ≤ 255

instance (w : WireHead) : Decidable w.valid := by
  unfold WireHead.valid
  infer_instance

/-- Wire layout that the parser expects, up to and including the 2-byte length of the
extensions block: 5-byte record header, handshake type and 3-byte length, version, random,
session id, cipher suites, compression methods. -/
def WireHead.bytes (w : WireHead) (extensionsLen : Nat) : List Nat :=
  [0x16] ++ bigEndian16 w.recordVersion ++ bigEndian16 w.recordLen
    ++ [0x01, w.handshakeLen / 65536 % 256, w.handshakeLen / 256 % 256, w.handshakeLen % 256]
    ++ bigEndian16 w.version ++ w.random
    ++ [w.sessionID.length] ++ w.sessionID
    ++ bigEndian16 (2 * w.suites.length) ++ codeBytes w.suites
    ++ [w.compression.length] ++ w.compression
    ++ bigEndian16 extensionsLen

/-! ## Inputs used in the statements below -/

/-- A template with the five cipher suites 0x1301, 0x1302, 0x1303, 0xc02f, 0xc02b, the null
compression method and no extensions, for given base64 texts of random and session id. -/
def scenarioTemplate (random sessionID : GoString) : ChromeTemplate where
  Version := "120.0.6099.109".toList
  Timestamp := "2025-08-11T10:30:00Z".toList
  JA3Fingerprint := []
  JA4Fingerprint := []
  ClientHello := {
    Version := "TLS 1.2".toList
    Random := random
    SessionID := sessionID
    CipherSuites := ["0x1301".toList, "0x1302".toList, "0x1303".toList, "0xc02f".toList,
      "0xc02b".toList]
    CompressionMethods := [0]
    Extensions := [] }

/-- Base64 text of 32 zero bytes. -/
def zeros32 : GoString := "AAAAAAAAAAAAAAAAAAAAAAAAAAAAAAAAAAAAAAAAAAA=".toList

/-- Base64 text of 31 zero bytes followed by the byte 33. -/
def zeros31then33 : GoString := "AAAAAAAAAAAAAAAAAAAAAAAAAAAAAAAAAAAAAAAAACE=".toList

/-- A template with a 32-byte zero random, an empty session id, two cipher suites and the
extensions supported_groups (one group, 0x001d) and ec_point_formats (one format, 0). -/
def roundTripTemplate : ChromeTemplate where
  Version := "120.0.6099.109".toList
  Timestamp := "2025-08-11T10:30:00Z".toList
  JA3Fingerprint := []
  JA4Fingerprint := []
  ClientHello := {
    Version := "TLS 1.2".toList
    Random := zeros32
    SessionID := []
    CipherSuites := ["0x1301".toList, "0xc02f".toList]
    CompressionMethods := [0]
    Extensions := [⟨0x000a, "AAIAHQ==".toList⟩, ⟨0x000b, "AQA=".toList⟩] }

/-- A template with 32768 cipher suites. -/
def overflowTemplate : ChromeTemplate where
  Version := "120.0.6099.109".toList
  Timestamp := "2025-08-11T10:30:00Z".toList
  JA3Fingerprint := []
  JA4Fingerprint := []
  ClientHello := {
    Version := "TLS 1.2".toList
    Random := zeros32
    SessionID := zeros32
    CipherSuites := List.replicate 32768 "0x1301".toList
    CompressionMethods := [0]
    Extensions := [] }

/-- Fields before the extensions of a small well-formed ClientHello record. -/
def sampleHead : WireHead where
  recordVersion := 0x0303
  recordLen := 0
  handshakeLen := 0
  version := 0x0303
  random := List.replicate 32 0
  sessionID := []
  suites := [0x1301, 0xc02f]
  compression := [0]

/-- A record whose only extension (type 23) declares 100 payload bytes while 2 remain. -/
def truncatedHello : List Nat := sampleHead.bytes 6 ++ [0, 23, 0, 100, 1, 2]

/-- A well-formed record with a supported_groups extension (one group, 0x001d) followed by
an empty extension of type 23. -/
def groupsThenOther : List Nat :=
  sampleHead.bytes 12 ++ [0, 10, 0, 4, 0, 2, 0, 29] ++ [0, 23, 0, 0]

/-- A template whose session id decodes to 256 zero bytes. -/
def longSessionTemplate : ChromeTemplate where
  Version := "120.0.6099.109".toList
  Timestamp := "2025-08-11T10:30:00Z".toList
  JA3Fingerprint := []
  JA4Fingerprint := []
  ClientHello := {
    Version := "TLS 1.2".toList
    Random := zeros32
    SessionID := List.replicate 340 'A' ++ "AA==".toList
    CipherSuites := ["0x1301".toList]
    CompressionMethods := [0]
    Extensions := [] }

/-- A template without cipher suites. -/
def noSuiteTemplate : ChromeTemplate where
  Version := "120.0.6099.109".toList
  Timestamp := "2025-08-11T10:30:00Z".toList
  JA3Fingerprint := []
  JA4Fingerprint := []
  ClientHello := {
    Version := "TLS 1.2".toList
    Random := zeros32
    SessionID := zeros32
    CipherSuites := []
    CompressionMethods := [0]
    Extensions := [] }

/-! ## Wire layout of the extensions, further inputs -/

/-- One extension on the wire: 2-byte type, 2-byte payload length, payload. -/
def extensionBytes (e : Nat × List Nat) : List Nat :=
  bigEndian16 e.1 ++ bigEndian16 e.2.length ++ e.2

/-- The extensions block of a record: the extensions one after the other. -/
def extensionsBlock (exts : List (Nat × List Nat)) : List Nat := exts.flatMap extensionBytes

/-- A whole record per the wire grammar the parser expects: the fields before the
extensions, the exact 2-byte length of the extensions block, and the block. -/
def WireHead.record (w : WireHead) (exts : List (Nat × List Nat)) : List Nat :=
  w.bytes (extensionsBlock exts).length ++ extensionsBlock exts

/-- A well-formed record with an ec_point_formats extension (one format, 0) followed by a
supported_groups extension (one group, 0x001d). -/
def formatsThenGroups : List Nat := sampleHead.record [(11, [1, 0]), (10, [0, 2, 0, 29])]

/-! ## Digits, splitting, and the segments of a JA4 fingerprint -/

/-- The decimal digits. -/
def decimalDigits : List Char := "0123456789".toList

/-- The lowercase hexadecimal digits. -/
def lowerHexDigits : List Char := "0123456789abcdef".toList

/-- Go `strings.Split` with a separator of one character. -/
def Split (s : GoString) (sep : Char) : List GoString := s.splitOn sep

/-- The ten labelled segments that `CalculateJA4` joins (fingerprint.go lines 72-83). -/
def ja4Parts (components : JA4Components) : List GoString :=
  ['t' :: Itoa components.TLSVersion,
    'd' :: Itoa components.DTLSVersion,
    'h' :: Itoa components.HandshakeVersion,
    'c' :: Join components.CipherSuites ['-'],
    'e' :: Join components.Extensions ['-'],
    'g' :: Join components.EllipticCurves ['-'],
    'p' :: Join components.EllipticCurvePointFormats ['-'],
    'a' :: Join components.SignatureAlgorithms ['-'],
    'r' :: Join components.RenegotiationInfo ['-'],
    'u' :: Join components.UnknownExtensions ['-']]

/-- A string of decimal digits only. -/
def isDecimal (s : GoString) : Prop := ∀ ch ∈ s, ch ∈ decimalDigits

/-- Every list of a components value holds strings of decimal digits only. -/
def JA3Components.decimal (c : JA3Components) : Prop :=
  (∀ s ∈ c.CipherSuites, isDecimal s) ∧ (∀ s ∈ c.Extensions, isDecimal s) ∧
    (∀ s ∈ c.EllipticCurves, isDecimal s) ∧ (∀ s ∈ c.EllipticCurvePointFormats, isDecimal s)

/-- A well-formed record with two cipher suites and no extensions. -/
def plainHello : List Nat := sampleHead.record []

/-! ## template.go : generation of templates -/

/-- Character of a value below 64 in the standard base64 alphabet. -/
def base64Char (v : Nat) : Char :=
  if v < 26 then Char.ofNat (65 + v)
  else if v < 52 then Char.ofNat (71 + v)
  else if v < 62 then Char.ofNat (v - 4)
  else if v = 62 then '+'
  else '/'

/-- Go `base64.StdEncoding.EncodeToString`: four characters for three bytes, the last
quantum padded with `=`. -/
def EncodeToString : List Nat → GoString
  | [] => []
  | [b0] =>
    [base64Char (b0 % 256 / 4), base64Char (b0 % 4 * 16), '=', '=']
  | [b0, b1] =>
    [base64Char (b0 % 256 / 4), base64Char (b0 % 4 * 16 + b1 % 256 / 16),
      base64Char (b1 % 16 * 4), '=']
  | b0 :: b1 :: b2 :: rest =>
    base64Char (b0 % 256 / 4) :: base64Char (b0 % 4 * 16 + b1 % 256 / 16)
      :: base64Char (b1 % 16 * 4 + b2 % 256 / 64) :: base64Char (b2 % 64)
      :: EncodeToString rest

/-- Go `fmt.Sprintf("0x%04x", suite)` for a `uint16`: four lowercase hex digits. -/
def sprintfSuite (suite : Nat) : GoString :=
  ['0', 'x', hexDigit (suite / 4096 % 16), hexDigit (suite / 256 % 16),
    hexDigit (suite / 16 % 16), hexDigit (suite % 16)]

/-- Extension configuration (`ExtensionConfig`); `Typ` is the Go field `Type`. -/
structure ExtensionConfig where
  Typ : Int
  Name : GoString
  deriving DecidableEq, Repr

/-- Chrome version-specific configuration (`ChromeConfig`). -/
structure ChromeConfig where
  TLSVersion : Nat
  CipherSuites : List Nat
  Extensions : List ExtensionConfig
  CompressionMethods : List Int
  deriving DecidableEq, Repr

/-- The map `ChromeConfigs` (template.go lines 37-58), as a lookup by key: it has the single
key "120". -/
def ChromeConfigs (key : GoString) : Option ChromeConfig :=
  if key = "120".toList then
    some {
      TLSVersion := 0x0303
      CipherSuites := [0x1301, 0x1302, 0x1303, 0xc02f, 0xc02b, 0xc030, 0xc02c, 0xc027, 0xc028,
        0xc014, 0xc013, 0xc011, 0xc012, 0x009c, 0x009d, 0x002f, 0x0035]
      Extensions := [
        ⟨0x0000, "server_name".toList⟩,
        ⟨0x0017, "status_request".toList⟩,
        ⟨0xff01, "renegotiation_info".toList⟩,
        ⟨0x000a, "supported_groups".toList⟩,
        ⟨0x000b, "ec_point_formats".toList⟩,
        ⟨0x000d, "signature_algorithms".toList⟩,
        ⟨0x0010, "application_layer_protocol_negotiation".toList⟩,
        ⟨0x001b, "extended_master_secret".toList⟩,
        ⟨0x0018, "signed_certificate_timestamp".toList⟩,
        ⟨0x0022, "supported_versions".toList⟩,
        ⟨0x0029, "key_share".toList⟩]
      CompressionMethods := [0] }
  else none

/-- The bytes that `GenerateExtensionData` encodes for an extension type
(template.go lines 210-258). -/
def extensionData (ext : ExtensionConfig) : List Nat :=
  if ext.Typ = 0x0000 then [0x00, 0x00, 0x00, 0x00]
  else if ext.Typ = 0x000a then [0x00, 0x06] ++ [0x00, 0x1d] ++ [0x00, 0x17] ++ [0x00, 0x18]
  else if ext.Typ = 0x000b then [0x01, 0x00]
  else if ext.Typ = 0x000d then
    [0x00, 0x08] ++ [0x08, 0x07] ++ [0x08, 0x08] ++ [0x08, 0x09] ++ [0x08, 0x04]
  else if ext.Typ = 0x0010 then
    [0x00, 0x05] ++ [0x02, 0x68, 0x32] ++ [0x08, 0x68, 0x74, 0x74, 0x70, 0x2f, 0x31, 0x2e, 0x31]
  else if ext.Typ = 0x0017 then [0x01, 0x00, 0x00, 0x00, 0x00]
  else if ext.Typ = 0xff01 then [0x01, 0x00]
  else [0x00]

/-- Go `GenerateExtensionData` (template.go lines 206-259): the base64 text of the data of an
extension type. -/
def GenerateExtensionData (ext : ExtensionConfig) : GoString :=
  EncodeToString (extensionData ext)

/-- Go `GenerateChromeTemplate` (template.go lines 75-125). The arguments `random` and
`sessionID` are the outcomes of the two calls of `rand.Read`: `none` for an error, otherwise
the bytes written (the second call is made only when the first succeeds). -/
def GenerateChromeTemplate (version : GoString) (random sessionID : Option (List Nat)) :
    Outcome ChromeTemplate :=
  match Split version '.' with
  | [] => .panic
  | majorVersion :: _ =>
    match ChromeConfigs majorVersion with
    | none => .error ("unsupported Chrome version: " ++ String.mk version)
    | some config =>
      match random with
      | none => .error "failed to generate random"
      | some random =>
        match sessionID with
        | none => .error "failed to generate session ID"
        | some sessionID =>
          .ok {
            Version := version
            ClientHello := {
              Version := "TLS 1.".toList ++ Itoa (config.TLSVersion &&& 0xFF)
              Random := EncodeToString random
              SessionID := EncodeToString sessionID
              CipherSuites := config.CipherSuites.map sprintfSuite
              CompressionMethods := config.CompressionMethods
              Extensions := config.Extensions.map
                (fun ext => { Typ := ext.Typ, Data := GenerateExtensionData ext }) }
            Timestamp := "2025-08-11T10:30:00Z".toList
            JA3Fingerprint := []
            JA4Fingerprint := [] }

/-! ## chrome/version.go -/

/-- Value of a run of decimal digits. -/
def decimalValue (digits : List Char) : Nat :=
  digits.foldl (fun acc ch => acc * 10 + (ch.toNat - 48)) 0

/-- An optional sign in front of a number: whether the sign is `-`, and the text after it. -/
def splitSign (s : List Char) : Bool × List Char :=
  match s with
  | '-' :: rest => (true, rest)
  | '+' :: rest => (false, rest)
  | rest => (false, rest)

/-- A signed value that fits the 64-bit Go `int`, or `none`. -/
def intOfSigned (negative : Bool) (value : Nat) : Option Int :=
  if negative then
    if value ≤ 2 ^ 63 then some (-(value : Int)) else none
  else
    if value < 2 ^ 63 then some (value : Int) else none

/-- Go `parseInt` (version.go lines 161-165), that is `fmt.Sscanf(s, "%d", &result)` with an
`int` target: after optional spaces, an optional sign and the longest run of decimal digits
are read; the run must be non-empty and the value must fit 64 bits. Text after the digits is
ignored. `none` stands for a non-nil error. -/
def parseInt (s : GoString) : Option Int :=
  match SkipSpace s with
  | none => none
  | some rest =>
    let signed := splitSign rest
    let digits := signed.2.takeWhile Char.isDigit
    if digits = [] then none else intOfSigned signed.1 (decimalValue digits)

/-- Go `ParseVersion` (version.go lines 143-158). The text of the library error wrapped into
an error message is not modelled. -/
def ParseVersion (version : GoString) : Outcome (Int × Int × Int × Int) :=
  match Split version '.' with
  | [p0, p1, p2, p3] =>
    match parseInt p0 with
    | none => .error "invalid version component 1"
    | some major =>
      match parseInt p1 with
      | none => .error "invalid version component 2"
      | some minor =>
        match parseInt p2 with
        | none => .error "invalid version component 3"
        | some patch =>
          match parseInt p3 with
          | none => .error "invalid version component 4"
          | some build => .ok (major, minor, patch, build)
  | _ => .error ("invalid version format: " ++ String.mk version)

/-- Go `CompareVersions` (version.go lines 168-212). -/
def CompareVersions (v1 v2 : GoString) : Outcome Int :=
  match ParseVersion v1 with
  | .error err => .error ("invalid first version: " ++ err)
  | .panic => .panic
  | .outOfFuel => .outOfFuel
  | .ok (major1, minor1, patch1, build1) =>
    match ParseVersion v2 with
    | .error err => .error ("invalid second version: " ++ err)
    | .panic => .panic
    | .outOfFuel => .outOfFuel
    | .ok (major2, minor2, patch2, build2) =>
      if major1 ≠ major2 then
        if major1 > major2 then .ok 1 else .ok (-1)
      else if minor1 ≠ minor2 then
        if minor1 > minor2 then .ok 1 else .ok (-1)
      else if patch1 ≠ patch2 then
        if patch1 > patch2 then .ok 1 else .ok (-1)
      else if build1 ≠ build2 then
        if build1 > build2 then .ok 1 else .ok (-1)
      else .ok 0

/-- Lexicographic "less than" on the tuples (major, minor, patch, build). -/
def versionLt (a b : Int × Int × Int × Int) : Prop :=
  a.1 < b.1 ∨ (a.1 = b.1 ∧ (a.2.1 < b.2.1 ∨ (a.2.1 = b.2.1 ∧
    (a.2.2.1 < b.2.2.1 ∨ (a.2.2.1 = b.2.2.1 ∧ a.2.2.2 < b.2.2.2)))))

instance (a b : Int × Int × Int × Int) : Decidable (versionLt a b) := by
  unfold versionLt
  infer_instance

/-! ## fingerprint.go : parsing of fingerprint strings -/

/-- Go `strconv.Atoi`: an optional sign and then decimal digits only, at least one, with a
value that fits the 64-bit `int`. `none` stands for a non-nil error. -/
def Atoi (s : GoString) : Option Int :=
  let signed := splitSign s
  if signed.2 = [] ∨ signed.2.all Char.isDigit = false then none
  else intOfSigned signed.1 (decimalValue signed.2)

/-- Go `isHex` (fingerprint.go lines 346-353). -/
def isHex (s : GoString) : Bool :=
  s.all (fun c => ('0' ≤ c && c ≤ '9') || ('a' ≤ c && c ≤ 'f') || ('A' ≤ c && c ≤ 'F'))

/-- The Go type `JA4Components` as `ParseJA4` fills it. Its three numbers are results of
`strconv.Atoi` and may be negative, so they are `Int` here; `JA4Components` above is the same
type with the non-negative numbers that the extractors produce. -/
structure ParsedJA4Components where
  TLSVersion : Int := 0
  DTLSVersion : Int := 0
  HandshakeVersion : Int := 0
  CipherSuites : List GoString := []
  Extensions : List GoString := []
  EllipticCurves : List GoString := []
  EllipticCurvePointFormats : List GoString := []
  SignatureAlgorithms : List GoString := []
  RenegotiationInfo : List GoString := []
  UnknownExtensions : List GoString := []
  deriving DecidableEq, Repr

/-- A components value of the extractors, seen as a value that `ParseJA4` can return. -/
def JA4Components.toParsed (c : JA4Components) : ParsedJA4Components where
  TLSVersion := c.TLSVersion
  DTLSVersion := c.DTLSVersion
  HandshakeVersion := c.HandshakeVersion
  CipherSuites := c.CipherSuites
  Extensions := c.Extensions
  EllipticCurves := c.EllipticCurves
  EllipticCurvePointFormats := c.EllipticCurvePointFormats
  SignatureAlgorithms := c.SignatureAlgorithms
  RenegotiationInfo := c.RenegotiationInfo
  UnknownExtensions := c.UnknownExtensions

/-- Body of the loop over the parts in `ParseJA4` (fingerprint.go lines 290-340): a part
shorter than 2 is skipped, otherwise its first character selects the field and the rest is
the value. A part made of one character outside ASCII has 2 bytes or more in Go and is not
skipped there, but its first byte selects no field, so it changes nothing either. -/
def parseJA4Part (components : ParsedJA4Components) (part : GoString) : ParsedJA4Components :=
  match part with
  | [] => components
  | [_] => components
  | label :: value =>
    if label = 't' then
      match Atoi value with
      | some v => { components with TLSVersion := v }
      | none => components
    else if label = 'd' then
      match Atoi value with
      | some v => { components with DTLSVersion := v }
      | none => components
    else if label = 'h' then
      match Atoi value with
      | some v => { components with HandshakeVersion := v }
      | none => components
    else if label = 'c' then
      if value ≠ [] then { components with CipherSuites := Split value '-' } else components
    else if label = 'e' then
      if value ≠ [] then { components with Extensions := Split value '-' } else components
    else if label = 'g' then
      if value ≠ [] then { components with EllipticCurves := Split value '-' } else components
    else if label = 'p' then
      if value ≠ [] then { components with EllipticCurvePointFormats := Split value '-' }
      else components
    else if label = 'a' then
      if value ≠ [] then { components with SignatureAlgorithms := Split value '-' }
      else components
    else if label = 'r' then
      if value ≠ [] then { components with RenegotiationInfo := Split value '-' }
      else components
    else if label = 'u' then
      if value ≠ [] then { components with UnknownExtensions := Split value '-' }
      else components
    else components

/-- Go `ParseJA4` (fingerprint.go lines 275-343). -/
def ParseJA4 (ja4 : GoString) : Outcome ParsedJA4Components :=
  let parts := Split ja4 '_'
  if parts.length < 2 then .error "invalid JA4 format"
  else
    let lastPart := parts.getLastD []
    let parts := if lastPart.length = 32 ∧ isHex lastPart = true then parts.dropLast else parts
    .ok (parts.foldl parseJA4Part {})

/-! ## Further inputs -/

/-- A well-formed record whose only extension is signature_algorithms with the one
code 0x0804. -/
def signatureHello : List Nat := sampleHead.record [(13, [0, 2, 8, 4])]

/-- A well-formed record with a signature_algorithms extension of two codes after a
server_name extension. -/
def twoSignaturesHello : List Nat :=
  sampleHead.record [(0, [0, 0]), (13, [0, 4, 8, 4, 8, 5])]

/-- A record whose cipher-suite block has the odd declared length 3 (bytes 13 01 c0),
followed by one compression method and an empty extensions block. -/
def oddBlockHello : List Nat :=
  [0x16, 0x03, 0x03, 0x00, 0x00, 0x01, 0x00, 0x00, 0x00, 0x03, 0x03] ++ List.replicate 32 0
    ++ [0x00] ++ [0x00, 0x03, 0x13, 0x01, 0xc0] ++ [0x01, 0x00] ++ [0x00, 0x00]

/-- A well-formed record with a supported_groups extension of declared payload length 4
whose inner list length is 4 (one group, 0x001d, fits the payload), followed by an empty
extension of type 23. -/
def overlongGroupsHello : List Nat :=
  sampleHead.bytes 12 ++ [0, 10, 0, 4, 0, 4, 0, 29] ++ [0, 23, 0, 0]

/-- The major component of a version string: the text before the first '.', which
`GenerateChromeTemplate` takes as `strings.Split(version, ".")[0]`. -/
def majorComponent (version : GoString) : GoString := (Split version '.').headD []

/-- A cipher-suite string of the form 0xHHHH, with four hexadecimal digits, and the 16-bit
value it writes; `none` for a string of another form. -/
def suiteOfForm (s : GoString) : Option Nat :=
  match s with
  | ['0', 'x', h3, h2, h1, h0] =>
    match hexValue h3, hexValue h2, hexValue h1, hexValue h0 with
    | some v3, some v2, some v1, some v0 => some (v3 * 4096 + v2 * 256 + v1 * 16 + v0)
    | _, _, _, _ => none
  | _ => none

instance (s : GoString) : Decidable (isDecimal s) := by
  unfold isDecimal
  infer_instance

/-- Every string of a list is non-empty and made of decimal digits. -/
def decimalEntries (l : List GoString) : Prop := ∀ s ∈ l, s ≠ [] ∧ isDecimal s

instance (l : List GoString) : Decidable (decimalEntries l) := by
  unfold decimalEntries
  infer_instance

/-- A components value as the claim on `ParseJA4` takes it: the three numbers fit the Go
`int` and the seven lists hold non-empty strings of decimal digits. -/
def JA4Components.wellFormed (c : JA4Components) : Prop :=
  c.TLSVersion < 2 ^ 63 ∧ c.DTLSVersion < 2 ^ 63 ∧ c.HandshakeVersion < 2 ^ 63 ∧
    decimalEntries c.CipherSuites ∧ decimalEntries c.Extensions ∧
    decimalEntries c.EllipticCurves ∧ decimalEntries c.EllipticCurvePointFormats ∧
    decimalEntries c.SignatureAlgorithms ∧ decimalEntries c.RenegotiationInfo ∧
    decimalEntries c.UnknownExtensions

instance (c : JA4Components) : Decidable c.wellFormed := by
  unfold JA4Components.wellFormed
  infer_instance

/-- The fingerprint string that `CalculateJA4` builds from a components value
(fingerprint.go lines 85-89). -/
def ja4Fingerprint (c : JA4Components) : GoString :=
  ja4String c ++ ['_'] ++ hexString (md5Sum (stringBytes (ja4String c)))

/-- A components value with filled and empty lists. -/
def sampleJA4 : JA4Components where
  TLSVersion := 771
  DTLSVersion := 0
  HandshakeVersion := 1
  CipherSuites := ["4865".toList, "49199".toList]
  Extensions := ["0".toList, "10".toList, "13".toList]
  EllipticCurves := ["29".toList]
  EllipticCurvePointFormats := []
  SignatureAlgorithms := ["2052".toList]
  RenegotiationInfo := []
  UnknownExtensions := ["1".toList]

/-! ## fingerprint.go : `ParseJA3` -/

/-- The Go type `JA3Components` as `ParseJA3` fills it. Its number is a result of
`strconv.Atoi` and may be negative, so it is an `Int` here; `JA3Components` above is the same
type with the non-negative number that the extractor produces. -/
structure ParsedJA3Components where
  TLSVersion : Int := 0
  CipherSuites : List GoString := []
  Extensions : List GoString := []
  EllipticCurves : List GoString := []
  EllipticCurvePointFormats : List GoString := []
  deriving DecidableEq, Repr

/-- A components value of the extractor, seen as a value that `ParseJA3` can return. -/
def JA3Components.toParsed (c : JA3Components) : ParsedJA3Components where
  TLSVersion := c.TLSVersion
  CipherSuites := c.CipherSuites
  Extensions := c.Extensions
  EllipticCurves := c.EllipticCurves
  EllipticCurvePointFormats := c.EllipticCurvePointFormats

/-- Go `ParseJA3` (fingerprint.go lines 236-272). The second error text stands for the Go
text that goes on with the wrapped error of `strconv.Atoi`. The last case of the match is
the index panic of `parts[0]` to `parts[4]`, which the length test excludes. -/
def ParseJA3 (ja3 : GoString) : Outcome ParsedJA3Components :=
  let parts := Split ja3 ','
  if parts.length < 5 then .error "invalid JA3 format"
  else
    match parts with
    | p0 :: p1 :: p2 :: p3 :: p4 :: _ =>
      match Atoi p0 with
      | none => .error "invalid TLS version"
      | some tlsVersion =>
        let components : ParsedJA3Components := { TLSVersion := tlsVersion }
        let components :=
          if p1 ≠ [] then { components with CipherSuites := Split p1 ',' } else components
        let components :=
          if p2 ≠ [] then { components with Extensions := Split p2 ',' } else components
        let components :=
          if p3 ≠ [] then { components with EllipticCurves := Split p3 ',' } else components
        let components :=
          if p4 ≠ [] then { components with EllipticCurvePointFormats := Split p4 ',' }
          else components
        .ok components
    | _ => .panic

/-- The list that `ParseJA3` stores for one part of the split string (fingerprint.go lines
252-269): the part split at the commas, or nothing for an empty part. -/
def ja3PartList (part : GoString) : List GoString := if part ≠ [] then Split part ',' else []

/-- A components value as the claim on `ParseJA3` takes it: the number fits the Go `int` and
the four lists hold non-empty strings of decimal digits. -/
def JA3Components.wellFormed (c : JA3Components) : Prop :=
  c.TLSVersion < 2 ^ 63 ∧ decimalEntries c.CipherSuites ∧ decimalEntries c.Extensions ∧
    decimalEntries c.EllipticCurves ∧ decimalEntries c.EllipticCurvePointFormats

instance (c : JA3Components) : Decidable c.wellFormed := by
  unfold JA3Components.wellFormed
  infer_instance

/-- The fields that the canonical JA3 string holds between its commas for one list: the
entries of the list, or one empty field for the empty list. -/
def ja3Fields (l : List GoString) : List GoString := if l = [] then [[]] else l

/-- The components that the parser returns on `plainHello`: two cipher suites and no
extension. -/
def twoSuitesJA3 : JA3Components where
  TLSVersion := 771
  CipherSuites := ["4865".toList, "49199".toList]

/-- A components value whose four lists hold one entry or none. -/
def shortListsJA3 : JA3Components where
  TLSVersion := 771
  CipherSuites := ["4865".toList]
  Extensions := ["10".toList]
  EllipticCurves := []
  EllipticCurvePointFormats := ["0".toList]

/-! ## Buffers that differ in the random only -/

/-- Two buffers of equal length that hold the same byte at every offset outside 11..42, the
32 bytes that the parser skips as the random. -/
def sameOutsideRandom (a b : List Nat) : Prop :=
  a.length = b.length ∧ ∀ i < a.length, i < 11 ∨ 42 < i → a[i]? = b[i]?

instance (a b : List Nat) : Decidable (sameOutsideRandom a b) := by
  unfold sameOutsideRandom
  infer_instance

/-- A well-formed record with an extension of type 23 and a supported_groups extension, and
the random 0, 1, .., 31. -/
def countingRandomHello : List Nat :=
  { sampleHead with random := List.range 32 }.record [(23, []), (10, [0, 2, 0, 29])]

/-- The same record with a zero random. -/
def zeroRandomHello : List Nat :=
  sampleHead.record [(23, []), (10, [0, 2, 0, 29])]

/-- A record cut after 44 bytes, with the random 0, 1, .., 31. -/
def cutCountingHello : List Nat := countingRandomHello.take 44

/-- The same cut record with a zero random. -/
def cutZeroHello : List Nat := zeroRandomHello.take 44

/-! ## Basic facts about outcomes and byte access -/

@[simp] theorem Outcome.bind_def {α β : Type} (x : Outcome α) (f : α → Outcome β) :
    (x >>= f) = Outcome.bind x f := rfl

@[simp] theorem Outcome.bind_ok {α β : Type} (a : α) (f : α → Outcome β) :
    Outcome.bind (.ok a) f = f a := rfl

@[simp] theorem Outcome.pure_def {α : Type} (a : α) : (pure a : Outcome α) = .ok a := rfl

theorem index_eq_ok (b : List Nat) (i : Nat) (h : i < b.length) :
    index b i = .ok (b.getD i 0) := by
  simp [index, List.getElem?_eq_getElem h, List.getD_eq_getElem b 0 h]

theorem uint16At_eq_ok (b : List Nat) (pos : Nat) (h : pos + 2 ≤ b.length) :
    uint16At b pos = .ok (b.getD pos 0 * 256 + b.getD (pos + 1) 0) := by
  have h0 : pos < b.length := by omega
  have h1 : pos + 1 < b.length := by omega
  simp [uint16At, List.getElem?_eq_getElem h0, List.getElem?_eq_getElem h1,
    List.getD_eq_getElem b 0 h0, List.getD_eq_getElem b 0 h1]

/-! ## The loops of the parser never run out of fuel and never panic -/

theorem cipherSuitesLoop_returns (clientHello : List Nat) (pos cipherSuitesLen : Nat) :
    ∀ (fuel i : Nat) (suites : List GoString),
      cipherSuitesLen + 2 ≤ i + 2 * fuel → i ≤ cipherSuitesLen + 1 →
      ∃ r, cipherSuitesLoop clientHello pos cipherSuitesLen fuel i suites = .ok r := by
  intro fuel
  induction fuel with
  | zero =>
    intro i suites h hi
    omega
  | succ n ih =>
    intro i suites h hi
    unfold cipherSuitesLoop
    split
    · split
      · exact ⟨_, rfl⟩
      · rw [uint16At_eq_ok clientHello (pos + i) (by omega)]
        simp only [Outcome.bind_def, Outcome.bind_ok]
        apply ih <;> omega
    · exact ⟨_, rfl⟩

theorem groupsLoop_returns (clientHello : List Nat) (pos extLen groupsLen : Nat) :
    ∀ (fuel i : Nat) (curves : List GoString),
      groupsLen + 2 ≤ i + 2 * fuel → i ≤ groupsLen + 1 →
      ∃ r, groupsLoop clientHello pos extLen groupsLen fuel i curves = .ok r := by
  intro fuel
  induction fuel with
  | zero =>
    intro i curves h hi
    omega
  | succ n ih =>
    intro i curves h hi
    unfold groupsLoop
    split
    · rename_i hc
      rw [uint16At_eq_ok clientHello (pos + i) (by omega)]
      simp only [Outcome.bind_def, Outcome.bind_ok]
      apply ih <;> omega
    · exact ⟨_, rfl⟩

theorem formatsLoop_returns (clientHello : List Nat) (pos extLen formatsLen : Nat) :
    ∀ (fuel i : Nat) (formats : List GoString),
      formatsLen + 1 ≤ i + fuel → i ≤ formatsLen →
      ∃ r, formatsLoop clientHello pos extLen formatsLen fuel i formats = .ok r := by
  intro fuel
  induction fuel with
  | zero =>
    intro i formats h hi
    omega
  | succ n ih =>
    intro i formats h hi
    unfold formatsLoop
    split
    · rename_i hc
      rw [index_eq_ok clientHello (pos + i) (by omega)]
      simp only [Outcome.bind_def, Outcome.bind_ok]
      apply ih <;> omega
    · exact ⟨_, rfl⟩

theorem extensionsLoop_returns (clientHello : List Nat) (extensionsEnd : Nat) :
    ∀ (fuel pos : Nat) (components : JA3Components),
      clientHello.length + 1 ≤ pos + fuel → 0 < fuel →
      ∃ r, extensionsLoop clientHello extensionsEnd fuel pos components = .ok r := by
  intro fuel
  induction fuel with
  | zero =>
    intro pos components h hf
    omega
  | succ n ih =>
    intro pos components h hf
    unfold extensionsLoop
    split
    · rename_i hc
      rw [uint16At_eq_ok clientHello pos (by omega),
        uint16At_eq_ok clientHello (pos + 2) (by omega)]
      simp only [Outcome.bind_def, Outcome.bind_ok]
      split
      · split
        · rename_i hg
          rw [uint16At_eq_ok clientHello (pos + 4) (by omega)]
          simp only [Outcome.bind_ok]
          obtain ⟨curves, hcurves⟩ := groupsLoop_returns clientHello (pos + 4 + 2)
            (clientHello.getD (pos + 2) 0 * 256 + clientHello.getD (pos + 2 + 1) 0)
            (clientHello.getD (pos + 4) 0 * 256 + clientHello.getD (pos + 4 + 1) 0)
            (clientHello.getD (pos + 4) 0 * 256 + clientHello.getD (pos + 4 + 1) 0 + 1) 0
            components.EllipticCurves (by omega) (by omega)
          rw [hcurves]
          simp only [Outcome.bind_ok]
          apply ih <;> omega
        · apply ih <;> omega
      · split
        · split
          · rename_i hg
            rw [index_eq_ok clientHello (pos + 4) (by omega)]
            simp only [Outcome.bind_ok]
            obtain ⟨formats, hformats⟩ := formatsLoop_returns clientHello (pos + 4 + 1)
              (clientHello.getD (pos + 2) 0 * 256 + clientHello.getD (pos + 2 + 1) 0)
              (clientHello.getD (pos + 4) 0)
              (clientHello.getD (pos + 4) 0 + 1) 0
              components.EllipticCurvePointFormats (by omega) (by omega)
            rw [hformats]
            simp only [Outcome.bind_ok]
            apply ih <;> omega
          · apply ih <;> omega
        · apply ih <;> omega
    · exact ⟨_, rfl⟩

theorem extractJA3Components_returns (clientHello : List Nat) :
    (∃ c, extractJA3Components clientHello = .ok c) ∨
      ∃ m, m ∈ parserErrors ∧ extractJA3Components clientHello = .error m := by
  unfold extractJA3Components
  simp only []
  split
  · exact Or.inr ⟨_, by simp [parserErrors], rfl⟩
  · rw [uint16At_eq_ok clientHello 9 (by omega)]
    simp only [Outcome.bind_def, Outcome.bind_ok]
    split
    · exact Or.inr ⟨_, by simp [parserErrors], rfl⟩
    · rw [index_eq_ok clientHello _ (by omega)]
      simp only [Outcome.bind_ok]
      split
      · exact Or.inr ⟨_, by simp [parserErrors], rfl⟩
      · rw [uint16At_eq_ok clientHello _ (by omega)]
        simp only [Outcome.bind_ok]
        split
        · exact Or.inr ⟨_, by simp [parserErrors], rfl⟩
        · obtain ⟨suites, hsuites⟩ := cipherSuitesLoop_returns clientHello
            (9 + 2 + 32 + 1 + clientHello.getD (9 + 2 + 32) 0 + 2)
            (clientHello.getD (9 + 2 + 32 + 1 + clientHello.getD (9 + 2 + 32) 0) 0 * 256 +
              clientHello.getD (9 + 2 + 32 + 1 + clientHello.getD (9 + 2 + 32) 0 + 1) 0)
            (clientHello.getD (9 + 2 + 32 + 1 + clientHello.getD (9 + 2 + 32) 0) 0 * 256 +
              clientHello.getD (9 + 2 + 32 + 1 + clientHello.getD (9 + 2 + 32) 0 + 1) 0 + 1)
            0 [] (by omega) (by omega)
          rw [hsuites]
          simp only [Outcome.bind_ok]
          split
          · exact Or.inr ⟨_, by simp [parserErrors], rfl⟩
          · rw [index_eq_ok clientHello _ (by omega)]
            simp only [Outcome.bind_ok]
            split
            · exact Or.inr ⟨_, by simp [parserErrors], rfl⟩
            · rw [uint16At_eq_ok clientHello _ (by omega)]
              simp only [Outcome.bind_ok]
              exact Or.inl (extensionsLoop_returns _ _ _ _ _ (by omega) (by omega))

/-! ## The parser on the wire layout -/

theorem index_append (pre rest : List Nat) (b pos : Nat) (h : pos = pre.length) :
    index (pre ++ b :: rest) pos = .ok b := by
  subst h
  have e : (pre ++ b :: rest)[pre.length]? = some b := by
    rw [List.getElem?_append_right (le_refl _)]
    simp
  simp only [index, e]

theorem uint16At_append (pre rest : List Nat) (hi lo pos : Nat) (h : pos = pre.length) :
    uint16At (pre ++ hi :: lo :: rest) pos = .ok (hi * 256 + lo) := by
  subst h
  have e0 : (pre ++ hi :: lo :: rest)[pre.length]? = some hi := by
    rw [List.getElem?_append_right (le_refl _)]
    simp
  have e1 : (pre ++ hi :: lo :: rest)[pre.length + 1]? = some lo := by
    rw [List.getElem?_append_right (by omega)]
    simp
  simp only [uint16At, e0, e1]

theorem uint16At_bigEndian16 (pre rest : List Nat) (v pos : Nat) (h : pos = pre.length)
    (hv : v < 65536) : uint16At (pre ++ bigEndian16 v ++ rest) pos = .ok v := by
  have e : pre ++ bigEndian16 v ++ rest = pre ++ (v / 256 % 256) :: (v % 256) :: rest := by
    simp [bigEndian16]
  rw [e, uint16At_append pre rest _ _ pos h]
  congr 1
  omega

theorem codeBytes_length (codes : List Nat) : (codeBytes codes).length = 2 * codes.length := by
  induction codes with
  | nil => rfl
  | cons c cs ih =>
    simp only [codeBytes, List.flatMap_cons, List.length_append, List.length_cons] at ih ⊢
    simp only [bigEndian16, List.length_cons, List.length_nil]
    omega

theorem codeBytes_append (xs ys : List Nat) :
    codeBytes (xs ++ ys) = codeBytes xs ++ codeBytes ys := by
  simp [codeBytes, List.flatMap_append]

theorem cipherSuitesLoop_codeBytes (pre rest : List Nat) (total : Nat) :
    ∀ (suites done : List Nat) (fuel : Nat) (acc : List GoString),
      (∀ c ∈ suites, c < 65536) → suites.length < fuel →
      total = 2 * (done.length + suites.length) →
      cipherSuitesLoop (pre ++ codeBytes done ++ codeBytes suites ++ rest) pre.length total fuel
        (2 * done.length) acc = .ok (acc ++ suites.map Itoa) := by
  intro suites
  induction suites with
  | nil =>
    intro done fuel acc _ hf ht
    obtain ⟨n, rfl⟩ : ∃ n, fuel = n + 1 := ⟨fuel - 1, by simp at hf; omega⟩
    unfold cipherSuitesLoop
    simp at ht
    simp [ht]
  | cons c cs ih =>
    intro done fuel acc hc hf ht
    obtain ⟨n, rfl⟩ : ∃ n, fuel = n + 1 := ⟨fuel - 1, by simp at hf; omega⟩
    have hlen : (pre ++ codeBytes done ++ codeBytes (c :: cs) ++ rest).length
        = pre.length + 2 * done.length + 2 * (cs.length + 1) + rest.length := by
      simp [codeBytes_length]
      omega
    have hread : uint16At (pre ++ codeBytes done ++ codeBytes (c :: cs) ++ rest)
        (pre.length + 2 * done.length) = .ok c := by
      have e : pre ++ codeBytes done ++ codeBytes (c :: cs) ++ rest
          = (pre ++ codeBytes done) ++ bigEndian16 c ++ (codeBytes cs ++ rest) := by
        simp [codeBytes]
      rw [e]
      exact uint16At_bigEndian16 _ _ _ _ (by simp [codeBytes_length]) (hc c (by simp))
    have hnext : pre ++ codeBytes done ++ codeBytes (c :: cs) ++ rest
        = pre ++ codeBytes (done ++ [c]) ++ codeBytes cs ++ rest := by
      simp [codeBytes]
    unfold cipherSuitesLoop
    simp only [List.length_cons] at ht hf
    rw [if_pos (by omega), if_neg (by rw [hlen]; omega), hread]
    simp only [Outcome.bind_def, Outcome.bind_ok]
    have h2 : 2 * done.length + 2 = 2 * (done ++ [c]).length := by simp; omega
    rw [hnext, h2, ih (done ++ [c]) n (acc ++ [Itoa c]) (fun x hx => hc x (by simp [hx]))
      (by omega) (by simp; omega)]
    simp

theorem Outcome.bind_eq_ok {α β : Type} (x : Outcome α) (f : α → Outcome β) (r : β)
    (h : Outcome.bind x f = .ok r) : ∃ a, x = .ok a ∧ f a = .ok r := by
  cases x with
  | ok a => exact ⟨a, rfl, h⟩
  | error m => simp [Outcome.bind] at h
  | panic => simp [Outcome.bind] at h
  | outOfFuel => simp [Outcome.bind] at h

theorem extensionsLoop_keeps (clientHello : List Nat) (extensionsEnd : Nat) :
    ∀ (fuel pos : Nat) (components r : JA3Components),
      extensionsLoop clientHello extensionsEnd fuel pos components = .ok r →
      r.TLSVersion = components.TLSVersion ∧ r.CipherSuites = components.CipherSuites := by
  intro fuel
  induction fuel with
  | zero =>
    intro pos components r h
    simp [extensionsLoop] at h
  | succ n ih =>
    intro pos components r h
    unfold extensionsLoop at h
    split at h
    · rename_i hc
      rw [uint16At_eq_ok clientHello pos (by omega),
        uint16At_eq_ok clientHello (pos + 2) (by omega)] at h
      simp only [Outcome.bind_def, Outcome.bind_ok] at h
      split at h
      · split at h
        · rw [uint16At_eq_ok clientHello (pos + 4) (by omega)] at h
          simp only [Outcome.bind_ok] at h
          obtain ⟨curves, -, h⟩ := Outcome.bind_eq_ok _ _ _ h
          exact (ih _ _ _ h :)
        · exact (ih _ _ _ h :)
      · split at h
        · split at h
          · rw [index_eq_ok clientHello (pos + 4) (by omega)] at h
            simp only [Outcome.bind_ok] at h
            obtain ⟨formats, -, h⟩ := Outcome.bind_eq_ok _ _ _ h
            exact (ih _ _ _ h :)
          · exact (ih _ _ _ h :)
        · exact (ih _ _ _ h :)
    · simp at h
      subst h
      exact ⟨rfl, rfl⟩

theorem WireHead.bytes_length (w : WireHead) (extensionsLen : Nat) :
    (w.bytes extensionsLen).length = 9 + 2 + w.random.length + 1 + w.sessionID.length + 2
      + 2 * w.suites.length + 1 + w.compression.length + 2 := by
  simp [WireHead.bytes, bigEndian16, codeBytes_length]
  omega

/-- On the wire layout, whatever follows it, the parser reaches the extensions loop with the
version and the cipher suites of the layout. -/
theorem extractJA3Components_wireHead (w : WireHead) (hw : w.valid) (extensionsLen : Nat)
    (he : extensionsLen < 65536) (tail : List Nat) :
    extractJA3Components (w.bytes extensionsLen ++ tail)
      = extensionsLoop (w.bytes extensionsLen ++ tail)
          ((w.bytes extensionsLen).length + extensionsLen)
          ((w.bytes extensionsLen ++ tail).length + 1) (w.bytes extensionsLen).length
          { TLSVersion := w.version, CipherSuites := w.suites.map Itoa } := by
  obtain ⟨hver, hrand, hsid, hsuites, hcodes, hcomp⟩ := hw
  have hlen := w.bytes_length extensionsLen
  have hblen : (w.bytes extensionsLen ++ tail).length
      = (w.bytes extensionsLen).length + tail.length := List.length_append _ _
  rw [hrand] at hlen
  -- the reads of the fixed fields
  have r1 : uint16At (w.bytes extensionsLen ++ tail) 9 = .ok w.version := by
    have e : w.bytes extensionsLen ++ tail
        = ([0x16] ++ bigEndian16 w.recordVersion ++ bigEndian16 w.recordLen
            ++ [0x01, w.handshakeLen / 65536 % 256, w.handshakeLen / 256 % 256,
              w.handshakeLen % 256])
          ++ bigEndian16 w.version
          ++ (w.random ++ [w.sessionID.length] ++ w.sessionID
            ++ bigEndian16 (2 * w.suites.length) ++ codeBytes w.suites
            ++ [w.compression.length] ++ w.compression ++ bigEndian16 extensionsLen ++ tail) := by
      simp [WireHead.bytes]
    rw [e]
    exact uint16At_bigEndian16 _ _ _ _ (by simp [bigEndian16]) hver
  have r2 : index (w.bytes extensionsLen ++ tail) (9 + 2 + 32) = .ok w.sessionID.length := by
    have e : w.bytes extensionsLen ++ tail
        = ([0x16] ++ bigEndian16 w.recordVersion ++ bigEndian16 w.recordLen
            ++ [0x01, w.handshakeLen / 65536 % 256, w.handshakeLen / 256 % 256,
              w.handshakeLen % 256] ++ bigEndian16 w.version ++ w.random)
          ++ w.sessionID.length :: (w.sessionID
            ++ bigEndian16 (2 * w.suites.length) ++ codeBytes w.suites
            ++ [w.compression.length] ++ w.compression ++ bigEndian16 extensionsLen ++ tail) := by
      simp [WireHead.bytes]
    rw [e]
    exact index_append _ _ _ _ (by simp [bigEndian16, hrand])
  have r3 : uint16At (w.bytes extensionsLen ++ tail) (9 + 2 + 32 + 1 + w.sessionID.length)
      = .ok (2 * w.suites.length) := by
    have e : w.bytes extensionsLen ++ tail
        = ([0x16] ++ bigEndian16 w.recordVersion ++ bigEndian16 w.recordLen
            ++ [0x01, w.handshakeLen / 65536 % 256, w.handshakeLen / 256 % 256,
              w.handshakeLen % 256] ++ bigEndian16 w.version ++ w.random
            ++ [w.sessionID.length] ++ w.sessionID)
          ++ bigEndian16 (2 * w.suites.length)
          ++ (codeBytes w.suites
            ++ [w.compression.length] ++ w.compression ++ bigEndian16 extensionsLen ++ tail) := by
      simp [WireHead.bytes]
    rw [e]
    exact uint16At_bigEndian16 _ _ _ _ (by simp [bigEndian16, hrand]; omega) (by omega)
  have r4 : cipherSuitesLoop (w.bytes extensionsLen ++ tail)
      (9 + 2 + 32 + 1 + w.sessionID.length + 2) (2 * w.suites.length)
      (2 * w.suites.length + 1) 0 [] = .ok (w.suites.map Itoa) := by
    have e : w.bytes extensionsLen ++ tail
        = ([0x16] ++ bigEndian16 w.recordVersion ++ bigEndian16 w.recordLen
            ++ [0x01, w.handshakeLen / 65536 % 256, w.handshakeLen / 256 % 256,
              w.handshakeLen % 256] ++ bigEndian16 w.version ++ w.random
            ++ [w.sessionID.length] ++ w.sessionID ++ bigEndian16 (2 * w.suites.length))
          ++ codeBytes [] ++ codeBytes w.suites
          ++ ([w.compression.length] ++ w.compression ++ bigEndian16 extensionsLen ++ tail) := by
      simp [WireHead.bytes, codeBytes]
    have hp : 9 + 2 + 32 + 1 + w.sessionID.length + 2
        = ([0x16] ++ bigEndian16 w.recordVersion ++ bigEndian16 w.recordLen
            ++ [0x01, w.handshakeLen / 65536 % 256, w.handshakeLen / 256 % 256,
              w.handshakeLen % 256] ++ bigEndian16 w.version ++ w.random
            ++ [w.sessionID.length] ++ w.sessionID
            ++ bigEndian16 (2 * w.suites.length)).length := by
      simp [bigEndian16, hrand]
      omega
    rw [e, hp]
    have := cipherSuitesLoop_codeBytes
      ([0x16] ++ bigEndian16 w.recordVersion ++ bigEndian16 w.recordLen
            ++ [0x01, w.handshakeLen / 65536 % 256, w.handshakeLen / 256 % 256,
              w.handshakeLen % 256] ++ bigEndian16 w.version ++ w.random
            ++ [w.sessionID.length] ++ w.sessionID ++ bigEndian16 (2 * w.suites.length))
      ([w.compression.length] ++ w.compression ++ bigEndian16 extensionsLen ++ tail)
      (2 * w.suites.length) w.suites [] (2 * w.suites.length + 1) [] hcodes (by omega)
      (by simp)
    simpa using this
  have r5 : index (w.bytes extensionsLen ++ tail)
      (9 + 2 + 32 + 1 + w.sessionID.length + 2 + 2 * w.suites.length)
      = .ok w.compression.length := by
    have e : w.bytes extensionsLen ++ tail
        = ([0x16] ++ bigEndian16 w.recordVersion ++ bigEndian16 w.recordLen
            ++ [0x01, w.handshakeLen / 65536 % 256, w.handshakeLen / 256 % 256,
              w.handshakeLen % 256] ++ bigEndian16 w.version ++ w.random
            ++ [w.sessionID.length] ++ w.sessionID ++ bigEndian16 (2 * w.suites.length)
            ++ codeBytes w.suites)
          ++ w.compression.length :: (w.compression ++ bigEndian16 extensionsLen ++ tail) := by
      simp [WireHead.bytes]
    rw [e]
    exact index_append _ _ _ _ (by simp [bigEndian16, hrand, codeBytes_length]; omega)
  have r6 : uint16At (w.bytes extensionsLen ++ tail)
      (9 + 2 + 32 + 1 + w.sessionID.length + 2 + 2 * w.suites.length + 1
        + w.compression.length) = .ok extensionsLen := by
    have e : w.bytes extensionsLen ++ tail
        = ([0x16] ++ bigEndian16 w.recordVersion ++ bigEndian16 w.recordLen
            ++ [0x01, w.handshakeLen / 65536 % 256, w.handshakeLen / 256 % 256,
              w.handshakeLen % 256] ++ bigEndian16 w.version ++ w.random
            ++ [w.sessionID.length] ++ w.sessionID ++ bigEndian16 (2 * w.suites.length)
            ++ codeBytes w.suites ++ [w.compression.length] ++ w.compression)
          ++ bigEndian16 extensionsLen ++ tail := by
      simp [WireHead.bytes]
    rw [e]
    exact uint16At_bigEndian16 _ _ _ _
      (by simp [bigEndian16, hrand, codeBytes_length]; omega) he
  unfold extractJA3Components
  simp only []
  rw [if_neg (by omega), r1]
  simp only [Outcome.bind_def, Outcome.bind_ok]
  rw [if_neg (by omega), r2]
  simp only [Outcome.bind_ok]
  rw [if_neg (by omega), r3]
  simp only [Outcome.bind_ok]
  rw [if_neg (by omega), r4]
  simp only [Outcome.bind_ok]
  rw [if_neg (by omega), r5]
  simp only [Outcome.bind_ok]
  rw [if_neg (by omega), r6]
  simp only [Outcome.bind_ok]
  rw [hlen]

/-! ## The builder returns bytes whenever its fields decode -/

theorem encodeCipherSuites_ok :
    ∀ (suites : List GoString) (acc : List Nat), (∀ s ∈ suites, (Sscanf s).isSome = true) →
      ∃ r, encodeCipherSuites suites acc = .ok r ∧ r.length = acc.length + 2 * suites.length := by
  intro suites
  induction suites with
  | nil =>
    intro acc _
    exact ⟨acc, rfl, by simp⟩
  | cons s rest ih =>
    intro acc h
    obtain ⟨suite, hs⟩ := Option.isSome_iff_exists.mp (h s (by simp))
    obtain ⟨r, hr, hl⟩ := ih (acc ++ [(suite >>> 8) % 256, suite % 256])
      (fun x hx => h x (by simp [hx]))
    refine ⟨r, ?_, ?_⟩
    · simp only [encodeCipherSuites, hs, hr]
    · simp only [List.length_append, List.length_cons, List.length_nil] at hl ⊢
      omega

theorem encodeExtensions_ok :
    ∀ (exts : List ExtensionTemplate) (acc : List Nat),
      (∀ e ∈ exts, (DecodeString e.Data).isSome = true) →
      ∃ r, encodeExtensions exts acc = .ok r ∧ acc.length + 4 * exts.length ≤ r.length := by
  intro exts
  induction exts with
  | nil =>
    intro acc _
    exact ⟨acc, rfl, by simp⟩
  | cons e rest ih =>
    intro acc h
    obtain ⟨extData, hd⟩ := Option.isSome_iff_exists.mp (h e (by simp))
    obtain ⟨r, hr, hl⟩ := ih
      (acc ++ [byteOfInt (e.Typ >>> 8), byteOfInt e.Typ]
        ++ [(extData.length >>> 8) % 256, extData.length % 256] ++ extData)
      (fun x hx => h x (by simp [hx]))
    refine ⟨r, ?_, ?_⟩
    · simp only [encodeExtensions, hd, hr]
    · simp only [List.length_append, List.length_cons, List.length_nil] at hl ⊢
      omega

theorem GenerateClientHello_returns_bytes (t : ChromeTemplate) (random sessionID : List Nat)
    (hr : DecodeString t.ClientHello.Random = some random)
    (hs : DecodeString t.ClientHello.SessionID = some sessionID)
    (hc : ∀ s ∈ t.ClientHello.CipherSuites, (Sscanf s).isSome = true)
    (he : ∀ e ∈ t.ClientHello.Extensions, (DecodeString e.Data).isSome = true) :
    (GenerateClientHello t).isOk = true := by
  obtain ⟨cs, hcs, -⟩ := encodeCipherSuites_ok t.ClientHello.CipherSuites [] hc
  obtain ⟨ex, hex, -⟩ := encodeExtensions_ok t.ClientHello.Extensions [] he
  simp only [GenerateClientHello, hr, hs, hcs, hex]
  rfl

/-- The header checks of `CalculateJA3` and `CalculateJA4` read 0x16 and 0x01 on the wire
layout. -/
theorem WireHead.header_reads (w : WireHead) (extensionsLen : Nat) (tail : List Nat) :
    index (w.bytes extensionsLen ++ tail) 0 = .ok 0x16 ∧
      index (w.bytes extensionsLen ++ tail) 5 = .ok 0x01 := by
  constructor <;> simp [index, WireHead.bytes, bigEndian16]

theorem CalculateJA3_eq_ok (clientHello : List Nat) (c : JA3Components)
    (hlen : 5 ≤ clientHello.length) (h0 : index clientHello 0 = .ok 0x16)
    (h5 : index clientHello 5 = .ok 0x01) (hc : extractJA3Components clientHello = .ok c) :
    CalculateJA3 clientHello = .ok (hexString (md5Sum (stringBytes (ja3String c)))) := by
  unfold CalculateJA3
  rw [if_neg (by omega), h0]
  simp only [Outcome.bind_def, Outcome.bind_ok]
  rw [if_neg (by decide), h5]
  simp only [Outcome.bind_ok]
  rw [if_neg (by decide), hc]

theorem CalculateJA4_eq_ok (clientHello : List Nat) (c : JA3Components)
    (hlen : 5 ≤ clientHello.length) (h0 : index clientHello 0 = .ok 0x16)
    (h5 : index clientHello 5 = .ok 0x01) (hc : extractJA3Components clientHello = .ok c) :
    (CalculateJA4 clientHello).isOk = true := by
  unfold CalculateJA4
  rw [if_neg (by omega), h0]
  simp only [Outcome.bind_def, Outcome.bind_ok]
  rw [if_neg (by decide), h5]
  simp only [Outcome.bind_ok]
  rw [if_neg (by decide)]
  unfold extractJA4Components
  rw [hc]
  rfl

theorem GenerateClientHello_layout (t : ChromeTemplate) (out : List Nat)
    (h : GenerateClientHello t = .ok out) :
    ∃ random sessionID cipherSuites extensions,
      DecodeString t.ClientHello.Random = some random ∧
      DecodeString t.ClientHello.SessionID = some sessionID ∧
      encodeCipherSuites t.ClientHello.CipherSuites [] = .ok cipherSuites ∧
      encodeExtensions t.ClientHello.Extensions [] = .ok extensions ∧
      out = recordOf (handshakeBody random sessionID cipherSuites
        t.ClientHello.CompressionMethods extensions) := by
  unfold GenerateClientHello at h
  split at h
  · simp at h
  · rename_i random hr
    split at h
    · simp at h
    · rename_i sessionID hs
      split at h
      · simp at h
      · simp at h
      · simp at h
      · rename_i cipherSuites hc
        split at h
        · simp at h
        · simp at h
        · simp at h
        · rename_i extensions he
          simp only [Outcome.ok.injEq] at h
          subst h
          exact ⟨random, sessionID, cipherSuites, extensions, hr, hs, hc, he,
            by simp [recordOf, handshakeBody]⟩

/-- On every success of `GenerateClientHello` ten bytes precede the handshake payload: the
output is 10 bytes longer than the payload, offsets 6 to 9 hold the payload length on four
big-endian bytes, offsets 3-4 hold its low 16 bits, and the client version 03 03 stands at
offsets 10-11. -/
theorem GenerateClientHello_header_is_ten_bytes (t : ChromeTemplate) (out : List Nat)
    (h : GenerateClientHello t = .ok out) :
    ∃ handshake : List Nat, out.length = 10 + handshake.length ∧
      out[3]? = some ((handshake.length >>> 8) % 256) ∧
      out[4]? = some (handshake.length % 256) ∧
      out[5]? = some 0x01 ∧
      out[6]? = some ((handshake.length >>> 24) % 256) ∧
      out[7]? = some ((handshake.length >>> 16) % 256) ∧
      out[8]? = some ((handshake.length >>> 8) % 256) ∧
      out[9]? = some (handshake.length % 256) ∧
      out[10]? = some 0x03 ∧ out[11]? = some 0x03 := by
  obtain ⟨random, sessionID, cipherSuites, extensions, -, -, -, -, rfl⟩ :=
    GenerateClientHello_layout t out h
  refine ⟨handshakeBody random sessionID cipherSuites t.ClientHello.CompressionMethods
    extensions, ?_, ?_, ?_, ?_, ?_, ?_, ?_, ?_, ?_, ?_⟩
  · simp [recordOf]
    omega
  all_goals simp [recordOf, handshakeBody]

/-! ## The header checks -/

theorem index_eq_panic (b : List Nat) (i : Nat) (h : b.length ≤ i) : index b i = .panic := by
  simp [index, List.getElem?_eq_none h]

/-- The header checks panic exactly on the 5-byte buffers that start with 0x16; on every
other buffer `CalculateJA3` returns a fingerprint or an error. -/
theorem CalculateJA3_panic_iff (clientHello : List Nat) :
    (CalculateJA3 clientHello = .panic ↔
        clientHello.length = 5 ∧ clientHello[0]? = some 0x16) ∧
      CalculateJA3 clientHello ≠ .outOfFuel := by
  unfold CalculateJA3
  by_cases hlen : clientHello.length < 5
  · rw [if_pos hlen]
    refine ⟨⟨fun h => by simp at h, fun h => by omega⟩, by simp⟩
  · rw [if_neg hlen, index_eq_ok clientHello 0 (by omega)]
    simp only [Outcome.bind_def, Outcome.bind_ok]
    have h0 : clientHello[0]? = some (clientHello.getD 0 0) := by
      rw [List.getD_eq_getElem?_getD]
      rw [List.getElem?_eq_getElem (by omega)]
      rfl
    by_cases hrec : clientHello.getD 0 0 = 0x16
    · rw [if_neg (by simpa using hrec)]
      by_cases h5 : clientHello.length = 5
      · rw [index_eq_panic clientHello 5 (by omega)]
        refine ⟨⟨fun _ => ⟨h5, by rw [h0, hrec]⟩, fun _ => rfl⟩, by simp [Outcome.bind]⟩
      · rw [index_eq_ok clientHello 5 (by omega)]
        simp only [Outcome.bind_ok]
        split
        · refine ⟨⟨fun h => by simp at h, fun h => absurd h.1 h5⟩, by simp⟩
        · rcases extractJA3Components_returns clientHello with ⟨c, hc⟩ | ⟨m, -, hm⟩
          · rw [hc]
            refine ⟨⟨fun h => by simp at h, fun h => absurd h.1 h5⟩, by simp⟩
          · rw [hm]
            refine ⟨⟨fun h => by simp at h, fun h => absurd h.1 h5⟩, by simp⟩
    · rw [if_pos (by simpa using hrec)]
      refine ⟨⟨fun h => by simp at h, fun h => ?_⟩, by simp⟩
      rw [h0] at h
      exact absurd (Option.some.inj h.2) hrec

theorem extractJA4Components_returns (clientHello : List Nat) :
    (∃ c, extractJA4Components clientHello = .ok c) ∨
      ∃ m, m ∈ parserErrors ∧ extractJA4Components clientHello = .error m := by
  unfold extractJA4Components
  rcases extractJA3Components_returns clientHello with ⟨c, hc⟩ | ⟨m, hm, he⟩
  · rw [hc]
    exact Or.inl ⟨_, rfl⟩
  · rw [he]
    exact Or.inr ⟨m, hm, rfl⟩

/-- The header checks of `CalculateJA4` panic exactly on the 5-byte buffers that start with
0x16; on every other buffer it returns a fingerprint or an error. -/
theorem CalculateJA4_panic_iff (clientHello : List Nat) :
    (CalculateJA4 clientHello = .panic ↔
        clientHello.length = 5 ∧ clientHello[0]? = some 0x16) ∧
      CalculateJA4 clientHello ≠ .outOfFuel := by
  unfold CalculateJA4
  by_cases hlen : clientHello.length < 5
  · rw [if_pos hlen]
    refine ⟨⟨fun h => by simp at h, fun h => by omega⟩, by simp⟩
  · rw [if_neg hlen, index_eq_ok clientHello 0 (by omega)]
    simp only [Outcome.bind_def, Outcome.bind_ok]
    have h0 : clientHello[0]? = some (clientHello.getD 0 0) := by
      rw [List.getD_eq_getElem?_getD]
      rw [List.getElem?_eq_getElem (by omega)]
      rfl
    by_cases hrec : clientHello.getD 0 0 = 0x16
    · rw [if_neg (by simpa using hrec)]
      by_cases h5 : clientHello.length = 5
      · rw [index_eq_panic clientHello 5 (by omega)]
        refine ⟨⟨fun _ => ⟨h5, by rw [h0, hrec]⟩, fun _ => rfl⟩, by simp [Outcome.bind]⟩
      · rw [index_eq_ok clientHello 5 (by omega)]
        simp only [Outcome.bind_ok]
        split
        · refine ⟨⟨fun h => by simp at h, fun h => absurd h.1 h5⟩, by simp⟩
        · rcases extractJA4Components_returns clientHello with ⟨c, hc⟩ | ⟨m, -, hm⟩
          · rw [hc]
            refine ⟨⟨fun h => by simp at h, fun h => absurd h.1 h5⟩, by simp⟩
          · rw [hm]
            refine ⟨⟨fun h => by simp at h, fun h => absurd h.1 h5⟩, by simp⟩
    · rw [if_pos (by simpa using hrec)]
      refine ⟨⟨fun h => by simp at h, fun h => ?_⟩, by simp⟩
      rw [h0] at h
      exact absurd (Option.some.inj h.2) hrec

theorem getElem?_append_cons (pre rest : List Nat) (b pos : Nat) (h : pos = pre.length) :
    (pre ++ b :: rest)[pos]? = some b := by
  subst h
  rw [List.getElem?_append_right (le_refl _)]
  simp

theorem GenerateClientHello_eq_recordOf (t : ChromeTemplate) (random sessionID : List Nat)
    (hr : DecodeString t.ClientHello.Random = some random)
    (hs : DecodeString t.ClientHello.SessionID = some sessionID)
    (hc : ∀ s ∈ t.ClientHello.CipherSuites, (Sscanf s).isSome = true)
    (he : ∀ e ∈ t.ClientHello.Extensions, (DecodeString e.Data).isSome = true) :
    ∃ cipherSuites extensions,
      encodeCipherSuites t.ClientHello.CipherSuites [] = .ok cipherSuites ∧
      cipherSuites.length = 2 * t.ClientHello.CipherSuites.length ∧
      encodeExtensions t.ClientHello.Extensions [] = .ok extensions ∧
      GenerateClientHello t = .ok (recordOf (handshakeBody random sessionID cipherSuites
        t.ClientHello.CompressionMethods extensions)) := by
  obtain ⟨cs, hcs, hcl⟩ := encodeCipherSuites_ok t.ClientHello.CipherSuites [] hc
  obtain ⟨ex, hex, -⟩ := encodeExtensions_ok t.ClientHello.Extensions [] he
  refine ⟨cs, ex, hcs, by simpa using hcl, hex, ?_⟩
  simp only [GenerateClientHello, hr, hs, hcs, hex]
  simp [recordOf, handshakeBody]

theorem recordOf_getElem? (body : List Nat) (i : Nat) :
    (recordOf body)[10 + i]? = body[i]? := by
  unfold recordOf
  rw [List.getElem?_append_right (by simp)]
  simp

theorem recordOf_drop (body : List Nat) (i : Nat) :
    (recordOf body).drop (10 + i) = body.drop i := by
  unfold recordOf
  exact @List.drop_append Nat [0x16, 0x03, 0x03, (body.length >>> 8) % 256, body.length % 256,
    0x01, (body.length >>> 24) % 256, (body.length >>> 16) % 256, (body.length >>> 8) % 256,
    body.length % 256] body i

/-! ## Digits, hex digests and joined strings -/

theorem ja4String_eq_join (c : JA4Components) : ja4String c = Join (ja4Parts c) ['_'] := rfl

theorem digitChar_mem_decimalDigits : ∀ n, n < 10 → Nat.digitChar n ∈ decimalDigits := by
  decide

theorem toDigitsCore_decimal :
    ∀ (fuel n : Nat) (ds : List Char), isDecimal ds → isDecimal (Nat.toDigitsCore 10 fuel n ds) := by
  intro fuel
  induction fuel with
  | zero =>
    intro n ds h
    exact h
  | succ f ih =>
    intro n ds h
    have hd : isDecimal (Nat.digitChar (n % 10) :: ds) := by
      intro ch hch
      rcases List.mem_cons.mp hch with rfl | hmem
      · exact digitChar_mem_decimalDigits _ (Nat.mod_lt _ (by decide))
      · exact h ch hmem
    unfold Nat.toDigitsCore
    simp only []
    split
    · exact hd
    · exact ih _ _ hd

theorem Itoa_decimal (n : Nat) : isDecimal (Itoa n) :=
  toDigitsCore_decimal _ _ _ (fun _ h => absurd h (List.not_mem_nil _))

theorem littleEndian_length : ∀ (n x : Nat), (littleEndian n x).length = n := by
  intro n
  induction n with
  | zero => intro x; rfl
  | succ k ih => intro x; simp [littleEndian, ih]

theorem md5Sum_length (msg : List Nat) : (md5Sum msg).length = 16 := by
  unfold md5Sum
  simp only [List.length_append, littleEndian_length]

theorem hexDigit_mem : ∀ n, n < 16 → hexDigit n ∈ lowerHexDigits := by
  decide

theorem hexString_length (bytes : List Nat) : (hexString bytes).length = 2 * bytes.length := by
  induction bytes with
  | nil => rfl
  | cons b bs ih =>
    simp only [hexString, List.flatMap_cons, List.length_append, List.length_cons,
      List.length_nil] at ih ⊢
    omega

theorem hexString_lower (bytes : List Nat) : ∀ ch ∈ hexString bytes, ch ∈ lowerHexDigits := by
  intro ch h
  simp only [hexString, List.mem_flatMap, List.mem_cons, List.mem_singleton,
    List.not_mem_nil, or_false] at h
  obtain ⟨b, -, rfl | rfl⟩ := h
  · exact hexDigit_mem _ (Nat.mod_lt _ (by decide))
  · exact hexDigit_mem _ (Nat.mod_lt _ (by decide))

/-! ## The lists returned by the parser hold decimal strings -/

theorem allDecimal_append_Itoa (l : List GoString) (n : Nat) (h : ∀ s ∈ l, isDecimal s) :
    ∀ s ∈ l ++ [Itoa n], isDecimal s := by
  intro s hs
  rcases List.mem_append.mp hs with h1 | h1
  · exact h s h1
  · rw [List.mem_singleton.mp h1]
    exact Itoa_decimal n

theorem cipherSuitesLoop_decimal (clientHello : List Nat) (pos cipherSuitesLen : Nat) :
    ∀ (fuel i : Nat) (suites r : List GoString),
      cipherSuitesLoop clientHello pos cipherSuitesLen fuel i suites = .ok r →
      (∀ s ∈ suites, isDecimal s) → ∀ s ∈ r, isDecimal s := by
  intro fuel
  induction fuel with
  | zero =>
    intro i suites r h
    simp [cipherSuitesLoop] at h
  | succ n ih =>
    intro i suites r h hacc
    unfold cipherSuitesLoop at h
    split at h
    · split at h
      · simp only [Outcome.ok.injEq] at h
        subst h
        exact hacc
      · rw [uint16At_eq_ok clientHello (pos + i) (by omega)] at h
        simp only [Outcome.bind_def, Outcome.bind_ok] at h
        exact ih _ _ _ h (allDecimal_append_Itoa _ _ hacc)
    · simp only [Outcome.ok.injEq] at h
      subst h
      exact hacc

theorem groupsLoop_decimal (clientHello : List Nat) (pos extLen groupsLen : Nat) :
    ∀ (fuel i : Nat) (curves r : List GoString),
      groupsLoop clientHello pos extLen groupsLen fuel i curves = .ok r →
      (∀ s ∈ curves, isDecimal s) → ∀ s ∈ r, isDecimal s := by
  intro fuel
  induction fuel with
  | zero =>
    intro i curves r h
    simp [groupsLoop] at h
  | succ n ih =>
    intro i curves r h hacc
    unfold groupsLoop at h
    split at h
    · rw [uint16At_eq_ok clientHello (pos + i) (by omega)] at h
      simp only [Outcome.bind_def, Outcome.bind_ok] at h
      exact ih _ _ _ h (allDecimal_append_Itoa _ _ hacc)
    · simp only [Outcome.ok.injEq] at h
      subst h
      exact hacc

theorem formatsLoop_decimal (clientHello : List Nat) (pos extLen formatsLen : Nat) :
    ∀ (fuel i : Nat) (formats r : List GoString),
      formatsLoop clientHello pos extLen formatsLen fuel i formats = .ok r →
      (∀ s ∈ formats, isDecimal s) → ∀ s ∈ r, isDecimal s := by
  intro fuel
  induction fuel with
  | zero =>
    intro i formats r h
    simp [formatsLoop] at h
  | succ n ih =>
    intro i formats r h hacc
    unfold formatsLoop at h
    split at h
    · rw [index_eq_ok clientHello (pos + i) (by omega)] at h
      simp only [Outcome.bind_def, Outcome.bind_ok] at h
      exact ih _ _ _ h (allDecimal_append_Itoa _ _ hacc)
    · simp only [Outcome.ok.injEq] at h
      subst h
      exact hacc

theorem extensionsLoop_decimal (clientHello : List Nat) (extensionsEnd : Nat) :
    ∀ (fuel pos : Nat) (components r : JA3Components),
      extensionsLoop clientHello extensionsEnd fuel pos components = .ok r →
      components.decimal → r.decimal := by
  intro fuel
  induction fuel with
  | zero =>
    intro pos components r h
    simp [extensionsLoop] at h
  | succ n ih =>
    intro pos components r h hd
    obtain ⟨hd1, hd2, hd3, hd4⟩ := hd
    unfold extensionsLoop at h
    split at h
    · rename_i hc
      rw [uint16At_eq_ok clientHello pos (by omega),
        uint16At_eq_ok clientHello (pos + 2) (by omega)] at h
      simp only [Outcome.bind_def, Outcome.bind_ok] at h
      have hext := allDecimal_append_Itoa components.Extensions
        (clientHello.getD pos 0 * 256 + clientHello.getD (pos + 1) 0) hd2
      split at h
      · split at h
        · rw [uint16At_eq_ok clientHello (pos + 4) (by omega)] at h
          simp only [Outcome.bind_ok] at h
          obtain ⟨curves, hcurves, h⟩ := Outcome.bind_eq_ok _ _ _ h
          exact ih _ _ _ h ⟨hd1, hext, groupsLoop_decimal _ _ _ _ _ _ _ _ hcurves hd3, hd4⟩
        · exact ih _ _ _ h ⟨hd1, hext, hd3, hd4⟩
      · split at h
        · split at h
          · rw [index_eq_ok clientHello (pos + 4) (by omega)] at h
            simp only [Outcome.bind_ok] at h
            obtain ⟨formats, hformats, h⟩ := Outcome.bind_eq_ok _ _ _ h
            exact ih _ _ _ h ⟨hd1, hext, hd3, formatsLoop_decimal _ _ _ _ _ _ _ _ hformats hd4⟩
          · exact ih _ _ _ h ⟨hd1, hext, hd3, hd4⟩
        · exact ih _ _ _ h ⟨hd1, hext, hd3, hd4⟩
    · simp only [Outcome.ok.injEq] at h
      subst h
      exact ⟨hd1, hd2, hd3, hd4⟩

/-- What a successful run of the parser went through: the cipher-suite loop on the declared
block and then the extensions loop. -/
theorem extractJA3Components_ok_inv (clientHello : List Nat) (c : JA3Components)
    (h : extractJA3Components clientHello = .ok c) :
    ∃ pos cipherSuitesLen suites start extensionsEnd,
      uint16At clientHello pos = .ok cipherSuitesLen ∧
      pos + 2 + cipherSuitesLen < clientHello.length ∧
      cipherSuitesLoop clientHello (pos + 2) cipherSuitesLen (cipherSuitesLen + 1) 0 []
        = .ok suites ∧
      extensionsLoop clientHello extensionsEnd (clientHello.length + 1) start
        { TLSVersion := clientHello.getD 9 0 * 256 + clientHello.getD 10 0,
          CipherSuites := suites } = .ok c := by
  unfold extractJA3Components at h
  simp only [] at h
  split at h
  · simp at h
  · rw [uint16At_eq_ok clientHello 9 (by omega)] at h
    simp only [Outcome.bind_def, Outcome.bind_ok] at h
    split at h
    · simp at h
    · rw [index_eq_ok clientHello _ (by omega)] at h
      simp only [Outcome.bind_ok] at h
      split at h
      · simp at h
      · rename_i hb
        have hread := uint16At_eq_ok clientHello
          (9 + 2 + 32 + 1 + clientHello.getD (9 + 2 + 32) 0) (by omega)
        rw [hread] at h
        simp only [Outcome.bind_ok] at h
        split at h
        · simp at h
        · obtain ⟨suites, hsuites, h⟩ := Outcome.bind_eq_ok _ _ _ h
          split at h
          · simp at h
          · rw [index_eq_ok clientHello _ (by omega)] at h
            simp only [Outcome.bind_ok] at h
            split at h
            · simp at h
            · rw [uint16At_eq_ok clientHello _ (by omega)] at h
              simp only [Outcome.bind_ok] at h
              exact ⟨_, _, suites, _, _, hread, by omega, hsuites, h⟩

theorem extractJA3Components_decimal (clientHello : List Nat) (c : JA3Components)
    (h : extractJA3Components clientHello = .ok c) : c.decimal := by
  obtain ⟨pos, n, suites, start, e, -, -, hs, hl⟩ := extractJA3Components_ok_inv clientHello c h
  refine extensionsLoop_decimal _ _ _ _ _ _ hl ⟨?_, ?_, ?_, ?_⟩
  · exact cipherSuitesLoop_decimal _ _ _ _ _ _ _ hs (fun _ hx => absurd hx (List.not_mem_nil _))
  · exact fun _ hx => absurd hx (List.not_mem_nil _)
  · exact fun _ hx => absurd hx (List.not_mem_nil _)
  · exact fun _ hx => absurd hx (List.not_mem_nil _)

/-! ## Shape of the fingerprints -/

theorem mem_Join (sep : GoString) : ∀ (l : List GoString) (ch : Char),
    ch ∈ Join l sep → ch ∈ sep ∨ ∃ s ∈ l, ch ∈ s := by
  intro l
  induction l with
  | nil =>
    intro ch h
    simp [Join, List.intercalate] at h
  | cons a rest ih =>
    intro ch h
    cases rest with
    | nil =>
      simp [Join, List.intercalate] at h
      exact Or.inr ⟨a, by simp, h⟩
    | cons b rest2 =>
      have e : Join (a :: b :: rest2) sep = a ++ sep ++ Join (b :: rest2) sep := by
        simp [Join, List.intercalate]
      rw [e] at h
      rcases List.mem_append.mp h with h1 | h1
      · rcases List.mem_append.mp h1 with h2 | h2
        · exact Or.inr ⟨a, by simp, h2⟩
        · exact Or.inl h2
      · rcases ih ch h1 with h3 | ⟨s, hs, hch⟩
        · exact Or.inl h3
        · exact Or.inr ⟨s, List.mem_cons_of_mem _ hs, hch⟩

theorem underscore_not_decimal (s : GoString) (h : isDecimal s) : '_' ∉ s := by
  intro hm
  have := h '_' hm
  revert this
  decide

theorem underscore_not_in_dash_join (l : List GoString) (h : ∀ s ∈ l, isDecimal s) :
    '_' ∉ Join l ['-'] := by
  intro hm
  rcases mem_Join _ _ _ hm with h1 | ⟨s, hs, hch⟩
  · revert h1
    decide
  · exact underscore_not_decimal s (h s hs) hch

theorem underscore_not_hex (bytes : List Nat) : '_' ∉ hexString bytes := by
  intro hm
  have := hexString_lower bytes '_' hm
  revert this
  decide

theorem CalculateJA3_ok_inv (clientHello : List Nat) (fp : GoString)
    (h : CalculateJA3 clientHello = .ok fp) :
    ∃ c, extractJA3Components clientHello = .ok c ∧
      fp = hexString (md5Sum (stringBytes (ja3String c))) ∧
      6 ≤ clientHello.length ∧ clientHello.getD 0 0 = 0x16 ∧ clientHello.getD 5 0 = 0x01 := by
  unfold CalculateJA3 at h
  split at h
  · cases h
  · rw [index_eq_ok clientHello 0 (by omega)] at h
    simp only [Outcome.bind_def, Outcome.bind_ok] at h
    split at h
    · cases h
    · rename_i h16
      by_cases h5 : clientHello.length = 5
      · rw [index_eq_panic clientHello 5 (by omega)] at h
        cases h
      · rw [index_eq_ok clientHello 5 (by omega)] at h
        simp only [Outcome.bind_ok] at h
        split at h
        · cases h
        · rename_i h01
          split at h
          · cases h
          · rename_i c hc
            exact ⟨c, hc, (Outcome.ok.inj h).symm, by omega, Decidable.not_not.mp h16,
              Decidable.not_not.mp h01⟩
          · cases h
          · cases h

/-- The JA4 components that `extractJA4Components` builds from the JA3 components. -/
theorem extractJA4Components_ok_inv (clientHello : List Nat) (c4 : JA4Components)
    (h : extractJA4Components clientHello = .ok c4) :
    ∃ c, extractJA3Components clientHello = .ok c ∧
      c4 = { TLSVersion := c.TLSVersion, CipherSuites := c.CipherSuites,
             Extensions := c.Extensions, EllipticCurves := c.EllipticCurves,
             EllipticCurvePointFormats := c.EllipticCurvePointFormats } := by
  unfold extractJA4Components at h
  obtain ⟨c, hc, h⟩ := Outcome.bind_eq_ok _ _ _ h
  exact ⟨c, hc, (Outcome.ok.inj h).symm⟩

theorem CalculateJA4_ok_inv (clientHello : List Nat) (fp : GoString)
    (h : CalculateJA4 clientHello = .ok fp) :
    ∃ c4, extractJA4Components clientHello = .ok c4 ∧
      fp = ja4String c4 ++ ['_'] ++ hexString (md5Sum (stringBytes (ja4String c4))) ∧
      6 ≤ clientHello.length ∧ clientHello.getD 0 0 = 0x16 ∧ clientHello.getD 5 0 = 0x01 := by
  unfold CalculateJA4 at h
  split at h
  · cases h
  · rw [index_eq_ok clientHello 0 (by omega)] at h
    simp only [Outcome.bind_def, Outcome.bind_ok] at h
    split at h
    · cases h
    · rename_i h16
      by_cases h5 : clientHello.length = 5
      · rw [index_eq_panic clientHello 5 (by omega)] at h
        cases h
      · rw [index_eq_ok clientHello 5 (by omega)] at h
        simp only [Outcome.bind_ok] at h
        split at h
        · cases h
        · rename_i h01
          split at h
          · cases h
          · rename_i c hc
            exact ⟨c, hc, (Outcome.ok.inj h).symm, by omega, Decidable.not_not.mp h16,
              Decidable.not_not.mp h01⟩
          · cases h
          · cases h

/-- Splitting a JA4 fingerprint on the underscore gives back the ten segments and the digest,
when the lists of the components hold decimal strings. -/
theorem ja4_split (c4 : JA4Components) (digest : GoString) (hd : '_' ∉ digest)
    (h1 : ∀ s ∈ c4.CipherSuites, isDecimal s) (h2 : ∀ s ∈ c4.Extensions, isDecimal s)
    (h3 : ∀ s ∈ c4.EllipticCurves, isDecimal s)
    (h4 : ∀ s ∈ c4.EllipticCurvePointFormats, isDecimal s)
    (h5 : ∀ s ∈ c4.SignatureAlgorithms, isDecimal s)
    (h6 : ∀ s ∈ c4.RenegotiationInfo, isDecimal s)
    (h7 : ∀ s ∈ c4.UnknownExtensions, isDecimal s) :
    Split (ja4String c4 ++ ['_'] ++ digest) '_' = ja4Parts c4 ++ [digest] := by
  have e : ja4String c4 ++ ['_'] ++ digest = ['_'].intercalate (ja4Parts c4 ++ [digest]) := by
    simp [ja4String, ja4Parts, Join, List.intercalate]
  rw [e]
  unfold Split
  apply List.splitOn_intercalate
  · intro l hl
    rcases List.mem_append.mp hl with hp | hp
    · simp only [ja4Parts, List.mem_cons, List.mem_singleton, List.not_mem_nil, or_false] at hp
      have hhead : ∀ (x : Char) (s : GoString), x ≠ '_' → '_' ∉ s → '_' ∉ x :: s := by
        intro x s hx hs hm
        rcases List.mem_cons.mp hm with h | h
        · exact hx h.symm
        · exact hs h
      rcases hp with rfl | rfl | rfl | rfl | rfl | rfl | rfl | rfl | rfl | rfl
      · exact hhead _ _ (by decide) (underscore_not_decimal _ (Itoa_decimal _))
      · exact hhead _ _ (by decide) (underscore_not_decimal _ (Itoa_decimal _))
      · exact hhead _ _ (by decide) (underscore_not_decimal _ (Itoa_decimal _))
      · exact hhead _ _ (by decide) (underscore_not_in_dash_join _ h1)
      · exact hhead _ _ (by decide) (underscore_not_in_dash_join _ h2)
      · exact hhead _ _ (by decide) (underscore_not_in_dash_join _ h3)
      · exact hhead _ _ (by decide) (underscore_not_in_dash_join _ h4)
      · exact hhead _ _ (by decide) (underscore_not_in_dash_join _ h5)
      · exact hhead _ _ (by decide) (underscore_not_in_dash_join _ h6)
      · exact hhead _ _ (by decide) (underscore_not_in_dash_join _ h7)
    · rw [List.mem_singleton.mp hp]
      exact hd
  · simp [ja4Parts]

/-- On success `CalculateJA4` returns a string that splits on the underscore into the ten
segments of the components and the hex digest of their join. -/
theorem CalculateJA4_split (clientHello : List Nat) (fp : GoString)
    (h : CalculateJA4 clientHello = .ok fp) :
    ∃ c4, extractJA4Components clientHello = .ok c4 ∧
      c4.DTLSVersion = 0 ∧ c4.HandshakeVersion = 0 ∧ c4.SignatureAlgorithms = [] ∧
      c4.RenegotiationInfo = [] ∧ c4.UnknownExtensions = [] ∧
      Split fp '_' = ja4Parts c4
        ++ [hexString (md5Sum (stringBytes (Join (ja4Parts c4) ['_'])))] := by
  obtain ⟨c4, hc4, rfl, -⟩ := CalculateJA4_ok_inv clientHello fp h
  obtain ⟨c, hc, rfl⟩ := extractJA4Components_ok_inv clientHello c4 hc4
  obtain ⟨d1, d2, d3, d4⟩ := extractJA3Components_decimal clientHello c hc
  refine ⟨_, hc4, rfl, rfl, rfl, rfl, rfl, ?_⟩
  have hnil : ∀ s ∈ ([] : List GoString), isDecimal s := fun _ hx => absurd hx (List.not_mem_nil _)
  exact ja4_split _ _ (underscore_not_hex _) d1 d2 d3 d4 hnil hnil hnil

/-! ## Generated templates, and the number of cipher suites read -/

theorem Split_eq_major_cons (version : GoString) :
    ∃ rest, Split version '.' = majorComponent version :: rest := by
  unfold majorComponent
  cases h : Split version '.' with
  | nil => exact absurd h (List.splitOnP_ne_nil _ _)
  | cons a rest => exact ⟨rest, rfl⟩

/-- A template returned by `GenerateChromeTemplate` has the requested version and empty
fingerprint fields. -/
theorem GenerateChromeTemplate_fields (version : GoString) (random sessionID : Option (List Nat))
    (t : ChromeTemplate) (h : GenerateChromeTemplate version random sessionID = .ok t) :
    t.Version = version ∧ t.JA3Fingerprint = [] ∧ t.JA4Fingerprint = [] := by
  unfold GenerateChromeTemplate at h
  split at h
  · cases h
  · split at h
    · cases h
    · split at h
      · cases h
      · split at h
        · cases h
        · cases h
          exact ⟨rfl, rfl, rfl⟩

/-- The cipher-suite loop, when a byte follows the declared block, reads one suite for every
started pair of bytes of the block. -/
theorem cipherSuitesLoop_length (clientHello : List Nat) (pos cipherSuitesLen : Nat)
    (hfit : pos + cipherSuitesLen < clientHello.length) :
    ∀ (fuel i : Nat) (suites r : List GoString),
      cipherSuitesLoop clientHello pos cipherSuitesLen fuel i suites = .ok r →
      r.length = suites.length + (cipherSuitesLen + 1 - i) / 2 := by
  intro fuel
  induction fuel with
  | zero =>
    intro i suites r h
    simp [cipherSuitesLoop] at h
  | succ n ih =>
    intro i suites r h
    unfold cipherSuitesLoop at h
    split at h
    · rw [if_neg (by omega), uint16At_eq_ok clientHello (pos + i) (by omega)] at h
      simp only [Outcome.bind_def, Outcome.bind_ok] at h
      rw [ih _ _ _ h]
      simp only [List.length_append, List.length_cons, List.length_nil]
      omega
    · simp only [Outcome.ok.injEq] at h
      subst h
      omega

/-- On every buffer on which the parser succeeds it returns (L + 1) / 2 cipher suites, where
L is the declared length of the cipher-suite block read at position `pos`. -/
theorem extractJA3Components_suite_count (clientHello : List Nat) (c : JA3Components)
    (h : extractJA3Components clientHello = .ok c) :
    ∃ pos cipherSuitesLen, uint16At clientHello pos = .ok cipherSuitesLen ∧
      pos + 2 + cipherSuitesLen < clientHello.length ∧
      c.CipherSuites.length = (cipherSuitesLen + 1) / 2 := by
  obtain ⟨pos, n, suites, start, e, hread, hfit, hs, hl⟩ :=
    extractJA3Components_ok_inv clientHello c h
  refine ⟨pos, n, hread, hfit, ?_⟩
  have hk := (extensionsLoop_keeps _ _ _ _ _ _ hl).2
  have hlen := cipherSuitesLoop_length clientHello (pos + 2) n (by omega) _ _ _ _ hs
  rw [hk]
  simpa using hlen

/-! ## Cipher-suite strings and the block they are encoded to -/

theorem hexValue_some (c : Char) (v : Nat) (h : hexValue c = some v) :
    v < 16 ∧ c ≠ '\n' ∧ isSpace c = false := by
  have hn : c ≠ '\n' := by
    intro hc
    subst hc
    have hnone : hexValue '\n' = none := by decide
    rw [hnone] at h
    cases h
  unfold hexValue at h
  simp only [] at h
  refine ⟨?_, hn, ?_⟩
  · split at h
    · cases h; omega
    · split at h
      · cases h; omega
      · split at h
        · cases h; omega
        · cases h
  · have hr : (48 ≤ c.toNat ∧ c.toNat ≤ 57) ∨ (97 ≤ c.toNat ∧ c.toNat ≤ 102)
        ∨ (65 ≤ c.toNat ∧ c.toNat ≤ 70) := by
      split at h
      · left; assumption
      · split at h
        · right; left; assumption
        · split at h
          · right; right; assumption
          · cases h
    unfold isSpace
    simp only [Bool.or_eq_false_iff, Bool.and_eq_false_iff, beq_eq_false_iff_ne,
      decide_eq_false_iff_not, ne_eq]
    omega

theorem Sscanf_of_form (s : GoString) (code : Nat) (h : suiteOfForm s = some code) :
    Sscanf s = some code ∧ code < 65536 := by
  unfold suiteOfForm at h
  split at h
  · rename_i h3 h2 h1 h0
    split at h
    · rename_i v3 v2 v1 v0 e3 e2 e1 e0
      cases h
      obtain ⟨b3, n3, s3⟩ := hexValue_some _ _ e3
      obtain ⟨b2, -, -⟩ := hexValue_some _ _ e2
      obtain ⟨b1, -, -⟩ := hexValue_some _ _ e1
      obtain ⟨b0, -, -⟩ := hexValue_some _ _ e0
      refine ⟨?_, by omega⟩
      have hskip : SkipSpace [h3, h2, h1, h0] = some [h3, h2, h1, h0] := by
        simp [SkipSpace, n3, s3]
      have hlt : ((v3 * 16 + v2) * 16 + v1) * 16 + v0 < 65536 := by omega
      simp only [Sscanf, hskip, List.takeWhile, e3, e2, e1, e0, Option.isSome_some,
        List.filterMap_cons, List.filterMap_nil, List.foldl_cons, List.foldl_nil, Nat.zero_mul,
        Nat.zero_add, if_pos hlt]
      simp
      omega
    · cases h
  · cases h

theorem encodeCipherSuites_of_form :
    ∀ (suites : List GoString) (codes acc : List Nat),
      suites.map suiteOfForm = codes.map some →
      encodeCipherSuites suites acc = .ok (acc ++ codeBytes codes) := by
  intro suites
  induction suites with
  | nil =>
    intro codes acc h
    cases codes with
    | nil => simp [encodeCipherSuites, codeBytes]
    | cons c cs => simp at h
  | cons s rest ih =>
    intro codes acc h
    cases codes with
    | nil => simp at h
    | cons c cs =>
      simp only [List.map_cons, List.cons.injEq] at h
      obtain ⟨hs, -⟩ := Sscanf_of_form s c h.1
      simp only [encodeCipherSuites, hs]
      rw [ih cs _ h.2]
      simp [codeBytes, bigEndian16, Nat.shiftRight_eq_div_pow]

/-! ## Version strings -/

theorem ParseVersion_returns (version : GoString) :
    (∃ a, ParseVersion version = .ok a) ∨ ∃ m, ParseVersion version = .error m := by
  unfold ParseVersion
  split
  · split
    · exact Or.inr ⟨_, rfl⟩
    · split
      · exact Or.inr ⟨_, rfl⟩
      · split
        · exact Or.inr ⟨_, rfl⟩
        · split
          · exact Or.inr ⟨_, rfl⟩
          · exact Or.inl ⟨_, rfl⟩
  · exact Or.inr ⟨_, rfl⟩

theorem CompareVersions_of_parsed (v1 v2 : GoString) (a b : Int × Int × Int × Int)
    (h1 : ParseVersion v1 = .ok a) (h2 : ParseVersion v2 = .ok b) :
    CompareVersions v1 v2
      = .ok (if versionLt b a then 1 else if versionLt a b then -1 else 0) := by
  obtain ⟨a1, a2, a3, a4⟩ := a
  obtain ⟨b1, b2, b3, b4⟩ := b
  simp only [CompareVersions, h1, h2, versionLt]
  split_ifs <;> first | rfl | (exfalso; omega)

/-! ## Reading back decimal numbers and joined lists -/

theorem digitChar_value : ∀ d, d < 10 → (Nat.digitChar d).toNat - 48 = d := by
  decide

theorem decimalValue_foldl (l : List Char) : ∀ a : Nat,
    l.foldl (fun acc ch => acc * 10 + (ch.toNat - 48)) a
      = a * 10 ^ l.length + decimalValue l := by
  induction l with
  | nil =>
    intro a
    simp [decimalValue]
  | cons c cs ih =>
    intro a
    simp only [decimalValue, List.foldl_cons, List.length_cons]
    rw [ih (a * 10 + (c.toNat - 48)), ih (0 * 10 + (c.toNat - 48))]
    simp only [decimalValue]
    ring

theorem decimalValue_cons (c : Char) (cs : List Char) :
    decimalValue (c :: cs) = (c.toNat - 48) * 10 ^ cs.length + decimalValue cs := by
  simp only [decimalValue, List.foldl_cons]
  rw [decimalValue_foldl cs (0 * 10 + (c.toNat - 48))]
  simp [decimalValue]

theorem decimalValue_toDigitsCore :
    ∀ (fuel n : Nat) (ds : List Char), n < fuel →
      decimalValue (Nat.toDigitsCore 10 fuel n ds) = n * 10 ^ ds.length + decimalValue ds := by
  intro fuel
  induction fuel with
  | zero =>
    intro n ds h
    omega
  | succ f ih =>
    intro n ds h
    unfold Nat.toDigitsCore
    simp only []
    have hd : (Nat.digitChar (n % 10)).toNat - 48 = n % 10 :=
      digitChar_value _ (Nat.mod_lt _ (by decide))
    split
    · rename_i h0
      rw [decimalValue_cons, hd]
      have : n % 10 = n := by omega
      rw [this]
    · rename_i h0
      rw [ih (n / 10) _ (by omega), decimalValue_cons, hd, List.length_cons, pow_succ]
      have := Nat.div_add_mod n 10
      calc n / 10 * (10 ^ ds.length * 10) + (n % 10 * 10 ^ ds.length + decimalValue ds)
          = (10 * (n / 10) + n % 10) * 10 ^ ds.length + decimalValue ds := by ring
        _ = n * 10 ^ ds.length + decimalValue ds := by rw [this]

theorem decimalValue_Itoa (n : Nat) : decimalValue (Itoa n) = n := by
  unfold Itoa Nat.toDigits
  rw [decimalValue_toDigitsCore _ _ _ (by omega)]
  simp [decimalValue]

theorem toDigitsCore_ne_nil :
    ∀ (fuel n : Nat) (ds : List Char), ds ≠ [] → Nat.toDigitsCore 10 fuel n ds ≠ [] := by
  intro fuel
  induction fuel with
  | zero =>
    intro n ds h
    exact h
  | succ f ih =>
    intro n ds h
    unfold Nat.toDigitsCore
    simp only []
    split
    · exact List.cons_ne_nil _ _
    · exact ih _ _ (List.cons_ne_nil _ _)

theorem Itoa_ne_nil (n : Nat) : Itoa n ≠ [] := by
  unfold Itoa Nat.toDigits Nat.toDigitsCore
  simp only []
  split
  · exact List.cons_ne_nil _ _
  · exact toDigitsCore_ne_nil _ _ _ (List.cons_ne_nil _ _)

theorem isDigit_of_mem_decimalDigits : ∀ ch ∈ decimalDigits, ch.isDigit = true := by
  decide

theorem not_sign_of_mem_decimalDigits : ∀ ch ∈ decimalDigits, ch ≠ '-' ∧ ch ≠ '+' := by
  decide

theorem splitSign_decimal (s : GoString) (h : isDecimal s) : splitSign s = (false, s) := by
  cases s with
  | nil => rfl
  | cons c cs =>
    obtain ⟨h1, h2⟩ := not_sign_of_mem_decimalDigits c (h c (by simp))
    unfold splitSign
    split
    · rename_i heq
      exact absurd (List.cons.inj heq).1 h1
    · rename_i heq
      exact absurd (List.cons.inj heq).1 h2
    · rfl

theorem Atoi_Itoa (n : Nat) (h : n < 2 ^ 63) : Atoi (Itoa n) = some (n : Int) := by
  have hall : (Itoa n).all Char.isDigit = true := by
    rw [List.all_eq_true]
    intro ch hch
    exact isDigit_of_mem_decimalDigits ch (Itoa_decimal n ch hch)
  unfold Atoi
  simp only [splitSign_decimal _ (Itoa_decimal n), hall, Itoa_ne_nil n, false_or,
    Bool.true_eq_false, if_false, decimalValue_Itoa, intOfSigned, if_pos h]
  simp

theorem dash_not_decimal (s : GoString) (h : isDecimal s) : '-' ∉ s := by
  intro hm
  exact (not_sign_of_mem_decimalDigits '-' (h '-' hm)).1 rfl

theorem Join_ne_nil (sep : GoString) (l : List GoString) (hl : l ≠ [])
    (h : ∀ s ∈ l, s ≠ []) : Join l sep ≠ [] := by
  cases l with
  | nil => exact absurd rfl hl
  | cons a rest =>
    have ha : a ≠ [] := h a (by simp)
    cases rest with
    | nil => simpa [Join, List.intercalate] using ha
    | cons b rest2 =>
      have e : Join (a :: b :: rest2) sep = a ++ sep ++ Join (b :: rest2) sep := by
        simp [Join, List.intercalate]
      rw [e]
      simp [ha]

theorem Split_Join_dash (l : List GoString) (hl : l ≠ []) (h : decimalEntries l) :
    Split (Join l ['-']) '-' = l := by
  unfold Split Join
  exact List.splitOn_intercalate _ '-' (fun s hs => dash_not_decimal s (h s hs).2) hl

theorem isHex_of_mem_lowerHexDigits : ∀ ch ∈ lowerHexDigits,
    (('0' ≤ ch && ch ≤ '9') || ('a' ≤ ch && ch ≤ 'f') || ('A' ≤ ch && ch ≤ 'F')) = true := by
  decide

theorem isHex_hexString (bytes : List Nat) : isHex (hexString bytes) = true := by
  unfold isHex
  rw [List.all_eq_true]
  intro ch hch
  exact isHex_of_mem_lowerHexDigits ch (hexString_lower bytes ch hch)

/-! ## `ParseJA4` on the segments that `CalculateJA4` writes -/

theorem parseJA4Part_t (components : ParsedJA4Components) (n : Nat) (hn : n < 2 ^ 63) :
    parseJA4Part components ('t' :: Itoa n) = { components with TLSVersion := (n : Int) } := by
  obtain ⟨v, vs, hv⟩ := List.exists_cons_of_ne_nil (Itoa_ne_nil n)
  have ha := Atoi_Itoa n hn
  rw [hv] at ha ⊢
  simp only [parseJA4Part, ha]
  rfl

theorem parseJA4Part_d (components : ParsedJA4Components) (n : Nat) (hn : n < 2 ^ 63) :
    parseJA4Part components ('d' :: Itoa n) = { components with DTLSVersion := (n : Int) } := by
  obtain ⟨v, vs, hv⟩ := List.exists_cons_of_ne_nil (Itoa_ne_nil n)
  have ha := Atoi_Itoa n hn
  rw [hv] at ha ⊢
  simp only [parseJA4Part, ha]
  rfl

theorem parseJA4Part_h (components : ParsedJA4Components) (n : Nat) (hn : n < 2 ^ 63) :
    parseJA4Part components ('h' :: Itoa n) = { components with HandshakeVersion := (n : Int) } := by
  obtain ⟨v, vs, hv⟩ := List.exists_cons_of_ne_nil (Itoa_ne_nil n)
  have ha := Atoi_Itoa n hn
  rw [hv] at ha ⊢
  simp only [parseJA4Part, ha]
  rfl

theorem parseJA4Part_c (components : ParsedJA4Components) (l : List GoString)
    (hempty : components.CipherSuites = []) (hl : decimalEntries l) :
    parseJA4Part components ('c' :: Join l ['-']) = { components with CipherSuites := l } := by
  by_cases hnil : l = []
  · subst hnil
    cases components
    simp only at hempty
    subst hempty
    rfl
  · obtain ⟨v, vs, hv⟩ := List.exists_cons_of_ne_nil
      (Join_ne_nil ['-'] l hnil (fun s hs => (hl s hs).1))
    have hsplit := Split_Join_dash l hnil hl
    rw [hv] at hsplit ⊢
    simp only [parseJA4Part, hsplit]
    rfl

theorem parseJA4Part_e (components : ParsedJA4Components) (l : List GoString)
    (hempty : components.Extensions = []) (hl : decimalEntries l) :
    parseJA4Part components ('e' :: Join l ['-']) = { components with Extensions := l } := by
  by_cases hnil : l = []
  · subst hnil
    cases components
    simp only at hempty
    subst hempty
    rfl
  · obtain ⟨v, vs, hv⟩ := List.exists_cons_of_ne_nil
      (Join_ne_nil ['-'] l hnil (fun s hs => (hl s hs).1))
    have hsplit := Split_Join_dash l hnil hl
    rw [hv] at hsplit ⊢
    simp only [parseJA4Part, hsplit]
    rfl

theorem parseJA4Part_g (components : ParsedJA4Components) (l : List GoString)
    (hempty : components.EllipticCurves = []) (hl : decimalEntries l) :
    parseJA4Part components ('g' :: Join l ['-']) = { components with EllipticCurves := l } := by
  by_cases hnil : l = []
  · subst hnil
    cases components
    simp only at hempty
    subst hempty
    rfl
  · obtain ⟨v, vs, hv⟩ := List.exists_cons_of_ne_nil
      (Join_ne_nil ['-'] l hnil (fun s hs => (hl s hs).1))
    have hsplit := Split_Join_dash l hnil hl
    rw [hv] at hsplit ⊢
    simp only [parseJA4Part, hsplit]
    rfl

theorem parseJA4Part_p (components : ParsedJA4Components) (l : List GoString)
    (hempty : components.EllipticCurvePointFormats = []) (hl : decimalEntries l) :
    parseJA4Part components ('p' :: Join l ['-']) = { components with EllipticCurvePointFormats := l } := by
  by_cases hnil : l = []
  · subst hnil
    cases components
    simp only at hempty
    subst hempty
    rfl
  · obtain ⟨v, vs, hv⟩ := List.exists_cons_of_ne_nil
      (Join_ne_nil ['-'] l hnil (fun s hs => (hl s hs).1))
    have hsplit := Split_Join_dash l hnil hl
    rw [hv] at hsplit ⊢
    simp only [parseJA4Part, hsplit]
    rfl

theorem parseJA4Part_a (components : ParsedJA4Components) (l : List GoString)
    (hempty : components.SignatureAlgorithms = []) (hl : decimalEntries l) :
    parseJA4Part components ('a' :: Join l ['-']) = { components with SignatureAlgorithms := l } := by
  by_cases hnil : l = []
  · subst hnil
    cases components
    simp only at hempty
    subst hempty
    rfl
  · obtain ⟨v, vs, hv⟩ := List.exists_cons_of_ne_nil
      (Join_ne_nil ['-'] l hnil (fun s hs => (hl s hs).1))
    have hsplit := Split_Join_dash l hnil hl
    rw [hv] at hsplit ⊢
    simp only [parseJA4Part, hsplit]
    rfl

theorem parseJA4Part_r (components : ParsedJA4Components) (l : List GoString)
    (hempty : components.RenegotiationInfo = []) (hl : decimalEntries l) :
    parseJA4Part components ('r' :: Join l ['-']) = { components with RenegotiationInfo := l } := by
  by_cases hnil : l = []
  · subst hnil
    cases components
    simp only at hempty
    subst hempty
    rfl
  · obtain ⟨v, vs, hv⟩ := List.exists_cons_of_ne_nil
      (Join_ne_nil ['-'] l hnil (fun s hs => (hl s hs).1))
    have hsplit := Split_Join_dash l hnil hl
    rw [hv] at hsplit ⊢
    simp only [parseJA4Part, hsplit]
    rfl

theorem parseJA4Part_u (components : ParsedJA4Components) (l : List GoString)
    (hempty : components.UnknownExtensions = []) (hl : decimalEntries l) :
    parseJA4Part components ('u' :: Join l ['-']) = { components with UnknownExtensions := l } := by
  by_cases hnil : l = []
  · subst hnil
    cases components
    simp only at hempty
    subst hempty
    rfl
  · obtain ⟨v, vs, hv⟩ := List.exists_cons_of_ne_nil
      (Join_ne_nil ['-'] l hnil (fun s hs => (hl s hs).1))
    have hsplit := Split_Join_dash l hnil hl
    rw [hv] at hsplit ⊢
    simp only [parseJA4Part, hsplit]
    rfl

theorem Split_ja4Fingerprint (c : JA4Components) (hc : c.wellFormed) :
    Split (ja4Fingerprint c) '_'
      = ja4Parts c ++ [hexString (md5Sum (stringBytes (ja4String c)))] := by
  obtain ⟨-, -, -, h1, h2, h3, h4, h5, h6, h7⟩ := hc
  exact ja4_split c _ (underscore_not_hex _) (fun s hs => (h1 s hs).2) (fun s hs => (h2 s hs).2)
    (fun s hs => (h3 s hs).2) (fun s hs => (h4 s hs).2) (fun s hs => (h5 s hs).2)
    (fun s hs => (h6 s hs).2) (fun s hs => (h7 s hs).2)

theorem foldl_parseJA4Part_ja4Parts (c : JA4Components) (hc : c.wellFormed) :
    (ja4Parts c).foldl parseJA4Part {} = c.toParsed := by
  obtain ⟨n1, n2, n3, h1, h2, h3, h4, h5, h6, h7⟩ := hc
  simp only [ja4Parts, List.foldl_cons, List.foldl_nil]
  rw [parseJA4Part_t _ _ n1, parseJA4Part_d _ _ n2, parseJA4Part_h _ _ n3,
    parseJA4Part_c _ _ rfl h1, parseJA4Part_e _ _ rfl h2, parseJA4Part_g _ _ rfl h3,
    parseJA4Part_p _ _ rfl h4, parseJA4Part_a _ _ rfl h5, parseJA4Part_r _ _ rfl h6,
    parseJA4Part_u _ _ rfl h7]
  rfl

/-! ## The parser reads the offsets 0, 5, 9, 10 and those from 43 on -/

theorem index_congr (a b : List Nat) (i : Nat) (h : a[i]? = b[i]?) : index a i = index b i := by
  unfold index
  rw [h]

theorem uint16At_congr (a b : List Nat) (pos : Nat) (h0 : a[pos]? = b[pos]?)
    (h1 : a[pos + 1]? = b[pos + 1]?) : uint16At a pos = uint16At b pos := by
  unfold uint16At
  rw [h0, h1]

theorem cipherSuitesLoop_congr (a b : List Nat) (hlen : a.length = b.length)
    (h : ∀ i, 43 ≤ i → a[i]? = b[i]?) (pos cipherSuitesLen : Nat) (hpos : 43 ≤ pos) :
    ∀ (fuel i : Nat) (suites : List GoString),
      cipherSuitesLoop a pos cipherSuitesLen fuel i suites
        = cipherSuitesLoop b pos cipherSuitesLen fuel i suites := by
  intro fuel
  induction fuel with
  | zero => intro i suites; rfl
  | succ n ih =>
    intro i suites
    simp only [cipherSuitesLoop, hlen,
      uint16At_congr a b (pos + i) (h _ (by omega)) (h _ (by omega)), ih]

theorem groupsLoop_congr (a b : List Nat) (hlen : a.length = b.length)
    (h : ∀ i, 43 ≤ i → a[i]? = b[i]?) (pos extLen groupsLen : Nat) (hpos : 43 ≤ pos) :
    ∀ (fuel i : Nat) (curves : List GoString),
      groupsLoop a pos extLen groupsLen fuel i curves
        = groupsLoop b pos extLen groupsLen fuel i curves := by
  intro fuel
  induction fuel with
  | zero => intro i curves; rfl
  | succ n ih =>
    intro i curves
    simp only [groupsLoop, hlen,
      uint16At_congr a b (pos + i) (h _ (by omega)) (h _ (by omega)), ih]

theorem formatsLoop_congr (a b : List Nat) (hlen : a.length = b.length)
    (h : ∀ i, 43 ≤ i → a[i]? = b[i]?) (pos extLen formatsLen : Nat) (hpos : 43 ≤ pos) :
    ∀ (fuel i : Nat) (formats : List GoString),
      formatsLoop a pos extLen formatsLen fuel i formats
        = formatsLoop b pos extLen formatsLen fuel i formats := by
  intro fuel
  induction fuel with
  | zero => intro i formats; rfl
  | succ n ih =>
    intro i formats
    simp only [formatsLoop, hlen, index_congr a b (pos + i) (h _ (by omega)), ih]

theorem extensionsLoop_congr (a b : List Nat) (hlen : a.length = b.length)
    (h : ∀ i, 43 ≤ i → a[i]? = b[i]?) (extensionsEnd : Nat) :
    ∀ (fuel pos : Nat) (components : JA3Components), 43 ≤ pos →
      extensionsLoop a extensionsEnd fuel pos components
        = extensionsLoop b extensionsEnd fuel pos components := by
  intro fuel
  induction fuel with
  | zero => intro pos components _; rfl
  | succ n ih =>
    intro pos components hpos
    have e0 := uint16At_congr a b pos (h _ (by omega)) (h _ (by omega))
    have e2 := uint16At_congr a b (pos + 2) (h _ (by omega)) (h _ (by omega))
    have e4 := uint16At_congr a b (pos + 4) (h _ (by omega)) (h _ (by omega))
    have i4 := index_congr a b (pos + 4) (h _ (by omega))
    have hg : ∀ (extLen groupsLen fuel i : Nat) (curves : List GoString),
        groupsLoop a (pos + 4 + 2) extLen groupsLen fuel i curves
          = groupsLoop b (pos + 4 + 2) extLen groupsLen fuel i curves :=
      fun extLen groupsLen => groupsLoop_congr a b hlen h _ extLen groupsLen (by omega)
    have hf : ∀ (extLen formatsLen fuel i : Nat) (formats : List GoString),
        formatsLoop a (pos + 4 + 1) extLen formatsLen fuel i formats
          = formatsLoop b (pos + 4 + 1) extLen formatsLen fuel i formats :=
      fun extLen formatsLen => formatsLoop_congr a b hlen h _ extLen formatsLen (by omega)
    have hn : ∀ (k : Nat) (c : JA3Components),
        extensionsLoop a extensionsEnd n (pos + 4 + k) c
          = extensionsLoop b extensionsEnd n (pos + 4 + k) c :=
      fun k c => ih _ c (by omega)
    have hn2 : ∀ (k : Nat) (c : JA3Components),
        extensionsLoop a extensionsEnd n (pos + 4 + 2 + k) c
          = extensionsLoop b extensionsEnd n (pos + 4 + 2 + k) c :=
      fun k c => ih _ c (by omega)
    have hn1 : ∀ (k : Nat) (c : JA3Components),
        extensionsLoop a extensionsEnd n (pos + 4 + 1 + k) c
          = extensionsLoop b extensionsEnd n (pos + 4 + 1 + k) c :=
      fun k c => ih _ c (by omega)
    simp only [extensionsLoop, hlen, e0, e2, e4, i4, hg, hf, hn, hn1, hn2]

theorem extractJA3Components_congr (a b : List Nat) (hlen : a.length = b.length)
    (h9 : a[9]? = b[9]?) (h10 : a[10]? = b[10]?) (h : ∀ i, 43 ≤ i → a[i]? = b[i]?) :
    extractJA3Components a = extractJA3Components b := by
  have e9 := uint16At_congr a b 9 h9 h10
  have i43 := index_congr a b (9 + 2 + 32) (h _ (by omega))
  have eu : ∀ k, uint16At a (9 + 2 + 32 + 1 + k) = uint16At b (9 + 2 + 32 + 1 + k) :=
    fun k => uint16At_congr a b _ (h _ (by omega)) (h _ (by omega))
  have ei : ∀ k, index a (9 + 2 + 32 + 1 + k) = index b (9 + 2 + 32 + 1 + k) :=
    fun k => index_congr a b _ (h _ (by omega))
  have hc : ∀ (k L fuel i : Nat) (suites : List GoString),
      cipherSuitesLoop a (9 + 2 + 32 + 1 + k) L fuel i suites
        = cipherSuitesLoop b (9 + 2 + 32 + 1 + k) L fuel i suites :=
    fun k L => cipherSuitesLoop_congr a b hlen h _ L (by omega)
  have he : ∀ (k e fuel : Nat) (c : JA3Components),
      extensionsLoop a e fuel (9 + 2 + 32 + 1 + k) c
        = extensionsLoop b e fuel (9 + 2 + 32 + 1 + k) c :=
    fun k e fuel c => extensionsLoop_congr a b hlen h e fuel _ c (by omega)
  simp only [extractJA3Components, hlen, e9, i43, Nat.add_assoc] at eu ei hc he ⊢
  simp only [eu, ei, hc, he]

theorem sameOutsideRandom_getElem? (a b : List Nat) (hs : sameOutsideRandom a b) (i : Nat)
    (hi : i < 11 ∨ 42 < i) : a[i]? = b[i]? := by
  by_cases hlt : i < a.length
  · exact hs.2 i hlt hi
  · rw [List.getElem?_eq_none (by omega), List.getElem?_eq_none (by have := hs.1; omega)]

/-! ## `ParseJA3` on the canonical JA3 string -/

theorem comma_not_decimal (s : GoString) (h : isDecimal s) : ',' ∉ s := by
  intro hm
  have hd : ∀ ch ∈ decimalDigits, ch ≠ ',' := by decide
  exact hd ',' (h ',' hm) rfl

theorem Split_comma_decimal (s : GoString) (h : isDecimal s) : Split s ',' = [s] := by
  have e := List.splitOn_intercalate [s] ',' (fun l hl => by
    rw [List.mem_singleton] at hl
    subst hl
    exact comma_not_decimal l h) (by simp)
  simpa [Split, List.intercalate] using e

theorem Join_cons_cons (sep a b : GoString) (rest : List GoString) :
    Join (a :: b :: rest) sep = a ++ sep ++ Join (b :: rest) sep := by
  simp [Join, List.intercalate]

theorem Join_append (sep : GoString) (l1 l2 : List GoString) (h1 : l1 ≠ []) (h2 : l2 ≠ []) :
    Join (l1 ++ l2) sep = Join l1 sep ++ sep ++ Join l2 sep := by
  induction l1 with
  | nil => exact absurd rfl h1
  | cons a rest ih =>
    cases rest with
    | nil =>
      obtain ⟨b, t, rfl⟩ := List.exists_cons_of_ne_nil h2
      rw [List.singleton_append, Join_cons_cons]
      simp [Join, List.intercalate]
    | cons b t =>
      rw [List.cons_append, List.cons_append, Join_cons_cons, ← List.cons_append,
        ih (by simp), Join_cons_cons]
      simp

theorem ja3Fields_ne_nil (l : List GoString) : ja3Fields l ≠ [] := by
  unfold ja3Fields
  split
  · simp
  · assumption

theorem Join_ja3Fields (sep : GoString) (l : List GoString) :
    Join (ja3Fields l) sep = Join l sep := by
  unfold ja3Fields
  split
  · next h => subst h; simp [Join, List.intercalate]
  · rfl

theorem ja3String_eq_join (c : JA3Components) :
    ja3String c = Join (Itoa c.TLSVersion :: (ja3Fields c.CipherSuites ++ (ja3Fields c.Extensions
      ++ (ja3Fields c.EllipticCurves ++ ja3Fields c.EllipticCurvePointFormats)))) [','] := by
  obtain ⟨x, t, hx⟩ := List.exists_cons_of_ne_nil
    (List.append_ne_nil_of_left_ne_nil (ja3Fields_ne_nil c.CipherSuites)
      (ja3Fields c.Extensions ++ (ja3Fields c.EllipticCurves
        ++ ja3Fields c.EllipticCurvePointFormats)))
  have e : Join (Itoa c.TLSVersion :: (ja3Fields c.CipherSuites ++ (ja3Fields c.Extensions
      ++ (ja3Fields c.EllipticCurves ++ ja3Fields c.EllipticCurvePointFormats)))) [',']
      = Itoa c.TLSVersion ++ [','] ++ Join (ja3Fields c.CipherSuites ++ (ja3Fields c.Extensions
      ++ (ja3Fields c.EllipticCurves ++ ja3Fields c.EllipticCurvePointFormats))) [','] := by
    rw [hx, Join_cons_cons]
  rw [e, Join_append _ _ _ (ja3Fields_ne_nil _) (List.append_ne_nil_of_left_ne_nil
      (ja3Fields_ne_nil _) _),
    Join_append _ _ _ (ja3Fields_ne_nil _) (List.append_ne_nil_of_left_ne_nil
      (ja3Fields_ne_nil _) _),
    Join_append _ _ _ (ja3Fields_ne_nil _) (ja3Fields_ne_nil _)]
  simp only [Join_ja3Fields]
  simp [ja3String, Join, List.intercalate]

theorem comma_not_in_ja3Fields (l : List GoString) (h : decimalEntries l) :
    ∀ s ∈ ja3Fields l, ',' ∉ s := by
  intro s hs
  unfold ja3Fields at hs
  split at hs
  · rw [List.mem_singleton] at hs
    subst hs
    simp
  · exact comma_not_decimal s (h s hs).2

theorem Split_ja3String (c : JA3Components) (hc : c.wellFormed) :
    Split (ja3String c) ','
      = Itoa c.TLSVersion :: (ja3Fields c.CipherSuites ++ (ja3Fields c.Extensions
        ++ (ja3Fields c.EllipticCurves ++ ja3Fields c.EllipticCurvePointFormats))) := by
  obtain ⟨-, h1, h2, h3, h4⟩ := hc
  rw [ja3String_eq_join]
  unfold Split Join
  refine List.splitOn_intercalate _ ',' ?_ (by simp)
  intro s hs
  rw [List.mem_cons, List.mem_append, List.mem_append, List.mem_append] at hs
  rcases hs with rfl | hs | hs | hs | hs
  · exact comma_not_decimal _ (Itoa_decimal _)
  · exact comma_not_in_ja3Fields _ h1 s hs
  · exact comma_not_in_ja3Fields _ h2 s hs
  · exact comma_not_in_ja3Fields _ h3 s hs
  · exact comma_not_in_ja3Fields _ h4 s hs

theorem ParseJA3_of_parts (ja3 p0 p1 p2 p3 p4 : GoString) (rest : List GoString) (v : Int)
    (hsplit : Split ja3 ',' = p0 :: p1 :: p2 :: p3 :: p4 :: rest) (hv : Atoi p0 = some v) :
    ParseJA3 ja3 = .ok
      { TLSVersion := v, CipherSuites := ja3PartList p1, Extensions := ja3PartList p2,
        EllipticCurves := ja3PartList p3, EllipticCurvePointFormats := ja3PartList p4 } := by
  unfold ParseJA3
  simp only [hsplit, hv, ja3PartList]
  by_cases h1 : p1 = [] <;> by_cases h2 : p2 = [] <;> by_cases h3 : p3 = [] <;>
    by_cases h4 : p4 = [] <;> simp [h1, h2, h3, h4]

theorem ja3PartList_decimal (s : GoString) (h : s ≠ [] ∧ isDecimal s) : ja3PartList s = [s] := by
  unfold ja3PartList
  rw [if_pos h.1, Split_comma_decimal s h.2]

theorem ja3Fields_length_pos (l : List GoString) : 1 ≤ (ja3Fields l).length := by
  have := ja3Fields_ne_nil l
  cases h : ja3Fields l with
  | nil => exact absurd h this
  | cons a t => simp

theorem exists_four_cons (l : List GoString) (h : 4 ≤ l.length) :
    ∃ a b c d t, l = a :: b :: c :: d :: t := by
  match l, h with
  | a :: b :: c :: d :: t, _ => exact ⟨a, b, c, d, t, rfl⟩

theorem ParseJA3_ja3String (c : JA3Components) (hc : c.wellFormed) (fields : List GoString)
    (hf : fields = ja3Fields c.CipherSuites ++ (ja3Fields c.Extensions
      ++ (ja3Fields c.EllipticCurves ++ ja3Fields c.EllipticCurvePointFormats))) :
    ParseJA3 (ja3String c) = .ok
      { TLSVersion := c.TLSVersion, CipherSuites := ja3PartList (fields.getD 0 []),
        Extensions := ja3PartList (fields.getD 1 []),
        EllipticCurves := ja3PartList (fields.getD 2 []),
        EllipticCurvePointFormats := ja3PartList (fields.getD 3 []) } := by
  have hlen : 4 ≤ fields.length := by
    have h1 := ja3Fields_length_pos c.CipherSuites
    have h2 := ja3Fields_length_pos c.Extensions
    have h3 := ja3Fields_length_pos c.EllipticCurves
    have h4 := ja3Fields_length_pos c.EllipticCurvePointFormats
    rw [hf]
    simp only [List.length_append]
    omega
  obtain ⟨p1, p2, p3, p4, rest, hfields⟩ := exists_four_cons fields hlen
  have hsplit := Split_ja3String c hc
  rw [← hf, hfields] at hsplit
  rw [ParseJA3_of_parts _ _ _ _ _ _ _ _ hsplit (Atoi_Itoa _ hc.1), hfields]
  rfl

theorem ja3PartList_head (l : List GoString) (h : decimalEntries l) (tail : List GoString) :
    ja3PartList ((ja3Fields l ++ tail).getD 0 []) = l.take 1 := by
  cases l with
  | nil => rfl
  | cons x t =>
    have e : ja3Fields (x :: t) = x :: t := by simp [ja3Fields]
    rw [e, List.cons_append, List.getD_cons_zero, ja3PartList_decimal x (h x (by simp))]
    rfl

theorem ja3Fields_short (l : List GoString) (h : l.length ≤ 1) : ∃ f, ja3Fields l = [f] := by
  match l, h with
  | [], _ => exact ⟨[], rfl⟩
  | [x], _ => exact ⟨x, by simp [ja3Fields]⟩

/-! ## Claims -/

/-- C1 (the code at a failing input): for the template with a 32-byte zero random, an empty
session id, the cipher suites 0x1301 and 0xc02f and the extensions supported_groups and
ec_point_formats, the builder returns bytes and the parser, run on them, returns no cipher
suite and the single extension type 14, not the lists of the template. -/
theorem roundTrip_loses_template_fields :
    ∃ out, GenerateClientHello roundTripTemplate = .ok out ∧
      extractJA3Components out = .ok
        { TLSVersion := 15107, CipherSuites := [], Extensions := ["14".toList],
          EllipticCurves := [], EllipticCurvePointFormats := [] } := by
  refine ⟨_, rfl, ?_⟩
  decide

/-- C2 (the code at a failing input): two templates that differ only in the last byte of
their 32-byte random build to buffers on which `CalculateJA3` and `CalculateJA4` return an
error for one and a fingerprint for the other. -/
theorem fingerprint_depends_on_random :
    (DecodeString zeros32).map List.length = some 32 ∧
    (DecodeString zeros31then33).map List.length = some 32 ∧
    ∃ outA outB, GenerateClientHello (scenarioTemplate zeros32 zeros32) = .ok outA ∧
      GenerateClientHello (scenarioTemplate zeros31then33 zeros32) = .ok outB ∧
      CalculateJA3 outA
        = .error "failed to extract components: insufficient data for cipher suites" ∧
      (CalculateJA3 outB).isOk = true ∧
      CalculateJA4 outA
        = .error "failed to extract components: insufficient data for cipher suites" ∧
      (CalculateJA4 outB).isOk = true := by
  refine ⟨by decide, by decide, _, _, rfl, rfl, ?_, ?_, ?_, ?_⟩ <;> decide

/-- C3 (the code at a failing input): with a zero 32-byte random and a zero 32-byte session
id the scenario template builds to a buffer with the stated header bytes, and the parser
returns an error on that buffer instead of the five cipher suites. -/
theorem scenario_parse_fails :
    ∃ out, GenerateClientHello (scenarioTemplate zeros32 zeros32) = .ok out ∧
      out[0]? = some 0x16 ∧ out[1]? = some 0x03 ∧ out[2]? = some 0x03 ∧ out[5]? = some 0x01 ∧
      extractJA3Components out = .error "insufficient data for cipher suites" := by
  refine ⟨_, rfl, ?_, ?_, ?_, ?_, ?_⟩ <;> decide

/-- C4 (the code at a failing input): on the 5-byte buffer 16 03 03 00 00 the length check
passes and the read of byte 5 is out of range, so `CalculateJA3` and `CalculateJA4` panic. -/
theorem five_byte_record_panics :
    CalculateJA3 [0x16, 0x03, 0x03, 0x00, 0x00] = .panic ∧
      CalculateJA4 [0x16, 0x03, 0x03, 0x00, 0x00] = .panic := by
  decide

/-- C5 (counterexample): a record that passes the header checks and whose only extension
declares 100 payload bytes while 2 remain is parsed without error, and both fingerprints are
computed from the fields gathered so far. -/
theorem truncated_extension_accepted :
    extractJA3Components truncatedHello = .ok
        { TLSVersion := 771, CipherSuites := ["4865".toList, "49199".toList],
          Extensions := ["23".toList], EllipticCurves := [],
          EllipticCurvePointFormats := [] } ∧
      (CalculateJA3 truncatedHello).isOk = true ∧ (CalculateJA4 truncatedHello).isOk = true := by
  decide

/-- C5 (amended): when the fields that come before the extensions are laid out per the wire
grammar, the parser returns a result and no error whatever bytes follow the 2-byte length of
the extensions block, also when that length or an extension's declared length exceeds the
bytes that remain; the result carries the version and the cipher suites of the record, and
`CalculateJA3` and `CalculateJA4` return a fingerprint. -/
theorem extractJA3Components_ok_past_head (w : WireHead) (hw : w.valid) (extensionsLen : Nat)
    (he : extensionsLen < 65536) (tail : List Nat) :
    (∃ c, extractJA3Components (w.bytes extensionsLen ++ tail) = .ok c ∧
      c.TLSVersion = w.version ∧ c.CipherSuites = w.suites.map Itoa) ∧
    (CalculateJA3 (w.bytes extensionsLen ++ tail)).isOk = true ∧
    (CalculateJA4 (w.bytes extensionsLen ++ tail)).isOk = true := by
  have hx : ∃ c, extractJA3Components (w.bytes extensionsLen ++ tail) = .ok c ∧
      c.TLSVersion = w.version ∧ c.CipherSuites = w.suites.map Itoa := by
    rw [extractJA3Components_wireHead w hw extensionsLen he tail]
    obtain ⟨c, hc⟩ := extensionsLoop_returns (w.bytes extensionsLen ++ tail)
      ((w.bytes extensionsLen).length + extensionsLen)
      ((w.bytes extensionsLen ++ tail).length + 1) (w.bytes extensionsLen).length
      { TLSVersion := w.version, CipherSuites := w.suites.map Itoa } (by omega) (by omega)
    exact ⟨c, hc, extensionsLoop_keeps _ _ _ _ _ _ hc⟩
  obtain ⟨c, hc, hv, hs⟩ := hx
  have hlen : 5 ≤ (w.bytes extensionsLen ++ tail).length := by
    rw [List.length_append, w.bytes_length]
    omega
  obtain ⟨h0, h5⟩ := WireHead.header_reads w extensionsLen tail
  refine ⟨⟨c, hc, hv, hs⟩, ?_, CalculateJA4_eq_ok _ c hlen h0 h5 hc⟩
  rw [CalculateJA3_eq_ok _ c hlen h0 h5 hc]
  rfl

/-- C5 (witness): the amended statement at a record whose only extension declares 100
payload bytes while 2 remain. -/
theorem extractJA3Components_ok_past_head_witness :
    sampleHead.valid ∧ (6 : Nat) < 65536 ∧
      (∃ c, extractJA3Components (sampleHead.bytes 6 ++ [0, 23, 0, 100, 1, 2]) = .ok c ∧
        c.TLSVersion = sampleHead.version ∧ c.CipherSuites = sampleHead.suites.map Itoa) ∧
      (CalculateJA3 (sampleHead.bytes 6 ++ [0, 23, 0, 100, 1, 2])).isOk = true ∧
      (CalculateJA4 (sampleHead.bytes 6 ++ [0, 23, 0, 100, 1, 2])).isOk = true :=
  ⟨by decide, by decide,
    extractJA3Components_ok_past_head sampleHead (by decide) 6 (by decide) [0, 23, 0, 100, 1, 2]⟩

/-- C6 (the code at a failing input): on a well-formed record with a supported_groups
extension followed by an extension of type 23, the parser lists the type 10 only. -/
theorem extension_after_groups_is_lost :
    extractJA3Components groupsThenOther = .ok
      { TLSVersion := 771, CipherSuites := ["4865".toList, "49199".toList],
        Extensions := ["10".toList], EllipticCurves := ["29".toList],
        EllipticCurvePointFormats := [] } := by
  decide

/-- C7 (the code at a failing input): the scenario template builds to 93 bytes in which the
handshake type at offset 5 is followed by the four length bytes 00 00 00 53; byte 9 is the
last length byte and the client version 03 03 stands at offsets 10-11. -/
theorem handshake_length_has_four_bytes :
    ∃ out, GenerateClientHello (scenarioTemplate zeros32 zeros32) = .ok out ∧
      out.length = 93 ∧ out[5]? = some 0x01 ∧ out[6]? = some 0 ∧ out[7]? = some 0 ∧
      out[8]? = some 0 ∧ out[9]? = some 83 ∧ out[10]? = some 0x03 ∧ out[11]? = some 0x03 := by
  refine ⟨_, rfl, ?_, ?_, ?_, ?_, ?_, ?_, ?_, ?_⟩ <;> decide

/-- C8 (the code at a failing input): the scenario template with a 33-ending random builds to
93 bytes, so 88 bytes follow the record header, and the record length at offsets 3-4 is 83. -/
theorem record_length_is_body_length :
    ∃ out, GenerateClientHello (scenarioTemplate zeros31then33 zeros32) = .ok out ∧
      out.length = 93 ∧ out[3]? = some 0 ∧ out[4]? = some 83 := by
  refine ⟨_, rfl, ?_, ?_, ?_⟩ <;> decide

/-- C9: on every template on which `GenerateClientHello` succeeds the output has byte 0
equal to 0x16, bytes 1-2 equal to 0x03 0x03 and byte 5 equal to 0x01, and when the random of
the template decodes to 32 bytes the output is at least 50 bytes long. -/
theorem GenerateClientHello_fixed_header (t : ChromeTemplate) (out : List Nat)
    (h : GenerateClientHello t = .ok out) :
    out[0]? = some 0x16 ∧ out[1]? = some 0x03 ∧ out[2]? = some 0x03 ∧ out[5]? = some 0x01 ∧
      ∀ random, DecodeString t.ClientHello.Random = some random → random.length = 32 →
        50 ≤ out.length := by
  unfold GenerateClientHello at h
  split at h
  · simp at h
  · rename_i random hr
    split at h
    · simp at h
    · split at h
      · simp at h
      · simp at h
      · simp at h
      · split at h
        · simp at h
        · simp at h
        · simp at h
        · simp only [Outcome.ok.injEq] at h
          subst h
          refine ⟨by simp, by simp, by simp, by simp, ?_⟩
          intro r hr2 hl
          rw [hr] at hr2
          cases hr2
          simp only [List.length_append, List.length_cons, List.length_nil, List.length_map]
          omega

/-- C9 (witness): the statement at the scenario template with zero random and session id. -/
theorem GenerateClientHello_fixed_header_witness :
    ∃ out, GenerateClientHello (scenarioTemplate zeros32 zeros32) = .ok out ∧
      out[0]? = some 0x16 ∧ out[1]? = some 0x03 ∧ out[2]? = some 0x03 ∧ out[5]? = some 0x01 ∧
      50 ≤ out.length :=
  have h := GenerateClientHello_fixed_header (scenarioTemplate zeros32 zeros32) _ rfl
  ⟨_, rfl, h.1, h.2.1, h.2.2.1, h.2.2.2.1,
    h.2.2.2.2 (List.replicate 32 0) (by decide) (by decide)⟩

/-- C10 (counterexample): for a template with 32768 cipher suites `GenerateClientHello`
returns bytes and no error. -/
theorem overflow_is_not_rejected :
    32767 < overflowTemplate.ClientHello.CipherSuites.length ∧
      (GenerateClientHello overflowTemplate).isOk = true := by
  refine ⟨?_, ?_⟩
  · show 32767 < (List.replicate 32768 "0x1301".toList).length
    rw [List.length_replicate]
    decide
  · exact GenerateClientHello_returns_bytes overflowTemplate
      (List.replicate 32 0) (List.replicate 32 0) (by decide) (by decide)
      (by
        intro s hs
        have e : s = "0x1301".toList := List.eq_of_mem_replicate hs
        subst e
        decide)
      (fun e he => absurd he (List.not_mem_nil e))

/-- C10 (amended): `GenerateClientHello` checks no length. Whenever the random, the session
id and the extension data of a template are valid base64 and its cipher-suite strings scan,
it returns bytes, however many cipher suites there are (also more than 32767) and however
long the extensions block is (also more than 65535 bytes), and the output holds two bytes
for every cipher suite and four header bytes for every extension. -/
theorem GenerateClientHello_checks_no_length (t : ChromeTemplate) (random sessionID : List Nat)
    (hr : DecodeString t.ClientHello.Random = some random)
    (hs : DecodeString t.ClientHello.SessionID = some sessionID)
    (hc : ∀ s ∈ t.ClientHello.CipherSuites, (Sscanf s).isSome = true)
    (he : ∀ e ∈ t.ClientHello.Extensions, (DecodeString e.Data).isSome = true) :
    ∃ out, GenerateClientHello t = .ok out ∧
      18 + random.length + sessionID.length + 2 * t.ClientHello.CipherSuites.length
        + t.ClientHello.CompressionMethods.length + 4 * t.ClientHello.Extensions.length
        ≤ out.length := by
  obtain ⟨cs, hcs, hcl⟩ := encodeCipherSuites_ok t.ClientHello.CipherSuites [] hc
  obtain ⟨ex, hex, hel⟩ := encodeExtensions_ok t.ClientHello.Extensions [] he
  simp only [GenerateClientHello, hr, hs, hcs, hex]
  refine ⟨_, rfl, ?_⟩
  simp only [List.length_append, List.length_cons, List.length_nil, List.length_map] at hcl hel ⊢
  omega

/-- C10 (witness): the amended statement at the round-trip template. -/
theorem GenerateClientHello_checks_no_length_witness :
    ∃ out, GenerateClientHello roundTripTemplate = .ok out ∧
      18 + (List.replicate 32 0).length + ([] : List Nat).length
        + 2 * roundTripTemplate.ClientHello.CipherSuites.length
        + roundTripTemplate.ClientHello.CompressionMethods.length
        + 4 * roundTripTemplate.ClientHello.Extensions.length ≤ out.length :=
  GenerateClientHello_checks_no_length roundTripTemplate (List.replicate 32 0) []
    (by decide) (by decide) (by decide) (by decide)

set_option maxRecDepth 1000000

/-- C11 (counterexample): for a template whose session id decodes to 256 bytes
`GenerateClientHello` returns bytes and no error. -/
theorem long_session_id_is_not_rejected :
    (DecodeString longSessionTemplate.ClientHello.SessionID).map List.length = some 256 ∧
      (GenerateClientHello longSessionTemplate).isOk = true := by
  decide

/-- C11 (amended): `GenerateClientHello` sets no limit on the session id. Whenever the fields
of a template decode it returns bytes, whatever the length of the session id (also more than
255 bytes); the byte after the random holds that length modulo 256 and all the bytes of the
session id follow it. -/
theorem GenerateClientHello_session_id_unchecked (t : ChromeTemplate)
    (random sessionID : List Nat)
    (hr : DecodeString t.ClientHello.Random = some random)
    (hs : DecodeString t.ClientHello.SessionID = some sessionID)
    (hc : ∀ s ∈ t.ClientHello.CipherSuites, (Sscanf s).isSome = true)
    (he : ∀ e ∈ t.ClientHello.Extensions, (DecodeString e.Data).isSome = true) :
    ∃ out, GenerateClientHello t = .ok out ∧
      out[12 + random.length]? = some (sessionID.length % 256) ∧
      (out.drop (13 + random.length)).take sessionID.length = sessionID := by
  obtain ⟨cs, ex, -, -, -, hout⟩ := GenerateClientHello_eq_recordOf t random sessionID hr hs hc he
  refine ⟨_, hout, ?_, ?_⟩
  · have e : handshakeBody random sessionID cs t.ClientHello.CompressionMethods ex
        = ([0x03, 0x03] ++ random) ++ (sessionID.length % 256) :: (sessionID
            ++ [(cs.length >>> 8) % 256, cs.length % 256] ++ cs
            ++ [t.ClientHello.CompressionMethods.length % 256]
            ++ t.ClientHello.CompressionMethods.map byteOfInt
            ++ [(ex.length >>> 8) % 256, ex.length % 256] ++ ex) := by
      simp [handshakeBody]
    rw [show 12 + random.length = 10 + (2 + random.length) by omega, recordOf_getElem?, e]
    exact getElem?_append_cons _ _ _ _ (by simp; omega)
  · have e : handshakeBody random sessionID cs t.ClientHello.CompressionMethods ex
        = ([0x03, 0x03] ++ random ++ [sessionID.length % 256]) ++ (sessionID
            ++ ([(cs.length >>> 8) % 256, cs.length % 256] ++ cs
            ++ [t.ClientHello.CompressionMethods.length % 256]
            ++ t.ClientHello.CompressionMethods.map byteOfInt
            ++ [(ex.length >>> 8) % 256, ex.length % 256] ++ ex)) := by
      simp [handshakeBody]
    rw [show 13 + random.length = 10 + (3 + random.length) by omega, recordOf_drop, e,
      List.drop_append_of_le_length (by simp; omega), List.drop_of_length_le (by simp; omega)]
    simp

/-- C11 (witness): the amended statement at the template with a 256-byte session id. -/
theorem GenerateClientHello_session_id_unchecked_witness :
    ∃ out, GenerateClientHello longSessionTemplate = .ok out ∧
      out[12 + (List.replicate 32 0).length]? = some ((List.replicate 256 0).length % 256) ∧
      (out.drop (13 + (List.replicate 32 0).length)).take (List.replicate 256 0).length
        = List.replicate 256 0 :=
  GenerateClientHello_session_id_unchecked longSessionTemplate (List.replicate 32 0)
    (List.replicate 256 0) (by decide) (by decide) (by decide) (by decide)

/-- C12 (counterexample): for a template without cipher suites `GenerateClientHello` returns
bytes and no error. -/
theorem empty_suite_list_is_not_rejected :
    noSuiteTemplate.ClientHello.CipherSuites = [] ∧
      (GenerateClientHello noSuiteTemplate).isOk = true := by
  decide

/-- C12 (amended): `GenerateClientHello` accepts an empty cipher-suite list. For every
template without cipher suites whose base64 fields decode it returns bytes, in which the
session id is followed by the block length 00 00 and then directly by the count of
compression methods. -/
theorem GenerateClientHello_accepts_no_suites (t : ChromeTemplate)
    (random sessionID : List Nat)
    (hr : DecodeString t.ClientHello.Random = some random)
    (hs : DecodeString t.ClientHello.SessionID = some sessionID)
    (hc : t.ClientHello.CipherSuites = [])
    (he : ∀ e ∈ t.ClientHello.Extensions, (DecodeString e.Data).isSome = true) :
    ∃ out, GenerateClientHello t = .ok out ∧
      out[13 + random.length + sessionID.length]? = some 0 ∧
      out[14 + random.length + sessionID.length]? = some 0 ∧
      out[15 + random.length + sessionID.length]?
        = some (t.ClientHello.CompressionMethods.length % 256) := by
  obtain ⟨cs, ex, hcs, -, -, hout⟩ := GenerateClientHello_eq_recordOf t random sessionID hr hs
    (by rw [hc]; intro s h; exact absurd h (List.not_mem_nil s)) he
  rw [hc] at hcs
  have hnil : cs = [] := by
    simp only [encodeCipherSuites, Outcome.ok.injEq] at hcs
    exact hcs.symm
  subst hnil
  refine ⟨_, hout, ?_, ?_, ?_⟩
  · have e : handshakeBody random sessionID [] t.ClientHello.CompressionMethods ex
        = ([0x03, 0x03] ++ random ++ [sessionID.length % 256] ++ sessionID) ++ 0 :: (0 ::
            ([t.ClientHello.CompressionMethods.length % 256]
            ++ t.ClientHello.CompressionMethods.map byteOfInt
            ++ [(ex.length >>> 8) % 256, ex.length % 256] ++ ex)) := by
      simp [handshakeBody]
    rw [show 13 + random.length + sessionID.length = 10 + (3 + random.length + sessionID.length)
      by omega, recordOf_getElem?, e]
    exact getElem?_append_cons _ _ _ _ (by simp; omega)
  · have e : handshakeBody random sessionID [] t.ClientHello.CompressionMethods ex
        = ([0x03, 0x03] ++ random ++ [sessionID.length % 256] ++ sessionID ++ [0]) ++ 0 ::
            ([t.ClientHello.CompressionMethods.length % 256]
            ++ t.ClientHello.CompressionMethods.map byteOfInt
            ++ [(ex.length >>> 8) % 256, ex.length % 256] ++ ex) := by
      simp [handshakeBody]
    rw [show 14 + random.length + sessionID.length = 10 + (4 + random.length + sessionID.length)
      by omega, recordOf_getElem?, e]
    exact getElem?_append_cons _ _ _ _ (by simp; omega)
  · have e : handshakeBody random sessionID [] t.ClientHello.CompressionMethods ex
        = ([0x03, 0x03] ++ random ++ [sessionID.length % 256] ++ sessionID ++ [0, 0])
          ++ (t.ClientHello.CompressionMethods.length % 256) ::
            (t.ClientHello.CompressionMethods.map byteOfInt
            ++ [(ex.length >>> 8) % 256, ex.length % 256] ++ ex) := by
      simp [handshakeBody]
    rw [show 15 + random.length + sessionID.length = 10 + (5 + random.length + sessionID.length)
      by omega, recordOf_getElem?, e]
    exact getElem?_append_cons _ _ _ _ (by simp; omega)

/-- C12 (witness): the amended statement at the template without cipher suites. -/
theorem GenerateClientHello_accepts_no_suites_witness :
    ∃ out, GenerateClientHello noSuiteTemplate = .ok out ∧
      out[13 + (List.replicate 32 0).length + (List.replicate 32 0).length]? = some 0 ∧
      out[14 + (List.replicate 32 0).length + (List.replicate 32 0).length]? = some 0 ∧
      out[15 + (List.replicate 32 0).length + (List.replicate 32 0).length]?
        = some (noSuiteTemplate.ClientHello.CompressionMethods.length % 256) :=
  GenerateClientHello_accepts_no_suites noSuiteTemplate (List.replicate 32 0)
    (List.replicate 32 0) (by decide) (by decide) (by decide) (by decide)

/-- C13: on every buffer of at least 5 bytes whose first byte is not 0x16, whatever the other
bytes are, `CalculateJA3` and `CalculateJA4` return the error "not a handshake record". -/
theorem non_handshake_record_rejected (clientHello : List Nat) (hlen : 5 ≤ clientHello.length)
    (h0 : clientHello[0]? ≠ some 0x16) :
    CalculateJA3 clientHello = .error "not a handshake record" ∧
      CalculateJA4 clientHello = .error "not a handshake record" := by
  have hget : clientHello[0]? = some (clientHello.getD 0 0) := by
    rw [List.getD_eq_getElem?_getD, List.getElem?_eq_getElem (by omega)]
    rfl
  have hne : clientHello.getD 0 0 ≠ 0x16 := by
    intro h
    rw [hget, h] at h0
    exact h0 rfl
  constructor
  · unfold CalculateJA3
    rw [if_neg (by omega), index_eq_ok clientHello 0 (by omega)]
    simp only [Outcome.bind_def, Outcome.bind_ok]
    rw [if_pos hne]
  · unfold CalculateJA4
    rw [if_neg (by omega), index_eq_ok clientHello 0 (by omega)]
    simp only [Outcome.bind_def, Outcome.bind_ok]
    rw [if_pos hne]

/-- C13 (witness): the statement at the 5-byte buffer 17 03 03 00 00. -/
theorem non_handshake_record_rejected_witness :
    CalculateJA3 [0x17, 0x03, 0x03, 0x00, 0x00] = .error "not a handshake record" ∧
      CalculateJA4 [0x17, 0x03, 0x03, 0x00, 0x00] = .error "not a handshake record" :=
  non_handshake_record_rejected [0x17, 0x03, 0x03, 0x00, 0x00] (by decide) (by decide)

/-- C14: on every buffer of at least 6 bytes whose byte 0 is 0x16 and whose byte 5 is not
0x01, `CalculateJA3` and `CalculateJA4` return the error "not a ClientHello"; the outcome is
the same whatever the other bytes are, and the parser of the body is not run (its own errors
read "failed to extract components"). -/
theorem non_client_hello_rejected (clientHello : List Nat) (hlen : 6 ≤ clientHello.length)
    (h0 : clientHello[0]? = some 0x16) (h5 : clientHello[5]? ≠ some 0x01) :
    CalculateJA3 clientHello = .error "not a ClientHello" ∧
      CalculateJA4 clientHello = .error "not a ClientHello" := by
  have hget0 : clientHello[0]? = some (clientHello.getD 0 0) := by
    rw [List.getD_eq_getElem?_getD, List.getElem?_eq_getElem (by omega)]
    rfl
  have hget5 : clientHello[5]? = some (clientHello.getD 5 0) := by
    rw [List.getD_eq_getElem?_getD, List.getElem?_eq_getElem (by omega)]
    rfl
  have he0 : clientHello.getD 0 0 = 0x16 := by
    rw [hget0] at h0
    exact Option.some.inj h0
  have hne : clientHello.getD 5 0 ≠ 0x01 := by
    intro h
    rw [hget5, h] at h5
    exact h5 rfl
  constructor
  · unfold CalculateJA3
    rw [if_neg (by omega), index_eq_ok clientHello 0 (by omega)]
    simp only [Outcome.bind_def, Outcome.bind_ok]
    rw [if_neg (by rw [he0]; decide), index_eq_ok clientHello 5 (by omega)]
    simp only [Outcome.bind_ok]
    rw [if_pos hne]
  · unfold CalculateJA4
    rw [if_neg (by omega), index_eq_ok clientHello 0 (by omega)]
    simp only [Outcome.bind_def, Outcome.bind_ok]
    rw [if_neg (by rw [he0]; decide), index_eq_ok clientHello 5 (by omega)]
    simp only [Outcome.bind_ok]
    rw [if_pos hne]

/-- C14 (witness): the statement at the 6-byte buffer 16 03 03 00 00 02. -/
theorem non_client_hello_rejected_witness :
    CalculateJA3 [0x16, 0x03, 0x03, 0x00, 0x00, 0x02] = .error "not a ClientHello" ∧
      CalculateJA4 [0x16, 0x03, 0x03, 0x00, 0x00, 0x02] = .error "not a ClientHello" :=
  non_client_hello_rejected [0x16, 0x03, 0x03, 0x00, 0x00, 0x02] (by decide) (by decide)
    (by decide)

/-- C15: on every record laid out per the wire grammar the parser expects (3-byte handshake
length, 32-byte random, cipher-suite block of n codes with length 2n, any extensions),
`extractJA3Components` succeeds, the TLS version it returns is the 16-bit big-endian value
of the bytes at offsets 9-10, and its cipher-suite list is the n codes in decimal, in wire
order. -/
theorem parser_extracts_version_and_suites (w : WireHead) (hw : w.valid)
    (exts : List (Nat × List Nat)) (he : (extensionsBlock exts).length < 65536) :
    ∃ c hi lo, extractJA3Components (w.record exts) = .ok c ∧
      (w.record exts)[9]? = some hi ∧ (w.record exts)[10]? = some lo ∧
      c.TLSVersion = hi * 256 + lo ∧ c.TLSVersion = w.version ∧
      c.CipherSuites = w.suites.map Itoa := by
  unfold WireHead.record
  rw [extractJA3Components_wireHead w hw _ he]
  obtain ⟨c, hc⟩ := extensionsLoop_returns
    (w.bytes (extensionsBlock exts).length ++ extensionsBlock exts)
    ((w.bytes (extensionsBlock exts).length).length + (extensionsBlock exts).length)
    ((w.bytes (extensionsBlock exts).length ++ extensionsBlock exts).length + 1)
    (w.bytes (extensionsBlock exts).length).length
    { TLSVersion := w.version, CipherSuites := w.suites.map Itoa } (by omega) (by omega)
  obtain ⟨hv, hs⟩ := extensionsLoop_keeps _ _ _ _ _ _ hc
  have hv2 : c.TLSVersion = w.version := hv
  refine ⟨c, w.version / 256 % 256, w.version % 256, hc, ?_, ?_, ?_, hv2, hs⟩
  · simp [WireHead.bytes, bigEndian16]
  · simp [WireHead.bytes, bigEndian16]
  · rw [hv2]
    have := hw.1
    omega

/-- C15 (witness): the statement at a record with two cipher suites and the extensions
ec_point_formats and supported_groups. -/
theorem parser_extracts_version_and_suites_witness :
    ∃ c hi lo, extractJA3Components formatsThenGroups = .ok c ∧
      formatsThenGroups[9]? = some hi ∧ formatsThenGroups[10]? = some lo ∧
      c.TLSVersion = hi * 256 + lo ∧ c.TLSVersion = sampleHead.version ∧
      c.CipherSuites = sampleHead.suites.map Itoa :=
  parser_extracts_version_and_suites sampleHead (by decide) [(11, [1, 0]), (10, [0, 2, 0, 29])]
    (by decide)

/-- C16 (the code at a failing input): on a well-formed record whose supported_groups
extension (one group, 0x001d) stands after an ec_point_formats extension, the parser returns
an empty elliptic-curve list and reads the extension types 11 and 2560. -/
theorem groups_after_formats_are_lost :
    extractJA3Components formatsThenGroups = .ok
      { TLSVersion := 771, CipherSuites := ["4865".toList, "49199".toList],
        Extensions := ["11".toList, "2560".toList], EllipticCurves := [],
        EllipticCurvePointFormats := ["0".toList] } := by
  decide

/-- C17: on every buffer on which `CalculateJA3` succeeds the fingerprint has exactly 32
characters, each a lowercase hexadecimal digit; it is the hex rendering of the 16-byte MD5
digest of the canonical string of the parsed components. -/
theorem ja3_fingerprint_shape (clientHello : List Nat) (fp : GoString)
    (h : CalculateJA3 clientHello = .ok fp) :
    fp.length = 32 ∧ (∀ ch ∈ fp, ch ∈ lowerHexDigits) ∧
      ∃ c, extractJA3Components clientHello = .ok c ∧
        (md5Sum (stringBytes (ja3String c))).length = 16 ∧
        fp = hexString (md5Sum (stringBytes (ja3String c))) := by
  obtain ⟨c, hc, rfl, -⟩ := CalculateJA3_ok_inv clientHello fp h
  refine ⟨?_, hexString_lower _, c, hc, md5Sum_length _, rfl⟩
  rw [hexString_length, md5Sum_length]

/-- C17 (witness): the statement at a record with two cipher suites and no extensions, whose
fingerprint is 0a7054dcf2feaaa93951581bfb964033. -/
theorem ja3_fingerprint_shape_witness :
    CalculateJA3 plainHello = .ok "0a7054dcf2feaaa93951581bfb964033".toList ∧
      "0a7054dcf2feaaa93951581bfb964033".toList.length = 32 ∧
      (∀ ch ∈ "0a7054dcf2feaaa93951581bfb964033".toList, ch ∈ lowerHexDigits) ∧
      ∃ c, extractJA3Components plainHello = .ok c ∧
        (md5Sum (stringBytes (ja3String c))).length = 16 ∧
        "0a7054dcf2feaaa93951581bfb964033".toList
          = hexString (md5Sum (stringBytes (ja3String c))) :=
  ⟨by decide, ja3_fingerprint_shape plainHello _ (by decide)⟩

/-- C18: the canonical JA3 string of any components value is its five fields in order with
one comma between two neighbours, four commas in all, an empty list giving an empty field;
and on every well-formed record with cipher suites c1..cn and no extensions the string that
`CalculateJA3` hashes is the decimal version, a comma, the comma-joined decimal cipher codes
and three trailing commas. -/
theorem ja3_string_keeps_empty_fields (c : JA3Components) (w : WireHead) (hw : w.valid) :
    ja3String c = Itoa c.TLSVersion ++ [','] ++ Join c.CipherSuites [','] ++ [',']
        ++ Join c.Extensions [','] ++ [','] ++ Join c.EllipticCurves [','] ++ [',']
        ++ Join c.EllipticCurvePointFormats [','] ∧
      ∃ parsed, extractJA3Components (w.record []) = .ok parsed ∧
        ja3String parsed
          = Itoa w.version ++ [','] ++ Join (w.suites.map Itoa) [','] ++ [',', ',', ','] ∧
        CalculateJA3 (w.record [])
          = .ok (hexString (md5Sum (stringBytes (Itoa w.version ++ [',']
              ++ Join (w.suites.map Itoa) [','] ++ [',', ',', ','])))) := by
  constructor
  · simp [ja3String, Join, List.intercalate]
  · have hparse : extractJA3Components (w.record [])
        = .ok { TLSVersion := w.version, CipherSuites := w.suites.map Itoa } := by
      unfold WireHead.record
      rw [extractJA3Components_wireHead w hw _ (by simp [extensionsBlock])]
      unfold extensionsLoop
      rw [if_neg (by simp [extensionsBlock])]
    have hstr : ja3String { TLSVersion := w.version, CipherSuites := w.suites.map Itoa }
        = Itoa w.version ++ [','] ++ Join (w.suites.map Itoa) [','] ++ [',', ',', ','] := by
      simp [ja3String, Join, List.intercalate]
    refine ⟨_, hparse, hstr, ?_⟩
    have hlen : 5 ≤ (w.record []).length := by
      unfold WireHead.record
      rw [List.length_append, w.bytes_length]
      omega
    obtain ⟨h0, h5⟩ := WireHead.header_reads w (extensionsBlock []).length (extensionsBlock [])
    rw [CalculateJA3_eq_ok (w.record []) _ hlen h0 h5 hparse, hstr]

/-- C18 (witness): the statement at the sample record, whose canonical string is
771,4865,49199,,, -/
theorem ja3_string_keeps_empty_fields_witness :
    sampleHead.valid ∧
      ∃ parsed, extractJA3Components (sampleHead.record []) = .ok parsed ∧
        ja3String parsed = Itoa sampleHead.version ++ [',']
          ++ Join (sampleHead.suites.map Itoa) [','] ++ [',', ',', ','] ∧
        CalculateJA3 (sampleHead.record [])
          = .ok (hexString (md5Sum (stringBytes (Itoa sampleHead.version ++ [',']
              ++ Join (sampleHead.suites.map Itoa) [','] ++ [',', ',', ','])))) :=
  ⟨by decide, (ja3_string_keeps_empty_fields {} sampleHead (by decide)).2⟩

/-- C19: on every buffer on which `CalculateJA4` succeeds, splitting the result on the
underscore gives exactly eleven parts: ten segments that begin with the letters t, d, h, c,
e, g, p, a, r, u in that order, and then the digest of the ten segments joined by
underscores, 32 lowercase hexadecimal digits. -/
theorem ja4_fingerprint_structure (clientHello : List Nat) (fp : GoString)
    (h : CalculateJA4 clientHello = .ok fp) :
    ∃ segments digest, Split fp '_' = segments ++ [digest] ∧
      (Split fp '_').length = 11 ∧
      segments.map List.head? = [some 't', some 'd', some 'h', some 'c', some 'e', some 'g',
        some 'p', some 'a', some 'r', some 'u'] ∧
      digest = hexString (md5Sum (stringBytes (Join segments ['_']))) ∧
      digest.length = 32 ∧ ∀ ch ∈ digest, ch ∈ lowerHexDigits := by
  obtain ⟨c4, -, -, -, -, -, -, hsplit⟩ := CalculateJA4_split clientHello fp h
  refine ⟨ja4Parts c4, _, hsplit, ?_, ?_, rfl, ?_, hexString_lower _⟩
  · rw [hsplit]
    simp [ja4Parts]
  · simp [ja4Parts]
  · rw [hexString_length, md5Sum_length]

/-- C19 (witness): the statement at a record with a supported_groups extension, whose JA4
fingerprint is t771_d0_h0_c4865-49199_e10_g29_p_a_r_u_455f1edd5ade58b40fceaa8f4fa458f7. -/
theorem ja4_fingerprint_structure_witness :
    CalculateJA4 groupsThenOther
        = .ok "t771_d0_h0_c4865-49199_e10_g29_p_a_r_u_455f1edd5ade58b40fceaa8f4fa458f7".toList ∧
      ∃ segments digest,
        Split "t771_d0_h0_c4865-49199_e10_g29_p_a_r_u_455f1edd5ade58b40fceaa8f4fa458f7".toList '_'
          = segments ++ [digest] ∧
        (Split "t771_d0_h0_c4865-49199_e10_g29_p_a_r_u_455f1edd5ade58b40fceaa8f4fa458f7".toList
          '_').length = 11 ∧
        segments.map List.head? = [some 't', some 'd', some 'h', some 'c', some 'e', some 'g',
          some 'p', some 'a', some 'r', some 'u'] ∧
        digest = hexString (md5Sum (stringBytes (Join segments ['_']))) ∧
        digest.length = 32 ∧ ∀ ch ∈ digest, ch ∈ lowerHexDigits :=
  ⟨by decide, ja4_fingerprint_structure groupsThenOther _ (by decide)⟩

/-- C20 (counterexample): on a well-formed record, whose byte 5 is 1, `CalculateJA4` succeeds
and the third segment of its result is h0, not h1. -/
theorem handshake_segment_is_not_h1 :
    plainHello[5]? = some 1 ∧
      CalculateJA4 plainHello
        = .ok "t771_d0_h0_c4865-49199_e_g_p_a_r_u_6b17be3bf3fe487801371da35c668a27".toList ∧
      (Split "t771_d0_h0_c4865-49199_e_g_p_a_r_u_6b17be3bf3fe487801371da35c668a27".toList '_')[2]?
        = some "h0".toList ∧
      "h0".toList ≠ "h1".toList := by
  decide

/-- C20 (amended): on every buffer on which `CalculateJA4` succeeds byte 5 is 1 and the third
segment of the result is h0: `extractJA4Components` copies the JA3 fields only and the
handshake field keeps its zero value, whatever the handshake message type is. -/
theorem ja4_handshake_segment_is_h0 (clientHello : List Nat) (fp : GoString)
    (h : CalculateJA4 clientHello = .ok fp) :
    clientHello[5]? = some 1 ∧ (Split fp '_')[2]? = some "h0".toList := by
  obtain ⟨c4, -, -, hh, -, -, -, hsplit⟩ := CalculateJA4_split clientHello fp h
  obtain ⟨-, -, -, hlen, -, h5⟩ := CalculateJA4_ok_inv clientHello fp h
  constructor
  · rw [← h5, List.getD_eq_getElem?_getD, List.getElem?_eq_getElem (by omega)]
    rfl
  · rw [hsplit]
    simp only [ja4Parts, hh]
    rfl

/-- C20 (witness): the amended statement at a record with a truncated extension, whose JA4
fingerprint is t771_d0_h0_c4865-49199_e23_g_p_a_r_u_ followed by the digest. -/
theorem ja4_handshake_segment_is_h0_witness :
    CalculateJA4 truncatedHello
        = .ok "t771_d0_h0_c4865-49199_e23_g_p_a_r_u_5c09d9ebe657e1766d7f055c39cfdc9c".toList ∧
      truncatedHello[5]? = some 1 ∧
      (Split "t771_d0_h0_c4865-49199_e23_g_p_a_r_u_5c09d9ebe657e1766d7f055c39cfdc9c".toList '_')[2]?
        = some "h0".toList :=
  ⟨by decide, ja4_handshake_segment_is_h0 truncatedHello _ (by decide)⟩

/-- C21 (counterexample): on a well-formed record whose signature_algorithms extension holds
the code 0x0804 (2052), `CalculateJA4` succeeds and the a segment of its result is the bare
letter a, not a2052. -/
theorem signature_segment_is_not_filled :
    CalculateJA4 signatureHello
        = .ok "t771_d0_h0_c4865-49199_e13_g_p_a_r_u_41385a5a9138b9fb91c4637c75f586a9".toList ∧
      (Split "t771_d0_h0_c4865-49199_e13_g_p_a_r_u_41385a5a9138b9fb91c4637c75f586a9".toList '_')[7]?
        = some "a".toList ∧
      "a".toList ≠ "a2052".toList := by
  decide

/-- C21 (amended): on every buffer on which `CalculateJA4` succeeds, also one that holds a
signature_algorithms extension with codes, the a segment of the result is the bare letter
a: `extractJA4Components` copies the JA3 fields only and parses no signature algorithm. -/
theorem ja4_signature_segment_is_empty (clientHello : List Nat) (fp : GoString)
    (h : CalculateJA4 clientHello = .ok fp) :
    (Split fp '_')[7]? = some "a".toList := by
  obtain ⟨c4, -, -, -, ha, -, -, hsplit⟩ := CalculateJA4_split clientHello fp h
  rw [hsplit]
  simp only [ja4Parts, ha]
  rfl

/-- C21 (witness): the amended statement at a record with a signature_algorithms extension of
two codes. -/
theorem ja4_signature_segment_is_empty_witness :
    CalculateJA4 twoSignaturesHello
        = .ok "t771_d0_h0_c4865-49199_e0-13_g_p_a_r_u_56687d493bf84fd1b81e8e5d68e6d7d9".toList ∧
      (Split "t771_d0_h0_c4865-49199_e0-13_g_p_a_r_u_56687d493bf84fd1b81e8e5d68e6d7d9".toList
        '_')[7]? = some "a".toList :=
  ⟨by decide, ja4_signature_segment_is_empty twoSignaturesHello _ (by decide)⟩

/-- C22 (the code at a failing input): for the version 120.0.6099.109 and zero random bytes
`GenerateChromeTemplate` returns a template with the requested version whose JA3Fingerprint
and JA4Fingerprint fields are empty. -/
theorem generated_template_has_no_fingerprints :
    ∃ t, GenerateChromeTemplate "120.0.6099.109".toList (some (List.replicate 32 0))
        (some (List.replicate 32 0)) = .ok t ∧
      t.Version = "120.0.6099.109".toList ∧ t.JA3Fingerprint = [] ∧ t.JA4Fingerprint = [] := by
  refine ⟨_, rfl, ?_, ?_, ?_⟩ <;> decide

/-- C23: `GenerateChromeTemplate` returns the error "unsupported Chrome version" for every
version string whose major component has no entry in `ChromeConfigs`, whatever the random
source does, and returns a template with the requested version for every version string
whose major component is 120 when both calls of the random source succeed. -/
theorem unsupported_versions_rejected (version : GoString)
    (random sessionID : Option (List Nat)) :
    (ChromeConfigs (majorComponent version) = none →
      GenerateChromeTemplate version random sessionID
        = .error ("unsupported Chrome version: " ++ String.mk version)) ∧
    (majorComponent version = "120".toList → random.isSome = true → sessionID.isSome = true →
      ∃ t, GenerateChromeTemplate version random sessionID = .ok t ∧ t.Version = version) := by
  obtain ⟨rest, hsplit⟩ := Split_eq_major_cons version
  constructor
  · intro hnone
    unfold GenerateChromeTemplate
    rw [hsplit]
    simp only [hnone]
  · intro hmajor hr hs
    obtain ⟨r, rfl⟩ := Option.isSome_iff_exists.mp hr
    obtain ⟨s, rfl⟩ := Option.isSome_iff_exists.mp hs
    unfold GenerateChromeTemplate
    rw [hsplit, hmajor]
    exact ⟨_, rfl, rfl⟩

/-- C23 (witness): the version 999.0.0.0 is rejected and the version 120.0.6099.109 gives a
template. -/
theorem unsupported_versions_rejected_witness :
    GenerateChromeTemplate "999.0.0.0".toList (some (List.replicate 32 0))
        (some (List.replicate 32 0))
      = .error ("unsupported Chrome version: " ++ String.mk "999.0.0.0".toList) ∧
    ∃ t, GenerateChromeTemplate "120.0.6099.109".toList (some (List.replicate 32 0))
        (some (List.replicate 32 0)) = .ok t ∧ t.Version = "120.0.6099.109".toList :=
  ⟨(unsupported_versions_rejected "999.0.0.0".toList (some (List.replicate 32 0))
      (some (List.replicate 32 0))).1 (by decide),
   (unsupported_versions_rejected "120.0.6099.109".toList (some (List.replicate 32 0))
      (some (List.replicate 32 0))).2 (by decide) (by decide) (by decide)⟩

/-- C24 (the code at a failing input): on a record whose cipher-suite block has the declared
length 3 the parser succeeds and returns two cipher suites; the second, 49153 = 0xc001, is
built from the last byte of the block and the byte that follows it. -/
theorem odd_block_reads_past_the_block :
    uint16At oddBlockHello 44 = .ok 3 ∧
      extractJA3Components oddBlockHello = .ok
        { TLSVersion := 771, CipherSuites := ["4865".toList, "49153".toList],
          Extensions := [], EllipticCurves := [], EllipticCurvePointFormats := [] } := by
  decide

/-- C25 (the code at a failing input): on a well-formed record whose supported_groups
extension has a 4-byte payload with the inner list length 4, followed by an extension of
type 23, the parser returns the groups 29 and 23; the second is read from the two type bytes
of the following extension. -/
theorem groups_read_past_the_payload :
    extractJA3Components overlongGroupsHello = .ok
      { TLSVersion := 771, CipherSuites := ["4865".toList, "49199".toList],
        Extensions := ["10".toList], EllipticCurves := ["29".toList, "23".toList],
        EllipticCurvePointFormats := [] } := by
  decide

/-- C27 (the code at a failing input): for the version 120.0.6099.109, whose configuration
has the TLS version 0x0303, `GenerateChromeTemplate` labels the ClientHello "TLS 1.3". -/
theorem generated_template_is_labelled_tls13 :
    (ChromeConfigs "120".toList).map ChromeConfig.TLSVersion = some 0x0303 ∧
    ∃ t, GenerateChromeTemplate "120.0.6099.109".toList (some (List.replicate 32 0))
        (some (List.replicate 32 0)) = .ok t ∧
      t.ClientHello.Version = "TLS 1.3".toList ∧ t.ClientHello.Version ≠ "TLS 1.2".toList := by
  refine ⟨by decide, _, rfl, ?_, ?_⟩ <;> decide

/-- C28 (the code at a failing input): the data that `GenerateExtensionData` returns for the
type 0x0010 (application_layer_protocol_negotiation) decodes to 14 bytes that start with the
length prefix 00 05, and 12 bytes follow the prefix. -/
theorem alpn_prefix_is_five_for_twelve_bytes :
    (DecodeString (GenerateExtensionData
        ⟨0x0010, "application_layer_protocol_negotiation".toList⟩)).map
      (fun data => (data.take 2, (data.drop 2).length)) = some ([0x00, 0x05], 12) := by
  decide

/-- C26: for every template with n <= 32767 cipher-suite strings of the form 0xHHHH on which
`GenerateClientHello` succeeds, the output holds the session id at offset 13 plus the length
of the random and, immediately after it, the two big-endian bytes of 2n followed by the n
cipher-suite codes, two big-endian bytes each, in the order of the template. -/
theorem cipher_suite_block_encoding (t : ChromeTemplate) (out : List Nat)
    (h : GenerateClientHello t = .ok out) (codes : List Nat)
    (hform : t.ClientHello.CipherSuites.map suiteOfForm = codes.map some)
    (hn : codes.length ≤ 32767) :
    ∃ random sessionID hi lo,
      DecodeString t.ClientHello.Random = some random ∧
      DecodeString t.ClientHello.SessionID = some sessionID ∧
      (out.drop (13 + random.length)).take sessionID.length = sessionID ∧
      (out.drop (13 + random.length + sessionID.length)).take (2 + 2 * codes.length)
        = [hi, lo] ++ codeBytes codes ∧
      hi * 256 + lo = 2 * codes.length ∧ hi < 256 ∧ lo < 256 := by
  obtain ⟨random, sessionID, cs, ex, hr, hs, hcs, hex, rfl⟩ := GenerateClientHello_layout t out h
  rw [encodeCipherSuites_of_form _ codes [] hform] at hcs
  simp only [List.nil_append, Outcome.ok.injEq] at hcs
  subst hcs
  refine ⟨random, sessionID, 2 * codes.length / 256 % 256, 2 * codes.length % 256, hr, hs,
    ?_, ?_, by omega, by omega, by omega⟩
  · have e : handshakeBody random sessionID (codeBytes codes) t.ClientHello.CompressionMethods ex
        = ([0x03, 0x03] ++ random ++ [sessionID.length % 256]) ++ (sessionID
            ++ ([((codeBytes codes).length >>> 8) % 256, (codeBytes codes).length % 256]
            ++ codeBytes codes
            ++ [t.ClientHello.CompressionMethods.length % 256]
            ++ t.ClientHello.CompressionMethods.map byteOfInt
            ++ [(ex.length >>> 8) % 256, ex.length % 256] ++ ex)) := by
      simp [handshakeBody]
    rw [show 13 + random.length = 10 + (3 + random.length) by omega, recordOf_drop, e,
      List.drop_append_of_le_length (by simp; omega), List.drop_of_length_le (by simp; omega)]
    simp
  · have e : handshakeBody random sessionID (codeBytes codes) t.ClientHello.CompressionMethods ex
        = ([0x03, 0x03] ++ random ++ [sessionID.length % 256] ++ sessionID)
          ++ (([2 * codes.length / 256 % 256, 2 * codes.length % 256] ++ codeBytes codes)
            ++ ([t.ClientHello.CompressionMethods.length % 256]
            ++ t.ClientHello.CompressionMethods.map byteOfInt
            ++ [(ex.length >>> 8) % 256, ex.length % 256] ++ ex)) := by
      simp [handshakeBody, codeBytes_length, Nat.shiftRight_eq_div_pow]
    rw [show 13 + random.length + sessionID.length = 10 + (3 + random.length + sessionID.length)
      by omega, recordOf_drop, e,
      List.drop_append_of_le_length (by simp; omega), List.drop_of_length_le (by simp; omega)]
    rw [List.nil_append, List.take_append_of_le_length (by simp [codeBytes_length]; omega),
      List.take_of_length_le (by simp [codeBytes_length]; omega)]

/-- C26 (witness): the statement at the scenario template with its five cipher suites in
their order. -/
theorem cipher_suite_block_encoding_witness :
    ∃ out, GenerateClientHello (scenarioTemplate zeros32 zeros32) = .ok out ∧
      ∃ random sessionID hi lo,
        DecodeString (scenarioTemplate zeros32 zeros32).ClientHello.Random = some random ∧
        DecodeString (scenarioTemplate zeros32 zeros32).ClientHello.SessionID = some sessionID ∧
        (out.drop (13 + random.length)).take sessionID.length = sessionID ∧
        (out.drop (13 + random.length + sessionID.length)).take
            (2 + 2 * [0x1301, 0x1302, 0x1303, 0xc02f, 0xc02b].length)
          = [hi, lo] ++ codeBytes [0x1301, 0x1302, 0x1303, 0xc02f, 0xc02b] ∧
        hi * 256 + lo = 2 * [0x1301, 0x1302, 0x1303, 0xc02f, 0xc02b].length ∧
        hi < 256 ∧ lo < 256 :=
  ⟨_, rfl, cipher_suite_block_encoding (scenarioTemplate zeros32 zeros32) _ rfl
    [0x1301, 0x1302, 0x1303, 0xc02f, 0xc02b] (by decide) (by decide)⟩

/-- C29: for version strings v1 and v2 that `ParseVersion` accepts, `CompareVersions`
returns 1, -1 or 0 according to whether the tuple (major, minor, patch, build) of v1 is
lexicographically greater than, less than or equal to that of v2, so that swapping the
arguments negates the result and a version compares as 0 with itself; and `CompareVersions`
returns an error exactly when `ParseVersion` returns an error on v1 or on v2. -/
theorem CompareVersions_is_lexicographic (v1 v2 : GoString) :
    (∀ a b, ParseVersion v1 = .ok a → ParseVersion v2 = .ok b →
      (versionLt b a → CompareVersions v1 v2 = .ok 1) ∧
      (versionLt a b → CompareVersions v1 v2 = .ok (-1)) ∧
      (a = b → CompareVersions v1 v2 = .ok 0) ∧
      (versionLt b a ∨ versionLt a b ∨ a = b) ∧
      (∃ r, CompareVersions v1 v2 = .ok r ∧ CompareVersions v2 v1 = .ok (-r)) ∧
      CompareVersions v1 v1 = .ok 0) ∧
    ((CompareVersions v1 v2).isError = true ↔
      (ParseVersion v1).isError = true ∨ (ParseVersion v2).isError = true) := by
  constructor
  · intro a b h1 h2
    have h12 := CompareVersions_of_parsed v1 v2 a b h1 h2
    have h21 := CompareVersions_of_parsed v2 v1 b a h2 h1
    have h11 := CompareVersions_of_parsed v1 v1 a a h1 h1
    obtain ⟨a1, a2, a3, a4⟩ := a
    obtain ⟨b1, b2, b3, b4⟩ := b
    simp only [versionLt] at h12 h21 h11 ⊢
    refine ⟨?_, ?_, ?_, ?_, ?_, ?_⟩
    · intro hlt
      rw [h12, if_pos hlt]
    · intro hlt
      rw [h12, if_neg (by omega), if_pos hlt]
    · intro heq
      simp only [Prod.mk.injEq] at heq
      rw [h12, if_neg (by omega), if_neg (by omega)]
    · simp only [Prod.mk.injEq]
      omega
    · rw [h12, h21]
      split_ifs <;> first | exact ⟨_, rfl, rfl⟩ | (exfalso; omega)
    · rw [h11, if_neg (by omega), if_neg (by omega)]
  · unfold CompareVersions
    rcases ParseVersion_returns v1 with ⟨a, h1⟩ | ⟨m1, h1⟩
    · rcases ParseVersion_returns v2 with ⟨b, h2⟩ | ⟨m2, h2⟩
      · rw [h1, h2]
        simp only []
        split_ifs <;> simp [Outcome.isError]
      · rw [h1, h2]
        simp [Outcome.isError]
    · rw [h1]
      simp [Outcome.isError]

/-- C29 (witness): 120.0.6099.109 against 120.0.6099.110. -/
theorem CompareVersions_is_lexicographic_witness :
    ParseVersion "120.0.6099.109".toList = .ok (120, 0, 6099, 109) ∧
    ParseVersion "120.0.6099.110".toList = .ok (120, 0, 6099, 110) ∧
    CompareVersions "120.0.6099.109".toList "120.0.6099.110".toList = .ok (-1) :=
  ⟨by decide, by decide,
    ((CompareVersions_is_lexicographic "120.0.6099.109".toList "120.0.6099.110".toList).1
      (120, 0, 6099, 109) (120, 0, 6099, 110) (by decide) (by decide)).2.1 (by decide)⟩

/-- C30: the string that `CalculateJA4` returns is the ten segments of the components joined
by underscores, an underscore and the 32-digit digest; and for every components value whose
three numbers are non-negative Go integers and whose seven lists hold only non-empty strings
of decimal digits, `ParseJA4` applied to that string succeeds and returns the same
components, an empty list being returned as empty. -/
theorem ParseJA4_inverts_ja4_string (c : JA4Components) (hc : c.wellFormed) :
    (∀ clientHello fp, CalculateJA4 clientHello = .ok fp →
      ∃ c4, extractJA4Components clientHello = .ok c4 ∧ fp = ja4Fingerprint c4) ∧
    ParseJA4 (ja4Fingerprint c) = .ok c.toParsed := by
  constructor
  · intro clientHello fp h
    obtain ⟨c4, hc4, hfp, -⟩ := CalculateJA4_ok_inv clientHello fp h
    exact ⟨c4, hc4, hfp⟩
  · unfold ParseJA4
    simp only []
    rw [Split_ja4Fingerprint c hc]
    have hlen :
        ¬ (ja4Parts c ++ [hexString (md5Sum (stringBytes (ja4String c)))]).length < 2 := by
      simp [ja4Parts]
    rw [if_neg hlen, List.getLastD_concat, List.dropLast_concat,
      if_pos ⟨by rw [hexString_length, md5Sum_length], isHex_hexString _⟩,
      foldl_parseJA4Part_ja4Parts c hc]

/-- C30 (witness): the statement at a components value with filled and empty lists. -/
theorem ParseJA4_inverts_ja4_string_witness :
    sampleJA4.wellFormed ∧ ParseJA4 (ja4Fingerprint sampleJA4) = .ok sampleJA4.toParsed :=
  ⟨by decide, (ParseJA4_inverts_ja4_string sampleJA4 (by decide)).2⟩

/-- C31 (the code on the canonical string): for every components value whose version fits the
Go `int` and whose four lists hold non-empty decimal strings, `ParseJA3` applied to the
canonical JA3 string succeeds and returns the version, but of the cipher suites only the
first; it returns the same components exactly when each of the four lists holds one entry at
most. -/
theorem ParseJA3_inverts_short_lists_only (c : JA3Components) (hc : c.wellFormed) :
    (∃ r, ParseJA3 (ja3String c) = .ok r ∧ r.TLSVersion = c.TLSVersion ∧
      r.CipherSuites = c.CipherSuites.take 1) ∧
    (ParseJA3 (ja3String c) = .ok c.toParsed ↔
      c.CipherSuites.length ≤ 1 ∧ c.Extensions.length ≤ 1 ∧ c.EllipticCurves.length ≤ 1 ∧
        c.EllipticCurvePointFormats.length ≤ 1) := by
  constructor
  · exact ⟨_, ParseJA3_ja3String c hc _ rfl, rfl, ja3PartList_head _ hc.2.1 _⟩
  · rw [ParseJA3_ja3String c hc _ rfl]
    obtain ⟨v, s, e, g, p⟩ := c
    obtain ⟨-, h1, h2, h3, h4⟩ := hc
    simp only [JA3Components.toParsed, Outcome.ok.injEq, ParsedJA3Components.mk.injEq, true_and]
    simp only [] at h1 h2 h3 h4
    have hp := ja3PartList_head p h4 []
    rw [List.append_nil] at hp
    constructor
    · rintro ⟨e1, e2, e3, e4⟩
      rw [ja3PartList_head s h1] at e1
      have l1 := (List.take_eq_self_iff _).mp e1
      obtain ⟨f1, hf1⟩ := ja3Fields_short s l1
      rw [hf1, List.singleton_append, List.getD_cons_succ] at e2 e3 e4
      rw [ja3PartList_head e h2] at e2
      have l2 := (List.take_eq_self_iff _).mp e2
      obtain ⟨f2, hf2⟩ := ja3Fields_short e l2
      rw [hf2, List.singleton_append, List.getD_cons_succ] at e3 e4
      rw [ja3PartList_head g h3] at e3
      have l3 := (List.take_eq_self_iff _).mp e3
      obtain ⟨f3, hf3⟩ := ja3Fields_short g l3
      rw [hf3, List.singleton_append, List.getD_cons_succ, hp] at e4
      exact ⟨l1, l2, l3, (List.take_eq_self_iff _).mp e4⟩
    · rintro ⟨l1, l2, l3, l4⟩
      have e1 := ja3PartList_head s h1
        (ja3Fields e ++ (ja3Fields g ++ ja3Fields p))
      have e2 := ja3PartList_head e h2 (ja3Fields g ++ ja3Fields p)
      have e3 := ja3PartList_head g h3 (ja3Fields p)
      rw [(List.take_eq_self_iff _).mpr l1] at e1
      rw [(List.take_eq_self_iff _).mpr l2] at e2
      rw [(List.take_eq_self_iff _).mpr l3] at e3
      rw [(List.take_eq_self_iff _).mpr l4] at hp
      obtain ⟨f1, hf1⟩ := ja3Fields_short s l1
      obtain ⟨f2, hf2⟩ := ja3Fields_short e l2
      obtain ⟨f3, hf3⟩ := ja3Fields_short g l3
      refine ⟨e1, ?_, ?_, ?_⟩
      · rw [hf1, List.singleton_append, List.getD_cons_succ]
        exact e2
      · rw [hf1, hf2, List.singleton_append, List.singleton_append, List.getD_cons_succ,
          List.getD_cons_succ]
        exact e3
      · rw [hf1, hf2, hf3, List.singleton_append, List.singleton_append, List.singleton_append,
          List.getD_cons_succ, List.getD_cons_succ, List.getD_cons_succ]
        exact hp

/-- C31 (the code at a failing input): the components that the parser returns on a well-formed
record with the two cipher suites 0x1301 and 0xc02f have the canonical string
771,4865,49199,,, and `ParseJA3` returns for it the one cipher suite 4865 and the extension
49199, not the two cipher suites. -/
theorem ParseJA3_inverts_short_lists_only_witness :
    extractJA3Components plainHello = .ok twoSuitesJA3 ∧ twoSuitesJA3.wellFormed ∧
    ja3String twoSuitesJA3 = "771,4865,49199,,,".toList ∧
    ParseJA3 (ja3String twoSuitesJA3) = .ok
      { TLSVersion := 771, CipherSuites := ["4865".toList], Extensions := ["49199".toList],
        EllipticCurves := [], EllipticCurvePointFormats := [] } ∧
    ParseJA3 (ja3String twoSuitesJA3) ≠ .ok twoSuitesJA3.toParsed ∧
    ParseJA3 (ja3String shortListsJA3) = .ok shortListsJA3.toParsed :=
  ⟨by decide, by decide, by decide, by decide,
    fun h => absurd ((ParseJA3_inverts_short_lists_only twoSuitesJA3 (by decide)).2.mp h).1
      (by decide),
    (ParseJA3_inverts_short_lists_only shortListsJA3 (by decide)).2.mpr (by decide)⟩

/-- C32: for every two buffers of equal length that hold the same byte at every offset
outside 11 to 42, `CalculateJA3` returns the same outcome on both (the same fingerprint, the
same error or the same panic), and so does `CalculateJA4`. -/
theorem fingerprints_ignore_random (a b : List Nat) (hs : sameOutsideRandom a b) :
    CalculateJA3 a = CalculateJA3 b ∧ CalculateJA4 a = CalculateJA4 b := by
  have g := sameOutsideRandom_getElem? a b hs
  have he := extractJA3Components_congr a b hs.1 (g 9 (by omega)) (g 10 (by omega))
    (fun i hi => g i (by omega))
  constructor
  · unfold CalculateJA3
    rw [hs.1, index_congr a b 0 (g 0 (by omega)), index_congr a b 5 (g 5 (by omega)), he]
  · unfold CalculateJA4 extractJA4Components
    rw [hs.1, index_congr a b 0 (g 0 (by omega)), index_congr a b 5 (g 5 (by omega)), he]

/-- C32 (witness): two well-formed records that differ in all but the first byte of the
random have the same two fingerprints, and the same records cut after 44 bytes give the same
error. -/
theorem fingerprints_ignore_random_witness :
    sameOutsideRandom countingRandomHello zeroRandomHello ∧
    countingRandomHello ≠ zeroRandomHello ∧
    CalculateJA3 zeroRandomHello = .ok "06f78d2520645752855c6ff0c6279d94".toList ∧
    (CalculateJA3 countingRandomHello = CalculateJA3 zeroRandomHello ∧
      CalculateJA4 countingRandomHello = CalculateJA4 zeroRandomHello) ∧
    sameOutsideRandom cutCountingHello cutZeroHello ∧
    CalculateJA3 cutZeroHello
      = .error "failed to extract components: insufficient data for cipher suites length" ∧
    (CalculateJA3 cutCountingHello = CalculateJA3 cutZeroHello ∧
      CalculateJA4 cutCountingHello = CalculateJA4 cutZeroHello) :=
  ⟨by decide, by decide, by decide,
    fingerprints_ignore_random countingRandomHello zeroRandomHello (by decide),
    by decide, by decide,
    fingerprints_ignore_random cutCountingHello cutZeroHello (by decide)⟩

end Betanet
